import Mathlib

/-!
# PandarQT packet decoder

A shallow embedding of `pandar_pointcloud/src/lib/decoder/pandar_qt_decoder.cpp`
(`PandarQTDecoder`): the packet parser `parsePacket`, the point builder
`build_point`, the return resolvers `convert` and `convert_dual`, and the scan
assembler `unpack` / `getPointcloud`.

Conventions of the embedding.

* C++ `double` values live in an arbitrary type `D`.  The comparisons the code
  makes on them are the order of `D` (a linear order: the configured values are
  assumed not to be NaN; parsed distances never are).  The floating-point
  operations the code applies (conversion of the integer range product,
  products with table entries, the absolute difference, the time stamp) are the
  uninterpreted operations of `FloatOps D`, so every statement holds for the
  IEEE operations as well as for exact ones.
* Bytes are natural numbers; `buf[i] & 0xff` is `byteAt raw i`.
* `int` arithmetic is arithmetic on `Int` wrapped to 32 bits (`int32`) with the
  truncating remainder of C++ (`Int.tmod`).
* The statically sized arrays `blocks[BLOCK_NUM]` and `units[UNIT_NUM]` are
  total maps from indices; `parseAccesses` lists the buffer offsets the
  parser reads and the array elements it writes.
* The constants and types of `pandar_qt.hpp`, which is not among the sources,
  are the fields of `Consts`.
-/

namespace PandarQT

/-! ## Constants of `pandar_qt.hpp` -/

/-- The constants the decoder takes from `pandar_qt.hpp`.  That header is not
among the sources, so the values are parameters.  `maxAzimuthBits` records the
declared C++ type of `MAX_AZIMUTH`: `none` when it is a signed `int` (or any
type promoted to `int`), `some w` when it is an unsigned type of `w` bits
(`uint32_t`, `size_t`). -/
structure Consts where
  HEAD_SIZE : Nat
  BLOCK_NUM : Nat
  BLOCK_HEADER_AZIMUTH : Nat
  UNIT_NUM : Nat
  UNIT_SIZE : Nat
  RESERVED_SIZE : Nat
  ENGINE_VELOCITY : Nat
  TIMESTAMP_SIZE : Nat
  RETURN_SIZE : Nat
  FACTORY_SIZE : Nat
  UTC_SIZE : Nat
  PACKET_SIZE : Nat
  PACKET_WITHOUT_UDPSEQ_SIZE : Nat
  FIRST_RETURN : Nat
  LAST_RETURN : Nat
  DUAL_RETURN : Nat
  MAX_AZIMUTH : Nat
  maxAzimuthBits : Option Nat

/-- The values of the Hesai PandarQT, with `MAX_AZIMUTH` read as a signed `int`.
The source shows 64 lasers (the entries of `firing_offset_`), a header of 12
bytes (`Parse 12 Bytes Header`), an azimuth of 2 bytes, a unit of 4 bytes and a
full circle of 36000 centidegrees; the other values are those of the data sheet
of the sensor: 4 blocks per packet and a tail of 24 bytes followed by an
optional UDP sequence number of 4 bytes. -/
def pandarQT : Consts where
  HEAD_SIZE := 12
  BLOCK_NUM := 4
  BLOCK_HEADER_AZIMUTH := 2
  UNIT_NUM := 64
  UNIT_SIZE := 4
  RESERVED_SIZE := 10
  ENGINE_VELOCITY := 2
  TIMESTAMP_SIZE := 4
  RETURN_SIZE := 1
  FACTORY_SIZE := 1
  UTC_SIZE := 6
  PACKET_SIZE := 1072
  PACKET_WITHOUT_UDPSEQ_SIZE := 1068
  FIRST_RETURN := 0x33
  LAST_RETURN := 0x38
  DUAL_RETURN := 0x3B
  MAX_AZIMUTH := 36000
  maxAzimuthBits := none

/-- The PandarQT values with `MAX_AZIMUTH` read as a `uint32_t`. -/
def pandarQTu32 : Consts :=
  { pandarQT with maxAzimuthBits := some 32 }

/-! ## Machine arithmetic -/

/-- A mathematical integer wrapped to a signed 32-bit `int`. -/
def int32 (x : Int) : Int :=
  (x + 2147483648) % 4294967296 - 2147483648

/-- The C++ `%` on `int`: the remainder of the truncating division. -/
def cmod (a b : Int) : Int :=
  Int.tmod a b

/-! ## Data model -/

/-- The message `pandar_msgs::msg::PandarPacket`: the bytes and the declared
size. -/
structure PandarPacket where
  data : List Nat
  size : Nat

/-- The byte `buf[i] & 0xff` of a raw packet. -/
def byteAt (raw : PandarPacket) (i : Nat) : Nat :=
  raw.data.getD i 0 % 256

/-- Modelled from the spec: the `Header` record of `pandar_qt.hpp` (absent),
whose count, return-type and distance-unit fields are the unsigned bytes of
section 6 of the specification. -/
structure Header where
  sob : Nat
  chProtocolMajor : Nat
  chProtocolMinor : Nat
  chLaserNumber : Nat
  chBlockNumber : Nat
  chReturnType : Nat
  chDisUnit : Nat
deriving DecidableEq, Repr

/-- One laser measurement of a block. -/
structure Unit (D : Type) where
  distance : D
  intensity : Nat
  confidence : Nat

/-- One block: an azimuth and the `units` array. -/
structure Block (D : Type) where
  azimuth : Nat
  units : Nat → Unit D

/-- The calendar time `struct tm` of the packet. -/
structure Tm where
  tm_year : Int
  tm_mon : Int
  tm_mday : Int
  tm_hour : Int
  tm_min : Int
  tm_sec : Int
  tm_isdst : Int
deriving DecidableEq, Repr

/-- The floating-point operations the decoder applies to `double` values. -/
structure FloatOps (D : Type) where
  /-- The value `static_cast<double>(n) / (double)1000` of an `unsigned int`. -/
  ofMilli : Nat → D
  /-- The product of two doubles. -/
  mul : D → D → D
  /-- The value `abs(a - b)`. -/
  absDiff : D → D → D
  /-- The time stamp of a point, `timegm(&t) + usec / 1e6` plus the block and
  firing offsets of the dual (flag set) or single return firing sequence, from
  the calendar time, the microseconds, the flag, the block and the unit. -/
  stamp : Tm → Nat → Bool → Nat → Nat → D

/-- The parsed packet record `packet_`. -/
structure Packet (D : Type) where
  header : Header
  blocks : Nat → Block D
  usec : Nat
  return_mode : Nat
  t : Tm

/-- The assignment `packet_.blocks[block].azimuth = az`. -/
def Packet.setAzimuth {D : Type} (pkt : Packet D) (block az : Nat) : Packet D :=
  { pkt with
    blocks := Function.update pkt.blocks block ({ pkt.blocks block with azimuth := az }) }

/-- The assignments to the three fields of `packet_.blocks[block].units[unit]`. -/
def Packet.setUnit {D : Type} (pkt : Packet D) (block unit : Nat) (u : Unit D) : Packet D :=
  { pkt with
    blocks := Function.update pkt.blocks block
      ({ pkt.blocks block with units := Function.update (pkt.blocks block).units unit u }) }

/-! ## The packet parser -/

/-- The little-endian 16-bit value `(buf[i] & 0xff) | ((buf[i + 1] & 0xff) << 8)`. -/
def le16 (raw : PandarPacket) (i : Nat) : Nat :=
  byteAt raw i ||| (byteAt raw (i + 1) <<< 8)

/-- The unit read at offset `index`: the range `unRange` times `chDisUnit` (an
`unsigned int` product) converted to a distance, the intensity and the
confidence. -/
def unitAt {D : Type} (F : FloatOps D) (raw : PandarPacket) (chDisUnit index : Nat) : Unit D :=
  let unRange := le16 raw index
  { distance := F.ofMilli ((unRange * chDisUnit) % 4294967296)
    intensity := byteAt raw (index + 2)
    confidence := byteAt raw (index + 3) }

/-- The body of the unit loop of `parsePacket`: the state is the record and the
running `index`. -/
def parseUnit {D : Type} (K : Consts) (F : FloatOps D) (raw : PandarPacket) (block : Nat)
    (st : Packet D × Nat) (unit : Nat) : Packet D × Nat :=
  (st.1.setUnit block unit (unitAt F raw st.1.header.chDisUnit st.2), st.2 + K.UNIT_SIZE)

/-- The body of the block loop of `parsePacket`. -/
def parseBlock {D : Type} (K : Consts) (F : FloatOps D) (raw : PandarPacket)
    (st : Packet D × Nat) (block : Nat) : Packet D × Nat :=
  let pkt := st.1.setAzimuth block (le16 raw st.2)
  let index := st.2 + K.BLOCK_HEADER_AZIMUTH
  (List.range pkt.header.chLaserNumber).foldl (parseUnit K F raw block) (pkt, index)

/-- The block loop of `parsePacket`, `block` running below `chBlockNumber`. -/
def parseBlocks {D : Type} (K : Consts) (F : FloatOps D) (raw : PandarPacket)
    (st : Packet D × Nat) : Packet D × Nat :=
  (List.range st.1.header.chBlockNumber).foldl (parseBlock K F raw) st

/-- The header fields read from the first bytes of the buffer. -/
def parseHeader (raw : PandarPacket) : Header :=
  { sob := (byteAt raw 0 <<< 8) ||| byteAt raw 1
    chProtocolMajor := byteAt raw 2
    chProtocolMinor := byteAt raw 3
    chLaserNumber := byteAt raw 6
    chBlockNumber := byteAt raw 7
    chReturnType := byteAt raw 8
    chDisUnit := byteAt raw 9 }

/-- The calendar fields read at `index`, with the correction of the year. -/
def parseTime (raw : PandarPacket) (index : Nat) : Tm :=
  let year : Int := (byteAt raw index : Int) + 100
  { tm_year := if year ≥ 200 then year - 100 else year
    tm_mon := (byteAt raw (index + 1) : Int) - 1
    tm_mday := byteAt raw (index + 2)
    tm_hour := byteAt raw (index + 3)
    tm_min := byteAt raw (index + 4)
    tm_sec := byteAt raw (index + 5)
    tm_isdst := 0 }

/-- The tail of `parsePacket`: microseconds, return mode and calendar time. -/
def parseTail {D : Type} (K : Consts) (raw : PandarPacket) (st : Packet D × Nat) : Packet D :=
  let index := st.2 + K.RESERVED_SIZE + K.ENGINE_VELOCITY
  let usec := (byteAt raw index ||| (byteAt raw (index + 1) <<< 8)
      ||| (byteAt raw (index + 2) <<< 16) ||| (byteAt raw (index + 3) <<< 24)) % 4294967296
  let index := index + K.TIMESTAMP_SIZE
  let return_mode := byteAt raw index
  let index := index + K.RETURN_SIZE + K.FACTORY_SIZE
  { st.1 with usec := usec, return_mode := return_mode, t := parseTime raw index }

/-- The method `parsePacket`: the returned flag and the record `packet_` after
the call, from the raw packet and the record before the call. -/
def parsePacket {D : Type} (K : Consts) (F : FloatOps D) (raw : PandarPacket)
    (old : Packet D) : Bool × Packet D :=
  if raw.size ≠ K.PACKET_SIZE ∧ raw.size ≠ K.PACKET_WITHOUT_UDPSEQ_SIZE then
    (false, old)
  else
    let pkt := { old with header := parseHeader raw }
    if pkt.header.sob ≠ 0xEEFF then
      (false, pkt)
    else
      (true, parseTail K raw (parseBlocks K F raw (pkt, K.HEAD_SIZE)))

/-- One access of `parsePacket`: a read of `buf[offset]`, the write of
`blocks[block].azimuth`, or the write of `blocks[block].units[unit]`. -/
inductive Access where
  | read (offset : Nat)
  | azimuthWrite (block : Nat)
  | unitWrite (block unit : Nat)
deriving DecidableEq, Repr

/-- The accesses of one pass of the unit loop, after those of `st.1`. -/
def accessUnit (K : Consts) (block : Nat) (st : List Access × Nat) (unit : Nat) :
    List Access × Nat :=
  (st.1 ++ [.read st.2, .read (st.2 + 1), .unitWrite block unit,
            .read (st.2 + 2), .read (st.2 + 3)],
   st.2 + K.UNIT_SIZE)

/-- The accesses of one pass of the block loop, after those of `st.1`. -/
def accessBlock (K : Consts) (hdr : Header) (st : List Access × Nat) (block : Nat) :
    List Access × Nat :=
  (List.range hdr.chLaserNumber).foldl (accessUnit K block)
    (st.1 ++ [.read st.2, .read (st.2 + 1), .azimuthWrite block],
     st.2 + K.BLOCK_HEADER_AZIMUTH)

/-- The accesses of the tail of `parsePacket`, after those of `st.1`. -/
def accessTail (K : Consts) (st : List Access × Nat) : List Access :=
  let index := st.2 + K.RESERVED_SIZE + K.ENGINE_VELOCITY
  let index2 := index + K.TIMESTAMP_SIZE
  let index3 := index2 + K.RETURN_SIZE + K.FACTORY_SIZE
  st.1 ++ [.read index, .read (index + 1), .read (index + 2), .read (index + 3),
           .read index2,
           .read index3, .read (index3 + 1), .read (index3 + 2), .read (index3 + 3),
           .read (index3 + 4), .read (index3 + 5)]

/-- The buffer offsets `parsePacket` reads and the elements of `blocks` it
writes, in program order. -/
def parseAccesses (K : Consts) (raw : PandarPacket) : List Access :=
  if raw.size ≠ K.PACKET_SIZE ∧ raw.size ≠ K.PACKET_WITHOUT_UDPSEQ_SIZE then
    []
  else
    let hdr := parseHeader raw
    let head : List Access :=
      [.read 0, .read 1, .read 2, .read 3, .read 6, .read 7, .read 8, .read 9]
    if hdr.sob ≠ 0xEEFF then
      head
    else
      accessTail K ((List.range hdr.chBlockNumber).foldl (accessBlock K hdr) (head, K.HEAD_SIZE))

/-! ## Configuration and points -/

/-- The configured return mode. -/
inductive ReturnMode where
  | FIRST
  | LAST
  | DUAL
deriving DecidableEq, Repr

/-- The return-type tag of a point. -/
inductive ReturnType where
  | SINGLE_FIRST
  | SINGLE_LAST
  | DUAL_FIRST
  | DUAL_LAST
  | DUAL_ONLY
deriving DecidableEq, Repr

/-- The output point `PointXYZIRADT`. -/
structure Point (D : Type) where
  x : D
  y : D
  z : D
  intensity : Nat
  distance : D
  ring : Nat
  azimuth : Int
  return_type : ReturnType
  time_stamp : D

/-- The members of the decoder fixed by the constructor: the configuration and
the calibration tables. -/
structure Config (D : Type) where
  scan_phase_ : Int
  angle_range_ : Nat → Int
  distance_range_ : Nat → D
  dual_return_distance_threshold_ : D
  return_mode_ : ReturnMode
  disable_rings_ : List Int
  use_overflow_ : Bool
  azimuth_offset_ : Nat → Int
  elev_sin_table_ : Nat → D
  elev_cos_table_ : Nat → D
  azim_sin_table_ : Int → D
  azim_cos_table_ : Int → D

/-- The decision of the constructor on `use_overflow_`, from the centidegree
values `scan_phase_`, `angle_range_[0]` and `angle_range_[1]`. -/
def useOverflow (scan_phase_ angle0 angle1 : Int) : Bool :=
  let max_angle := cmod (int32 (int32 (angle1 - angle0) + 36000)) 36000
  let scan_angle := cmod (int32 (int32 (scan_phase_ - angle0) + 36000)) 36000
  max_angle == 0 || decide (scan_angle < max_angle)

/-- The expression `(block.azimuth + azimuth_offset_[unit_id] + MAX_AZIMUTH) % MAX_AZIMUTH`
of `build_point`.  The first sum is an `int`; the second sum and the remainder
are taken in the type of `MAX_AZIMUTH`. -/
def azimuth_index (K : Consts) (azimuth : Nat) (offset : Int) : Int :=
  match K.maxAzimuthBits with
  | none => cmod (int32 (int32 ((azimuth : Int) + offset) + K.MAX_AZIMUTH)) K.MAX_AZIMUTH
  | some w =>
      ((int32 ((azimuth : Int) + offset) % 2 ^ w + K.MAX_AZIMUTH) % 2 ^ w) % K.MAX_AZIMUTH

/-- The method `build_point`. -/
def build_point {D : Type} (K : Consts) (F : FloatOps D) (cfg : Config D) (pkt : Packet D)
    (block_id unit_id : Nat) (return_type : ReturnType) : Point D :=
  let block := pkt.blocks block_id
  let unit := block.units unit_id
  let dual_return := pkt.return_mode == K.DUAL_RETURN
  let azimuth_index := azimuth_index K block.azimuth (cfg.azimuth_offset_ unit_id)
  let xyDistance := F.mul unit.distance (cfg.elev_cos_table_ unit_id)
  { x := F.mul xyDistance (cfg.azim_sin_table_ azimuth_index)
    y := F.mul xyDistance (cfg.azim_cos_table_ azimuth_index)
    z := F.mul unit.distance (cfg.elev_sin_table_ unit_id)
    intensity := unit.intensity
    distance := unit.distance
    ring := unit_id
    azimuth := azimuth_index
    return_type := return_type
    time_stamp := F.stamp pkt.t pkt.usec dual_return block_id unit_id }

/-! ## The return resolvers -/

/-- The test `!disable_rings_.empty() && std::find(...) != disable_rings_.end()`:
the `long` entries are compared with the `size_t` index as 64-bit unsigned
values. -/
def ringDisabled {D : Type} (cfg : Config D) (unit_id : Nat) : Bool :=
  !cfg.disable_rings_.isEmpty &&
    cfg.disable_rings_.any (fun r => r % 2 ^ 64 == (unit_id : Int) % 2 ^ 64)

/-- The test `distance <= distance_range_[0] || distance > distance_range_[1]`. -/
def outOfRange {D : Type} [LinearOrder D] (cfg : Config D) (d : D) : Bool :=
  decide (d ≤ cfg.distance_range_ 0) || decide (d > cfg.distance_range_ 1)

/-- The tag `convert` gives its points. -/
def singleTag {D : Type} (K : Consts) (pkt : Packet D) : ReturnType :=
  if pkt.return_mode = K.FIRST_RETURN then .SINGLE_FIRST else .SINGLE_LAST

/-- The body of the unit loop of `convert`, on the cloud `block_pc`. -/
def convertUnit {D : Type} [LinearOrder D] (K : Consts) (F : FloatOps D) (cfg : Config D)
    (pkt : Packet D) (block_id : Nat) (block_pc : List (Point D)) (unit_id : Nat) :
    List (Point D) :=
  if ringDisabled cfg unit_id then
    block_pc
  else if outOfRange cfg ((pkt.blocks block_id).units unit_id).distance then
    block_pc
  else
    block_pc ++ [build_point K F cfg pkt block_id unit_id (singleTag K pkt)]

/-- The method `convert`. -/
def convert {D : Type} [LinearOrder D] (K : Consts) (F : FloatOps D) (cfg : Config D)
    (pkt : Packet D) (block_id : Nat) : List (Point D) :=
  (List.range K.UNIT_NUM).foldl (convertUnit K F cfg pkt block_id) []

/-- The body of the unit loop of `convert_dual`, on the cloud `block_pc`. -/
def convertDualUnit {D : Type} [LinearOrder D] (K : Consts) (F : FloatOps D) (cfg : Config D)
    (pkt : Packet D) (block_id : Nat) (block_pc : List (Point D)) (unit_id : Nat) :
    List (Point D) :=
  let even_block_id := block_id
  let odd_block_id := block_id + 1
  if ringDisabled cfg unit_id then
    block_pc
  else
    let even_unit := (pkt.blocks even_block_id).units unit_id
    let odd_unit := (pkt.blocks odd_block_id).units unit_id
    let even_usable := !outOfRange cfg even_unit.distance
    let odd_usable := !outOfRange cfg odd_unit.distance
    if cfg.return_mode_ = .FIRST ∧ even_usable = true then
      block_pc ++ [build_point K F cfg pkt even_block_id unit_id .SINGLE_FIRST]
    else if cfg.return_mode_ = .LAST ∧ even_usable = true then
      block_pc ++ [build_point K F cfg pkt odd_block_id unit_id .SINGLE_LAST]
    else if cfg.return_mode_ = .DUAL then
      if F.absDiff even_unit.distance odd_unit.distance < cfg.dual_return_distance_threshold_
          ∧ odd_usable = true then
        block_pc ++ [build_point K F cfg pkt odd_block_id unit_id .DUAL_ONLY]
      else
        let pc1 := if even_usable then
            block_pc ++ [build_point K F cfg pkt even_block_id unit_id .DUAL_FIRST]
          else block_pc
        if odd_usable then
          pc1 ++ [build_point K F cfg pkt odd_block_id unit_id .DUAL_LAST]
        else pc1
    else
      block_pc

/-- The method `convert_dual`. -/
def convert_dual {D : Type} [LinearOrder D] (K : Consts) (F : FloatOps D) (cfg : Config D)
    (pkt : Packet D) (block_id : Nat) : List (Point D) :=
  (List.range K.UNIT_NUM).foldl (convertDualUnit K F cfg pkt block_id) []

/-! ## The scan assembler -/

/-- The mutable members of the decoder. -/
structure State (D : Type) where
  packet_ : Packet D
  scan_pc_ : List (Point D)
  overflow_pc_ : List (Point D)
  last_phase_ : Int
  has_scanned_ : Bool
  reset_scan_ : Bool

/-- The state the constructor leaves; `packet_` is not initialised by it. -/
def State.init {D : Type} (packet_ : Packet D) : State D :=
  { packet_ := packet_
    scan_pc_ := []
    overflow_pc_ := []
    last_phase_ := 0
    has_scanned_ := false
    reset_scan_ := false }

/-- The method `hasScanned`. -/
def hasScanned {D : Type} (s : State D) : Bool :=
  s.has_scanned_

/-- The method `getPointcloud`: the returned cloud and the state after. -/
def getPointcloud {D : Type} (s : State D) : List (Point D) × State D :=
  (s.scan_pc_, { s with reset_scan_ := true })

/-- The values `block_id` takes in `for (block_id = 0; block_id < BLOCK_NUM; block_id += step)`,
from the value `block_id`, in at most `fuel` passes. -/
def blockIdsFrom (K : Consts) (step : Nat) : Nat → Nat → List Nat
  | 0, _ => []
  | fuel + 1, block_id =>
      if block_id < K.BLOCK_NUM then
        block_id :: blockIdsFrom K step fuel (block_id + step)
      else []

/-- The block indices the loops of `unpack` visit (the step is 1 or 2, so that
`BLOCK_NUM` passes suffice). -/
def blockIds (K : Consts) (step : Nat) : List Nat :=
  blockIdsFrom K step K.BLOCK_NUM 0

/-- The cloud of one block, `dual_return ? convert_dual(block_id) : convert(block_id)`. -/
def blockCloud {D : Type} [LinearOrder D] (K : Consts) (F : FloatOps D) (cfg : Config D)
    (pkt : Packet D) (dual_return : Bool) (block_id : Nat) : List (Point D) :=
  if dual_return then convert_dual K F cfg pkt block_id else convert K F cfg pkt block_id

/-- The handling of `reset_scan_` at the start of `unpack`. -/
def resetScan {D : Type} (cfg : Config D) (s : State D) : State D :=
  if s.reset_scan_ then
    if cfg.use_overflow_ then
      { s with scan_pc_ := s.overflow_pc_, overflow_pc_ := [], has_scanned_ := false,
               reset_scan_ := false }
    else
      { s with scan_pc_ := [], reset_scan_ := false }
  else s

/-- The body of the block loop of `unpack` when `use_overflow_` is set. -/
def overflowStep {D : Type} [LinearOrder D] (K : Consts) (F : FloatOps D) (cfg : Config D)
    (dual_return : Bool) (s : State D) (block_id : Nat) : State D :=
  let block_pc := blockCloud K F cfg s.packet_ dual_return block_id
  let current_phase :=
    cmod (int32 (int32 (((s.packet_.blocks block_id).azimuth : Int) - cfg.scan_phase_) + 36000))
      36000
  let s1 := if current_phase > s.last_phase_ ∧ s.has_scanned_ = false then
      { s with scan_pc_ := s.scan_pc_ ++ block_pc }
    else
      { s with overflow_pc_ := s.overflow_pc_ ++ block_pc, has_scanned_ := true }
  { s1 with last_phase_ := current_phase }

/-- The body of the block loop of `unpack` when `use_overflow_` is not set. -/
def windowStep {D : Type} [LinearOrder D] (K : Consts) (F : FloatOps D) (cfg : Config D)
    (dual_return : Bool) (s : State D) (block_id : Nat) : State D :=
  let block_pc := blockCloud K F cfg s.packet_ dual_return block_id
  let current_phase :=
    cmod (int32 (int32 (((s.packet_.blocks block_id).azimuth : Int) - cfg.angle_range_ 0)
      + 36000)) 36000
  let max_phase :=
    cmod (int32 (int32 (cfg.angle_range_ 1 - cfg.angle_range_ 0) + 36000)) 36000
  if current_phase < max_phase then
    { s with scan_pc_ := s.scan_pc_ ++ block_pc }
  else s

/-- The method `unpack`. -/
def unpack {D : Type} [LinearOrder D] (K : Consts) (F : FloatOps D) (cfg : Config D)
    (s : State D) (raw_packet : PandarPacket) : State D :=
  let r := parsePacket K F raw_packet s.packet_
  let s0 := { s with packet_ := r.2 }
  if r.1 = false then
    s0
  else
    let dual_return := s0.packet_.return_mode == K.DUAL_RETURN
    let step := if dual_return then 2 else 1
    let s1 := resetScan cfg s0
    if cfg.use_overflow_ then
      (blockIds K step).foldl (overflowStep K F cfg dual_return) s1
    else
      (blockIds K step).foldl (windowStep K F cfg dual_return) s1

/-! ## The documented layout -/

/-- The offset of block `b` in the buffer when every block carries `UNIT_NUM`
units. -/
def blockOffset (K : Consts) (b : Nat) : Nat :=
  K.HEAD_SIZE + b * (K.BLOCK_HEADER_AZIMUTH + K.UNIT_NUM * K.UNIT_SIZE)

/-- The offset of unit `u` of block `b`: after the two bytes of the azimuth,
four bytes for each unit. -/
def unitOffset (K : Consts) (b u : Nat) : Nat :=
  blockOffset K b + 2 + 4 * u

/-! ## The resolution rules in the words of the specification -/

/-- The range test of the specification: `rangeMin < range <= rangeMax`. -/
def inRange {D : Type} [LinearOrder D] (cfg : Config D) (d : D) : Bool :=
  decide (cfg.distance_range_ 0 < d) && decide (d ≤ cfg.distance_range_ 1)

/-- The usability of unit `u` of block `b`: its distance is in range and its
index is not in the list of disabled rings. -/
def usableUnit {D : Type} [LinearOrder D] (cfg : Config D) (pkt : Packet D) (b u : Nat) :
    Bool :=
  inRange cfg ((pkt.blocks b).units u).distance && !decide ((u : Int) ∈ cfg.disable_rings_)

/-- The entries of `disable_rings_` are values of the type `long`, and the
laser indices are below 2^63. -/
def ringsWellFormed {D : Type} (K : Consts) (cfg : Config D) : Prop :=
  K.UNIT_NUM ≤ 9223372036854775808
    ∧ ∀ r ∈ cfg.disable_rings_, -9223372036854775808 ≤ r ∧ r < 9223372036854775808

/-- The first-return policy for one laser of a block pair: the point of the even
block tagged `SINGLE_FIRST`, if the even measurement is in range. -/
def firstPolicyPoints {D : Type} [LinearOrder D] (K : Consts) (F : FloatOps D)
    (cfg : Config D) (pkt : Packet D) (b u : Nat) : List (Point D) :=
  if inRange cfg ((pkt.blocks b).units u).distance then
    [build_point K F cfg pkt b u .SINGLE_FIRST]
  else []

/-- The last-return policy for one laser of a block pair: the point of the odd
block tagged `SINGLE_LAST`, if the even measurement is in range. -/
def lastPolicyPoints {D : Type} [LinearOrder D] (K : Consts) (F : FloatOps D)
    (cfg : Config D) (pkt : Packet D) (b u : Nat) : List (Point D) :=
  if inRange cfg ((pkt.blocks b).units u).distance then
    [build_point K F cfg pkt (b + 1) u .SINGLE_LAST]
  else []

/-- The dual-return policy for one laser of a block pair: the point of the odd
block alone, tagged `DUAL_ONLY`, if the two distances differ by less than the
threshold and the odd measurement is in range; otherwise the point of the even
block tagged `DUAL_FIRST` if in range, then the point of the odd block tagged
`DUAL_LAST` if in range. -/
def dualPolicyPoints {D : Type} [LinearOrder D] (K : Consts) (F : FloatOps D)
    (cfg : Config D) (pkt : Packet D) (b u : Nat) : List (Point D) :=
  let even := ((pkt.blocks b).units u).distance
  let odd := ((pkt.blocks (b + 1)).units u).distance
  if F.absDiff even odd < cfg.dual_return_distance_threshold_ ∧ inRange cfg odd = true then
    [build_point K F cfg pkt (b + 1) u .DUAL_ONLY]
  else
    (if inRange cfg even then [build_point K F cfg pkt b u .DUAL_FIRST] else [])
      ++ (if inRange cfg odd then [build_point K F cfg pkt (b + 1) u .DUAL_LAST] else [])

/-- The points of one laser of a block pair under the configured policy. -/
def policyPoints {D : Type} [LinearOrder D] (K : Consts) (F : FloatOps D)
    (cfg : Config D) (pkt : Packet D) (b u : Nat) : List (Point D) :=
  match cfg.return_mode_ with
  | .FIRST => firstPolicyPoints K F cfg pkt b u
  | .LAST => lastPolicyPoints K F cfg pkt b u
  | .DUAL => dualPolicyPoints K F cfg pkt b u

/-! ## The offsets of a packet with the declared counts -/

/-- The little-endian 32-bit value read for the microseconds at offset `i`. -/
def le32 (raw : PandarPacket) (i : Nat) : Nat :=
  (byteAt raw i ||| (byteAt raw (i + 1) <<< 8)
      ||| (byteAt raw (i + 2) <<< 16) ||| (byteAt raw (i + 3) <<< 24)) % 4294967296

/-- The offset of block `b` when every block carries the declared number of
lasers (header byte 6). -/
def declaredBlockOffset (K : Consts) (raw : PandarPacket) (b : Nat) : Nat :=
  K.HEAD_SIZE + b * (K.BLOCK_HEADER_AZIMUTH + byteAt raw 6 * K.UNIT_SIZE)

/-- The offset of unit `u` of block `b` for the declared number of lasers. -/
def declaredUnitOffset (K : Consts) (raw : PandarPacket) (b u : Nat) : Nat :=
  declaredBlockOffset K raw b + K.BLOCK_HEADER_AZIMUTH + u * K.UNIT_SIZE

/-- The offset of the microseconds: behind the declared blocks (header byte 7),
the reserved bytes and the engine velocity. -/
def tailOffset (K : Consts) (raw : PandarPacket) : Nat :=
  declaredBlockOffset K raw (byteAt raw 7) + K.RESERVED_SIZE + K.ENGINE_VELOCITY

/-- The offset of the return-mode byte of the tail. -/
def returnModeOffset (K : Consts) (raw : PandarPacket) : Nat :=
  tailOffset K raw + K.TIMESTAMP_SIZE

/-- The offset of the six calendar bytes. -/
def timeOffset (K : Consts) (raw : PandarPacket) : Nat :=
  returnModeOffset K raw + K.RETURN_SIZE + K.FACTORY_SIZE

/-- Two records agree: their headers, the azimuths and the units held in the
arrays of `BLOCK_NUM` blocks and `UNIT_NUM` units, the microseconds, the return
modes and the calendar times are equal. -/
def recordsAgree {D : Type} (K : Consts) (p q : Packet D) : Prop :=
  p.header = q.header
  ∧ (∀ b, b < K.BLOCK_NUM →
      (p.blocks b).azimuth = (q.blocks b).azimuth
      ∧ ∀ u, u < K.UNIT_NUM → (p.blocks b).units u = (q.blocks b).units u)
  ∧ p.usec = q.usec ∧ p.return_mode = q.return_mode ∧ p.t = q.t

/-! ## Sequences of blocks, packets and calls -/

/-- The phase of block `block_id` relative to the scan phase, as the overflow
branch of `unpack` computes it. -/
def overflowPhase {D : Type} (cfg : Config D) (pkt : Packet D) (block_id : Nat) : Int :=
  cmod (int32 (int32 (((pkt.blocks block_id).azimuth : Int) - cfg.scan_phase_) + 36000)) 36000

/-- The phase of block `block_id` relative to the start of the output window, as
the other branch of `unpack` computes it. -/
def windowPhase {D : Type} (cfg : Config D) (pkt : Packet D) (block_id : Nat) : Int :=
  cmod (int32 (int32 (((pkt.blocks block_id).azimuth : Int) - cfg.angle_range_ 0) + 36000))
    36000

/-- The span `max_phase` of the output window. -/
def windowSpan {D : Type} (cfg : Config D) : Int :=
  cmod (int32 (int32 (cfg.angle_range_ 1 - cfg.angle_range_ 0) + 36000)) 36000

/-- The classification of one block in overflow mode, from its phase and its
cloud: the body of the loop of `unpack` without the computation of the two. -/
def classifyBlock {D : Type} (s : State D) (blk : Int × List (Point D)) : State D :=
  let s1 := if blk.1 > s.last_phase_ ∧ s.has_scanned_ = false then
      { s with scan_pc_ := s.scan_pc_ ++ blk.2 }
    else
      { s with overflow_pc_ := s.overflow_pc_ ++ blk.2, has_scanned_ := true }
  { s1 with last_phase_ := blk.1 }

/-- The state with the record `packet_` replaced, as `parsePacket` leaves it. -/
def State.withPacket {D : Type} (s : State D) (pkt : Packet D) : State D :=
  { s with packet_ := pkt }

/-- The flag `dual_return` of `unpack` for a parsed record. -/
def isDual {D : Type} (K : Consts) (pkt : Packet D) : Bool :=
  pkt.return_mode == K.DUAL_RETURN

/-- The block indices `unpack` visits for a parsed record. -/
def packetBlockIds {D : Type} (K : Consts) (pkt : Packet D) : List Nat :=
  blockIds K (if isDual K pkt then 2 else 1)

/-- The blocks `unpack` processes for a parsed record, in order: the phase
relative to the scan phase and the resolved cloud of each. -/
def packetBlocks {D : Type} [LinearOrder D] (K : Consts) (F : FloatOps D) (cfg : Config D)
    (pkt : Packet D) : List (Int × List (Point D)) :=
  (packetBlockIds K pkt).map
    (fun b => (overflowPhase cfg pkt b, blockCloud K F cfg pkt (isDual K pkt) b))

/-- The blocks processed for a sequence of raw packets, in order, from the
record `pkt` left by the packet before: a rejected packet contributes none. -/
def processedBlocks {D : Type} [LinearOrder D] (K : Consts) (F : FloatOps D) (cfg : Config D) :
    Packet D → List PandarPacket → List (Int × List (Point D))
  | _, [] => []
  | pkt, raw :: rest =>
      (if (parsePacket K F raw pkt).1 then packetBlocks K F cfg (parsePacket K F raw pkt).2
        else [])
      ++ processedBlocks K F cfg (parsePacket K F raw pkt).2 rest

/-- The ingestion of a sequence of raw packets: one call of `unpack` each. -/
def ingest {D : Type} [LinearOrder D] (K : Consts) (F : FloatOps D) (cfg : Config D)
    (s : State D) (raws : List PandarPacket) : State D :=
  raws.foldl (unpack K F cfg) s

/-- A call of one of the two methods that change the decoder. -/
inductive Call where
  | unpack (raw_packet : PandarPacket)
  | getPointcloud

/-- The state after a sequence of calls. -/
def runCalls {D : Type} [LinearOrder D] (K : Consts) (F : FloatOps D) (cfg : Config D)
    (s : State D) (calls : List Call) : State D :=
  calls.foldl (fun t c =>
    match c with
    | .unpack raw_packet => unpack K F cfg t raw_packet
    | .getPointcloud => (getPointcloud t).2) s

/-! ## Exact operations for the concrete scenarios -/

/-- The operations on rationals without rounding, for the concrete scenarios;
the time stamp counts the seconds of the current minute only. -/
def exactOps : FloatOps ℚ where
  ofMilli n := (n : ℚ) / 1000
  mul a b := a * b
  absDiff a b := |a - b|
  stamp t usec _ _ _ := (t.tm_sec : ℚ) + (usec : ℚ) / 1000000

/-- A record with every field zero. -/
def zeroPacket : Packet ℚ where
  header := ⟨0, 0, 0, 0, 0, 0, 0⟩
  blocks _ := { azimuth := 0, units := fun _ => ⟨0, 0, 0⟩ }
  usec := 0
  return_mode := 0
  t := ⟨0, 0, 0, 0, 0, 0, 0⟩

/-- A full-size single-return packet: 64 lasers, 4 blocks, distance unit 4;
block 0 has azimuth 18000 and its unit 0 has range code 250, intensity 77 and
confidence 9; every other measurement is zero; the tail carries 500000
microseconds, the return mode 0x33 and the date 2021-06-15 12:30:45. -/
def samplePacket : PandarPacket where
  data := [0xEE, 0xFF, 1, 3, 0, 0, 64, 4, 0x33, 4, 0, 0]
    ++ [0x50, 0x46, 250, 0, 77, 9] ++ List.replicate 1026 0
    ++ List.replicate 12 0 ++ [0x20, 0xA1, 0x07, 0x00] ++ [0x33] ++ [0]
    ++ [21, 6, 15, 12, 30, 45] ++ [0, 0, 0, 0]
  size := 1072

/-- A packet of the right size whose first two bytes are swapped. -/
def badFramePacket : PandarPacket where
  data := [0xFF, 0xEE, 1, 3, 0, 0, 64, 4, 0x33, 4, 0, 0] ++ List.replicate 1060 0
  size := 1072

/-- A full-size packet with a valid frame marker whose header declares 5
blocks of 65 lasers. -/
def overlongPacket : PandarPacket where
  data := [0xEE, 0xFF, 1, 3, 0, 0, 65, 5, 0x33, 4, 0, 0] ++ List.replicate 1060 0
  size := 1072

/-- A configuration: scan phase 0, the full circle as output window, distances
in (0.1, 200], merge threshold 0.04, dual policy, no disabled ring, all
lasers at elevation 0 without azimuth offset, and azimuth tables that are
exact at the multiples of 90 degrees. -/
def sampleConfig : Config ℚ where
  scan_phase_ := 0
  angle_range_ i := if i = 0 then 0 else 36000
  distance_range_ i := if i = 0 then 1 / 10 else 200
  dual_return_distance_threshold_ := 1 / 25
  return_mode_ := .DUAL
  disable_rings_ := []
  use_overflow_ := true
  azimuth_offset_ _ := 0
  elev_sin_table_ _ := 0
  elev_cos_table_ _ := 1
  azim_sin_table_ i := if i = 9000 then 1 else if i = 27000 then -1 else 0
  azim_cos_table_ i := if i = 0 then 1 else if i = 18000 then -1 else 0

/-- A point at distance 1 on ring 0. -/
def samplePoint : Point ℚ where
  x := 0
  y := -1
  z := 0
  intensity := 77
  distance := 1
  ring := 0
  azimuth := 18000
  return_type := .SINGLE_FIRST
  time_stamp := 0

/-- A state in the middle of a stream: both clouds hold a point, a rotation
has completed and the cloud has been retrieved. -/
def busyState : State ℚ where
  packet_ := zeroPacket
  scan_pc_ := [samplePoint]
  overflow_pc_ := [samplePoint, samplePoint]
  last_phase_ := 100
  has_scanned_ := true
  reset_scan_ := true

/-- The sample configuration with the first-return policy and the rings 1 and
63 disabled. -/
def ringConfig : Config ℚ :=
  { sampleConfig with return_mode_ := .FIRST, disable_rings_ := [1, 63] }

/-- A full-size dual-return packet (return mode 0x3B in the tail): laser 0 has
the range code 1250 (5.00 m) in block 0 and 1255 (5.02 m) in block 1; every
other measurement is zero. -/
def dualPacket : PandarPacket where
  data := [0xEE, 0xFF, 1, 3, 0, 0, 64, 4, 0, 4, 0, 0]
    ++ [0x10, 0x27, 0xE2, 0x04, 50, 1] ++ List.replicate 252 0
    ++ [0x10, 0x27, 0xE7, 0x04, 40, 1] ++ List.replicate 252 0
    ++ List.replicate 516 0
    ++ List.replicate 12 0 ++ [0x20, 0xA1, 0x07, 0x00] ++ [0x3B] ++ [0]
    ++ [21, 6, 15, 12, 30, 45] ++ [0, 0, 0, 0]
  size := 1072

/-- A full-size dual-return packet in which the last return of laser 0 is
missing: the range code is 1250 (5.00 m) in block 0 and 0 in block 1. -/
def lostEchoPacket : PandarPacket where
  data := [0xEE, 0xFF, 1, 3, 0, 0, 64, 4, 0, 4, 0, 0]
    ++ [0x10, 0x27, 0xE2, 0x04, 50, 1] ++ List.replicate 252 0
    ++ [0x10, 0x27, 0x00, 0x00, 0, 0] ++ List.replicate 252 0
    ++ List.replicate 516 0
    ++ List.replicate 12 0 ++ [0x20, 0xA1, 0x07, 0x00] ++ [0x3B] ++ [0]
    ++ [21, 6, 15, 12, 30, 45] ++ [0, 0, 0, 0]
  size := 1072

/-- The sample configuration with the first-return policy. -/
def firstConfig : Config ℚ :=
  { sampleConfig with return_mode_ := .FIRST }

/-- The sample configuration with the last-return policy. -/
def lastConfig : Config ℚ :=
  { sampleConfig with return_mode_ := .LAST }

/-- The sample configuration with the output window [90.00, 180.00] and the
scan phase 0, for which the constructor does not enable the overflow mode. -/
def windowConfig : Config ℚ :=
  { sampleConfig with
    angle_range_ := fun i => if i = 0 then 9000 else 18000
    use_overflow_ := false }

/-- A full-size single-return packet whose four blocks have the azimuths 0,
100, 200 and 50; laser 0 has the range code 250 in every block. -/
def zeroPhasePacket : PandarPacket where
  data := [0xEE, 0xFF, 1, 3, 0, 0, 64, 4, 0x33, 4, 0, 0]
    ++ [0, 0, 250, 0, 77, 9] ++ List.replicate 252 0
    ++ [100, 0, 250, 0, 77, 9] ++ List.replicate 252 0
    ++ [200, 0, 250, 0, 77, 9] ++ List.replicate 252 0
    ++ [50, 0, 250, 0, 77, 9] ++ List.replicate 252 0
    ++ List.replicate 12 0 ++ [0x20, 0xA1, 0x07, 0x00] ++ [0x33] ++ [0]
    ++ [21, 6, 15, 12, 30, 45] ++ [0, 0, 0, 0]
  size := 1072

/-- A full-size single-return packet whose four blocks have the azimuths 100,
200, 300 and 50; laser 0 has the range code 250 in every block. -/
def turnPacket : PandarPacket where
  data := [0xEE, 0xFF, 1, 3, 0, 0, 64, 4, 0x33, 4, 0, 0]
    ++ [100, 0, 250, 0, 77, 9] ++ List.replicate 252 0
    ++ [200, 0, 250, 0, 77, 9] ++ List.replicate 252 0
    ++ [0x2C, 0x01, 250, 0, 77, 9] ++ List.replicate 252 0
    ++ [50, 0, 250, 0, 77, 9] ++ List.replicate 252 0
    ++ List.replicate 12 0 ++ [0x20, 0xA1, 0x07, 0x00] ++ [0x33] ++ [0]
    ++ [21, 6, 15, 12, 30, 45] ++ [0, 0, 0, 0]
  size := 1072

/-- The sample packet with the year byte 121 instead of 21. -/
def centuryPacket : PandarPacket :=
  { samplePacket with data := samplePacket.data.set 1062 121 }

/-- The sample packet with the distance-unit byte 0 instead of 4. -/
def zeroUnitPacket : PandarPacket :=
  { samplePacket with data := samplePacket.data.set 9 0 }

/-- The packet `zeroUnitPacket` with the low range byte of laser 0 in block 0,
at offset 14, equal to 251 instead of 250. -/
def zeroUnitRangePacket : PandarPacket :=
  { zeroUnitPacket with data := zeroUnitPacket.data.set 14 251 }

/-- A full-size single-return packet whose header declares 2 blocks of 64
lasers; all measurements are zero. -/
def shortPacket : PandarPacket where
  data := [0xEE, 0xFF, 1, 3, 0, 0, 64, 2, 0x33, 4, 0, 0] ++ List.replicate 1060 0
  size := 1072

/-! ## Lemmas on the byte arithmetic -/

theorem byteAt_lt (raw : PandarPacket) (i : Nat) : byteAt raw i < 256 := by
  unfold byteAt
  exact Nat.mod_lt _ (by decide)

theorem shl_or_eq (a b : Nat) (hb : b < 256) : (a <<< 8) ||| b = 256 * a + b := by
  have h := Nat.mul_add_lt_is_or (i := 8) (b := b) (by simpa using hb) a
  rw [Nat.shiftLeft_eq, Nat.mul_comm a (2 ^ 8), ← h]

theorem le16_eq (raw : PandarPacket) (i : Nat) :
    le16 raw i = byteAt raw i + 256 * byteAt raw (i + 1) := by
  unfold le16
  rw [Nat.or_comm, shl_or_eq _ _ (byteAt_lt raw i)]
  omega

theorem le16_lt (raw : PandarPacket) (i : Nat) : le16 raw i < 65536 := by
  have h0 := byteAt_lt raw i
  have h1 := byteAt_lt raw (i + 1)
  rw [le16_eq]
  omega

theorem sob_eq_iff (raw : PandarPacket) :
    (parseHeader raw).sob = 0xEEFF ↔ byteAt raw 0 = 0xEE ∧ byteAt raw 1 = 0xFF := by
  have h0 := byteAt_lt raw 0
  have h1 := byteAt_lt raw 1
  show (byteAt raw 0 <<< 8) ||| byteAt raw 1 = 0xEEFF ↔ _
  rw [shl_or_eq _ _ h1]
  constructor
  · intro h
    constructor <;> omega
  · rintro ⟨ha, hb⟩
    rw [ha, hb]

/-! ## The loops of the parser -/

theorem setUnit_blocks {D : Type} (pkt : Packet D) (b u : Nat) (x : Unit D) (b' : Nat) :
    (pkt.setUnit b u x).blocks b' =
      if b' = b then
        { pkt.blocks b with units := Function.update (pkt.blocks b).units u x }
      else pkt.blocks b' := by
  unfold Packet.setUnit
  by_cases h : b' = b
  · subst h
    simp
  · simp [h]

theorem setAzimuth_blocks {D : Type} (pkt : Packet D) (b az : Nat) (b' : Nat) :
    (pkt.setAzimuth b az).blocks b' =
      if b' = b then { pkt.blocks b with azimuth := az } else pkt.blocks b' := by
  unfold Packet.setAzimuth
  by_cases h : b' = b
  · subst h
    simp
  · simp [h]

/-- The unit loop: after `n` passes from the record `pkt` and the offset `idx`,
the offset has advanced by `n` units, the units below `n` of the block hold
what was read, and nothing else has changed. -/
theorem parseUnits_spec {D : Type} (K : Consts) (F : FloatOps D) (raw : PandarPacket)
    (b : Nat) (pkt : Packet D) (idx : Nat) (n : Nat) :
    ((List.range n).foldl (parseUnit K F raw b) (pkt, idx)).2 = idx + n * K.UNIT_SIZE
    ∧ ((List.range n).foldl (parseUnit K F raw b) (pkt, idx)).1.header = pkt.header
    ∧ ((List.range n).foldl (parseUnit K F raw b) (pkt, idx)).1.usec = pkt.usec
    ∧ ((List.range n).foldl (parseUnit K F raw b) (pkt, idx)).1.return_mode = pkt.return_mode
    ∧ ((List.range n).foldl (parseUnit K F raw b) (pkt, idx)).1.t = pkt.t
    ∧ (∀ b', b' ≠ b →
        ((List.range n).foldl (parseUnit K F raw b) (pkt, idx)).1.blocks b' = pkt.blocks b')
    ∧ (((List.range n).foldl (parseUnit K F raw b) (pkt, idx)).1.blocks b).azimuth
        = (pkt.blocks b).azimuth
    ∧ (∀ u, (((List.range n).foldl (parseUnit K F raw b) (pkt, idx)).1.blocks b).units u =
        if u < n then unitAt F raw pkt.header.chDisUnit (idx + u * K.UNIT_SIZE)
        else (pkt.blocks b).units u) := by
  induction n with
  | zero => simp
  | succ n ih =>
    obtain ⟨h2, hh, hu, hr, ht, hb, ha, hun⟩ := ih
    rw [List.range_succ, List.foldl_append]
    simp only [List.foldl_cons, List.foldl_nil]
    generalize (List.range n).foldl (parseUnit K F raw b) (pkt, idx) = r at *
    refine ⟨?_, ?_, ?_, ?_, ?_, ?_, ?_, ?_⟩
    · show r.2 + K.UNIT_SIZE = _
      rw [h2, Nat.succ_mul, Nat.add_assoc]
    · exact hh
    · exact hu
    · exact hr
    · exact ht
    · intro b' hb'
      show (r.1.setUnit b n _).blocks b' = _
      rw [setUnit_blocks, if_neg hb']
      exact hb b' hb'
    · show ((r.1.setUnit b n _).blocks b).azimuth = _
      rw [setUnit_blocks, if_pos rfl]
      exact ha
    · intro u
      show ((r.1.setUnit b n (unitAt F raw r.1.header.chDisUnit r.2)).blocks b).units u = _
      rw [setUnit_blocks, if_pos rfl]
      show Function.update (r.1.blocks b).units n _ u = _
      by_cases hun' : u = n
      · subst hun'
        rw [Function.update_same, if_pos (Nat.lt_succ_self u), hh, h2]
      · rw [Function.update_noteq hun', hun u]
        by_cases hlt : u < n
        · rw [if_pos hlt, if_pos (Nat.lt_succ_of_lt hlt)]
        · rw [if_neg hlt, if_neg (by omega)]

/-- One pass of the block loop from the record `pkt` and the offset `idx`. -/
theorem parseBlock_spec {D : Type} (K : Consts) (F : FloatOps D) (raw : PandarPacket)
    (b : Nat) (pkt : Packet D) (idx : Nat) :
    (parseBlock K F raw (pkt, idx) b).2
        = idx + (K.BLOCK_HEADER_AZIMUTH + pkt.header.chLaserNumber * K.UNIT_SIZE)
    ∧ (parseBlock K F raw (pkt, idx) b).1.header = pkt.header
    ∧ (parseBlock K F raw (pkt, idx) b).1.usec = pkt.usec
    ∧ (parseBlock K F raw (pkt, idx) b).1.return_mode = pkt.return_mode
    ∧ (parseBlock K F raw (pkt, idx) b).1.t = pkt.t
    ∧ (∀ b', b' ≠ b → (parseBlock K F raw (pkt, idx) b).1.blocks b' = pkt.blocks b')
    ∧ ((parseBlock K F raw (pkt, idx) b).1.blocks b).azimuth = le16 raw idx
    ∧ (∀ u, ((parseBlock K F raw (pkt, idx) b).1.blocks b).units u =
        if u < pkt.header.chLaserNumber then
          unitAt F raw pkt.header.chDisUnit (idx + K.BLOCK_HEADER_AZIMUTH + u * K.UNIT_SIZE)
        else (pkt.blocks b).units u) := by
  have h := parseUnits_spec K F raw b (pkt.setAzimuth b (le16 raw idx))
    (idx + K.BLOCK_HEADER_AZIMUTH) pkt.header.chLaserNumber
  obtain ⟨h2, hh, hu, hr, ht, hb, ha, hun⟩ := h
  have e : parseBlock K F raw (pkt, idx) b =
      (List.range pkt.header.chLaserNumber).foldl (parseUnit K F raw b)
        (pkt.setAzimuth b (le16 raw idx), idx + K.BLOCK_HEADER_AZIMUTH) := rfl
  rw [e]
  refine ⟨?_, hh, hu, hr, ht, ?_, ?_, ?_⟩
  · rw [h2, Nat.add_assoc]
  · intro b' hb'
    rw [hb b' hb', setAzimuth_blocks, if_neg hb']
  · rw [ha, setAzimuth_blocks, if_pos rfl]
  · intro u
    rw [hun u, setAzimuth_blocks, if_pos rfl]
    rfl

/-- The block loop: after `m` passes from the record `pkt` and the offset
`idx`, every block below `m` holds the azimuth and the units read at its place
in the buffer, and the rest of the record is as before. -/
theorem parseBlocks_spec {D : Type} (K : Consts) (F : FloatOps D) (raw : PandarPacket)
    (pkt : Packet D) (idx : Nat) (m : Nat) :
    ((List.range m).foldl (parseBlock K F raw) (pkt, idx)).2
        = idx + m * (K.BLOCK_HEADER_AZIMUTH + pkt.header.chLaserNumber * K.UNIT_SIZE)
    ∧ ((List.range m).foldl (parseBlock K F raw) (pkt, idx)).1.header = pkt.header
    ∧ ((List.range m).foldl (parseBlock K F raw) (pkt, idx)).1.usec = pkt.usec
    ∧ ((List.range m).foldl (parseBlock K F raw) (pkt, idx)).1.return_mode = pkt.return_mode
    ∧ ((List.range m).foldl (parseBlock K F raw) (pkt, idx)).1.t = pkt.t
    ∧ (∀ b, m ≤ b →
        ((List.range m).foldl (parseBlock K F raw) (pkt, idx)).1.blocks b = pkt.blocks b)
    ∧ (∀ b, b < m →
        (((List.range m).foldl (parseBlock K F raw) (pkt, idx)).1.blocks b).azimuth
          = le16 raw (idx + b * (K.BLOCK_HEADER_AZIMUTH
              + pkt.header.chLaserNumber * K.UNIT_SIZE))
        ∧ ∀ u, (((List.range m).foldl (parseBlock K F raw) (pkt, idx)).1.blocks b).units u =
          if u < pkt.header.chLaserNumber then
            unitAt F raw pkt.header.chDisUnit
              (idx + b * (K.BLOCK_HEADER_AZIMUTH + pkt.header.chLaserNumber * K.UNIT_SIZE)
                + K.BLOCK_HEADER_AZIMUTH + u * K.UNIT_SIZE)
          else (pkt.blocks b).units u) := by
  induction m with
  | zero => simp
  | succ m ih =>
    obtain ⟨h2, hh, hu, hr, ht, hge, hlt⟩ := ih
    rw [List.range_succ, List.foldl_append]
    simp only [List.foldl_cons, List.foldl_nil]
    generalize (List.range m).foldl (parseBlock K F raw) (pkt, idx) = r at *
    obtain ⟨q2, qh, qu, qr, qt, qb, qa, qun⟩ := parseBlock_spec K F raw m r.1 r.2
    rw [hh] at q2 qh qun
    refine ⟨?_, ?_, ?_, ?_, ?_, ?_, ?_⟩
    · show (parseBlock K F raw (r.1, r.2) m).2 = _
      rw [q2, h2, Nat.succ_mul, Nat.add_assoc]
    · exact qh
    · exact qu.trans hu
    · exact qr.trans hr
    · exact qt.trans ht
    · intro b hb
      show (parseBlock K F raw (r.1, r.2) m).1.blocks b = _
      rw [qb b (by omega), hge b (by omega)]
    · intro b hb
      show ((parseBlock K F raw (r.1, r.2) m).1.blocks b).azimuth = _ ∧
        ∀ u, ((parseBlock K F raw (r.1, r.2) m).1.blocks b).units u = _
      by_cases hbm : b = m
      · subst hbm
        refine ⟨?_, ?_⟩
        · rw [qa, h2]
        · intro u
          rw [qun u, h2, hge b (Nat.le_refl b)]
      · have hb' : b < m := by omega
        rw [qb b hbm]
        exact hlt b hb'

/-! ## Acceptance of a packet -/

theorem parsePacket_fst {D : Type} (K : Consts) (F : FloatOps D) (raw : PandarPacket)
    (old : Packet D) :
    (parsePacket K F raw old).1 =
      (decide (raw.size = K.PACKET_SIZE ∨ raw.size = K.PACKET_WITHOUT_UDPSEQ_SIZE)
        && decide ((parseHeader raw).sob = 0xEEFF)) := by
  unfold parsePacket
  by_cases hs : raw.size ≠ K.PACKET_SIZE ∧ raw.size ≠ K.PACKET_WITHOUT_UDPSEQ_SIZE
  · rw [if_pos hs]
    have : ¬ (raw.size = K.PACKET_SIZE ∨ raw.size = K.PACKET_WITHOUT_UDPSEQ_SIZE) := by
      rintro (h | h)
      · exact hs.1 h
      · exact hs.2 h
    simp [this]
  · rw [if_neg hs]
    have hsz : raw.size = K.PACKET_SIZE ∨ raw.size = K.PACKET_WITHOUT_UDPSEQ_SIZE := by
      by_contra hc
      exact hs ⟨fun h => hc (Or.inl h), fun h => hc (Or.inr h)⟩
    by_cases hb : (parseHeader raw).sob = 0xEEFF
    · simp [hb, hsz]
    · simp [hb, hsz]

theorem parsePacket_fst_iff {D : Type} (K : Consts) (F : FloatOps D) (raw : PandarPacket)
    (old : Packet D) :
    (parsePacket K F raw old).1 = true ↔
      (raw.size = K.PACKET_SIZE ∨ raw.size = K.PACKET_WITHOUT_UDPSEQ_SIZE)
        ∧ byteAt raw 0 = 0xEE ∧ byteAt raw 1 = 0xFF := by
  rw [parsePacket_fst, Bool.and_eq_true, decide_eq_true_iff, decide_eq_true_iff,
    sob_eq_iff]

/-- C1: `parsePacket` returns true exactly for the packets whose declared size is
`PACKET_SIZE` or `PACKET_WITHOUT_UDPSEQ_SIZE` and whose first two bytes are
0xEE and 0xFF; for every other packet it returns false. -/
theorem parsePacket_accepts_iff {D : Type} (K : Consts) (F : FloatOps D)
    (raw : PandarPacket) (old : Packet D) :
    ((parsePacket K F raw old).1 = true ↔
      (raw.size = K.PACKET_SIZE ∨ raw.size = K.PACKET_WITHOUT_UDPSEQ_SIZE)
        ∧ byteAt raw 0 = 0xEE ∧ byteAt raw 1 = 0xFF)
    ∧ ((parsePacket K F raw old).1 = false ↔
      ¬ ((raw.size = K.PACKET_SIZE ∨ raw.size = K.PACKET_WITHOUT_UDPSEQ_SIZE)
        ∧ byteAt raw 0 = 0xEE ∧ byteAt raw 1 = 0xFF)) := by
  have key := parsePacket_fst_iff K F raw old
  refine ⟨key, ?_⟩
  rw [← key]
  cases (parsePacket K F raw old).1 <;> simp

/-! ## Malformed packets leave the scan state alone -/

/-- C2: for every decoder state and every malformed packet (wrong size, or first
two bytes other than 0xEE 0xFF), `unpack` leaves the active cloud, the overflow
cloud, `last_phase_`, `has_scanned_` and `reset_scan_` exactly as they were. -/
theorem unpack_malformed_no_mutation {D : Type} [LinearOrder D] (K : Consts)
    (F : FloatOps D) (cfg : Config D) (s : State D) (raw : PandarPacket)
    (hbad : (raw.size ≠ K.PACKET_SIZE ∧ raw.size ≠ K.PACKET_WITHOUT_UDPSEQ_SIZE)
      ∨ ¬ (byteAt raw 0 = 0xEE ∧ byteAt raw 1 = 0xFF)) :
    (unpack K F cfg s raw).scan_pc_ = s.scan_pc_
      ∧ (unpack K F cfg s raw).overflow_pc_ = s.overflow_pc_
      ∧ (unpack K F cfg s raw).last_phase_ = s.last_phase_
      ∧ (unpack K F cfg s raw).has_scanned_ = s.has_scanned_
      ∧ (unpack K F cfg s raw).reset_scan_ = s.reset_scan_ := by
  have hrej : (parsePacket K F raw s.packet_).1 = false := by
    rw [← Bool.not_eq_true, parsePacket_fst_iff]
    rintro ⟨hsz, hb⟩
    rcases hbad with h | h
    · rcases hsz with e | e
      · exact h.1 e
      · exact h.2 e
    · exact h hb
  unfold unpack
  simp [hrej]

/-! ## The parsed measurements -/

theorem parsePacket_snd_of_accept {D : Type} (K : Consts) (F : FloatOps D)
    (raw : PandarPacket) (old : Packet D) (hacc : (parsePacket K F raw old).1 = true) :
    (parsePacket K F raw old).2 =
      parseTail K raw
        ((List.range (byteAt raw 7)).foldl (parseBlock K F raw)
          ({ old with header := parseHeader raw }, K.HEAD_SIZE)) := by
  have h := hacc
  rw [parsePacket_fst, Bool.and_eq_true, decide_eq_true_iff, decide_eq_true_iff] at h
  obtain ⟨hsz, hsob⟩ := h
  have h1 : ¬ (raw.size ≠ K.PACKET_SIZE ∧ raw.size ≠ K.PACKET_WITHOUT_UDPSEQ_SIZE) := by
    rintro ⟨a, b⟩
    rcases hsz with e | e
    · exact a e
    · exact b e
  unfold parsePacket
  rw [if_neg h1]
  simp only [hsob, ne_eq, not_true_eq_false, if_false]
  rfl

theorem parseTail_blocks {D : Type} (K : Consts) (raw : PandarPacket) (st : Packet D × Nat) :
    (parseTail K raw st).blocks = st.1.blocks := rfl

/-- The blocks of the record after an accepted packet: the blocks below the
declared block count hold the azimuth read at their offset, their units below
the declared laser count hold the measurements read, and every other block or
unit is as it was before the call. -/
theorem parsePacket_blocks {D : Type} (K : Consts) (F : FloatOps D)
    (raw : PandarPacket) (old : Packet D) (hacc : (parsePacket K F raw old).1 = true) :
    (∀ b, byteAt raw 7 ≤ b → (parsePacket K F raw old).2.blocks b = old.blocks b)
    ∧ (∀ b, b < byteAt raw 7 →
        ((parsePacket K F raw old).2.blocks b).azimuth
          = le16 raw (K.HEAD_SIZE + b * (K.BLOCK_HEADER_AZIMUTH
              + byteAt raw 6 * K.UNIT_SIZE))
        ∧ ∀ u, ((parsePacket K F raw old).2.blocks b).units u =
          if u < byteAt raw 6 then
            unitAt F raw (byteAt raw 9)
              (K.HEAD_SIZE + b * (K.BLOCK_HEADER_AZIMUTH + byteAt raw 6 * K.UNIT_SIZE)
                + K.BLOCK_HEADER_AZIMUTH + u * K.UNIT_SIZE)
          else (old.blocks b).units u) := by
  rw [parsePacket_snd_of_accept K F raw old hacc, parseTail_blocks]
  obtain ⟨_, _, _, _, _, hge, hlt⟩ :=
    parseBlocks_spec K F raw ({ old with header := parseHeader raw }) K.HEAD_SIZE (byteAt raw 7)
  exact ⟨hge, hlt⟩

/-- C4: for an accepted packet whose header declares `BLOCK_NUM` blocks and
`UNIT_NUM` lasers (the azimuth taking 2 bytes and a unit 4), the azimuth of
block `b` is the little-endian 16-bit value at `o = blockOffset K b`, and unit
`u` of that block has as distance the little-endian 16-bit value at
`p = o + 2 + 4 * u` times the distance-unit byte at offset 9, divided by 1000,
as intensity the byte at `p + 2` and as confidence the byte at `p + 3`. -/
theorem parsePacket_layout {D : Type} (K : Consts) (F : FloatOps D)
    (raw : PandarPacket) (old : Packet D)
    (hacc : (parsePacket K F raw old).1 = true)
    (hblocks : byteAt raw 7 = K.BLOCK_NUM) (hlasers : byteAt raw 6 = K.UNIT_NUM)
    (hazimuth : K.BLOCK_HEADER_AZIMUTH = 2) (hunit : K.UNIT_SIZE = 4)
    (b u : Nat) (hb : b < K.BLOCK_NUM) (hu : u < K.UNIT_NUM) :
    ((parsePacket K F raw old).2.blocks b).azimuth
        = byteAt raw (blockOffset K b) + 256 * byteAt raw (blockOffset K b + 1)
    ∧ (((parsePacket K F raw old).2.blocks b).units u).distance
        = F.ofMilli ((byteAt raw (unitOffset K b u) + 256 * byteAt raw (unitOffset K b u + 1))
            * byteAt raw 9)
    ∧ (((parsePacket K F raw old).2.blocks b).units u).intensity
        = byteAt raw (unitOffset K b u + 2)
    ∧ (((parsePacket K F raw old).2.blocks b).units u).confidence
        = byteAt raw (unitOffset K b u + 3) := by
  obtain ⟨_, hlt⟩ := parsePacket_blocks K F raw old hacc
  obtain ⟨haz, hun⟩ := hlt b (by omega)
  have hp : K.HEAD_SIZE + b * (K.BLOCK_HEADER_AZIMUTH + byteAt raw 6 * K.UNIT_SIZE)
      + K.BLOCK_HEADER_AZIMUTH + u * K.UNIT_SIZE = unitOffset K b u := by
    unfold unitOffset blockOffset
    rw [hlasers, hazimuth, hunit]
    omega
  have ho : K.HEAD_SIZE + b * (K.BLOCK_HEADER_AZIMUTH + byteAt raw 6 * K.UNIT_SIZE)
      = blockOffset K b := by
    unfold blockOffset
    rw [hlasers]
  rw [ho] at haz
  rw [haz, hun u, if_pos (by omega), hp, le16_eq]
  refine ⟨rfl, ?_, rfl, rfl⟩
  show F.ofMilli ((le16 raw (unitOffset K b u) * byteAt raw 9) % 4294967296) = _
  have h1 := le16_lt raw (unitOffset K b u)
  have h2 := byteAt_lt raw 9
  have h3 : le16 raw (unitOffset K b u) * byteAt raw 9 < 4294967296 := by
    calc le16 raw (unitOffset K b u) * byteAt raw 9
        ≤ 65536 * 256 := Nat.mul_le_mul (Nat.le_of_lt h1) (Nat.le_of_lt h2)
      _ < 4294967296 := by norm_num
  rw [Nat.mod_eq_of_lt h3, le16_eq]

/-- Witness of C2: a packet of the right size with the frame bytes swapped. -/
theorem unpack_malformed_no_mutation_witness :
    ((badFramePacket.size ≠ pandarQT.PACKET_SIZE
        ∧ badFramePacket.size ≠ pandarQT.PACKET_WITHOUT_UDPSEQ_SIZE)
      ∨ ¬ (byteAt badFramePacket 0 = 0xEE ∧ byteAt badFramePacket 1 = 0xFF))
    ∧ ((unpack pandarQT exactOps sampleConfig busyState badFramePacket).scan_pc_
        = busyState.scan_pc_
      ∧ (unpack pandarQT exactOps sampleConfig busyState badFramePacket).overflow_pc_
        = busyState.overflow_pc_
      ∧ (unpack pandarQT exactOps sampleConfig busyState badFramePacket).last_phase_
        = busyState.last_phase_
      ∧ (unpack pandarQT exactOps sampleConfig busyState badFramePacket).has_scanned_
        = busyState.has_scanned_
      ∧ (unpack pandarQT exactOps sampleConfig busyState badFramePacket).reset_scan_
        = busyState.reset_scan_) :=
  ⟨by decide,
   unpack_malformed_no_mutation pandarQT exactOps sampleConfig busyState badFramePacket
     (by decide)⟩

/-- Witness of C4: block 0, unit 0 of the sample packet; the range code 250
with the distance unit 4 gives the distance 1. -/
theorem parsePacket_layout_witness :
    ((parsePacket pandarQT exactOps samplePacket zeroPacket).1 = true
      ∧ byteAt samplePacket 7 = pandarQT.BLOCK_NUM
      ∧ byteAt samplePacket 6 = pandarQT.UNIT_NUM
      ∧ pandarQT.BLOCK_HEADER_AZIMUTH = 2 ∧ pandarQT.UNIT_SIZE = 4
      ∧ 0 < pandarQT.BLOCK_NUM ∧ 0 < pandarQT.UNIT_NUM)
    ∧ ((parsePacket pandarQT exactOps samplePacket zeroPacket).2.blocks 0).azimuth = 18000
    ∧ (((parsePacket pandarQT exactOps samplePacket zeroPacket).2.blocks 0).units 0).distance = 1
    ∧ (((parsePacket pandarQT exactOps samplePacket zeroPacket).2.blocks 0).units 0).intensity
        = 77
    ∧ (((parsePacket pandarQT exactOps samplePacket zeroPacket).2.blocks 0).units 0).confidence
        = 9 := by
  have hacc : (parsePacket pandarQT exactOps samplePacket zeroPacket).1 = true := by
    rw [parsePacket_fst_iff]
    decide
  obtain ⟨h1, h2, h3, h4⟩ :=
    parsePacket_layout pandarQT exactOps samplePacket zeroPacket hacc
      (by decide) (by decide) rfl rfl 0 0 (by decide) (by decide)
  refine ⟨⟨hacc, by decide, by decide, rfl, rfl, by decide, by decide⟩, ?_, ?_, ?_, ?_⟩
  · rw [h1]
    decide
  · rw [h2]
    have e : (byteAt samplePacket (unitOffset pandarQT 0 0)
        + 256 * byteAt samplePacket (unitOffset pandarQT 0 0 + 1)) * byteAt samplePacket 9
        = 1000 := by decide
    rw [e]
    norm_num [exactOps]
  · rw [h3]
    decide
  · rw [h4]
    decide

/-! ## The accesses of the parser -/

/-- The unit loop of the access list: `n` passes advance the offset by `n`
units, keep what was listed and list the write of every unit below `n`. -/
theorem accessUnits_spec (K : Consts) (block : Nat) (acc : List Access) (idx n : Nat) :
    ((List.range n).foldl (accessUnit K block) (acc, idx)).2 = idx + n * K.UNIT_SIZE
    ∧ (∀ a ∈ acc, a ∈ ((List.range n).foldl (accessUnit K block) (acc, idx)).1)
    ∧ (∀ u, u < n →
        Access.unitWrite block u ∈ ((List.range n).foldl (accessUnit K block) (acc, idx)).1) := by
  induction n with
  | zero => simp
  | succ n ih =>
    obtain ⟨h2, hmono, hw⟩ := ih
    rw [List.range_succ, List.foldl_append]
    simp only [List.foldl_cons, List.foldl_nil]
    generalize (List.range n).foldl (accessUnit K block) (acc, idx) = r at *
    refine ⟨?_, ?_, ?_⟩
    · show r.2 + K.UNIT_SIZE = _
      rw [h2, Nat.succ_mul, Nat.add_assoc]
    · intro a ha
      exact List.mem_append_left _ (hmono a ha)
    · intro u hu
      by_cases h : u = n
      · subst h
        apply List.mem_append_right
        simp
      · exact List.mem_append_left _ (hw u (by omega))

/-- One pass of the block loop of the access list. -/
theorem accessBlock_spec (K : Consts) (hdr : Header) (block : Nat) (acc : List Access)
    (idx : Nat) :
    (accessBlock K hdr (acc, idx) block).2
        = idx + (K.BLOCK_HEADER_AZIMUTH + hdr.chLaserNumber * K.UNIT_SIZE)
    ∧ (∀ a ∈ acc, a ∈ (accessBlock K hdr (acc, idx) block).1)
    ∧ Access.azimuthWrite block ∈ (accessBlock K hdr (acc, idx) block).1
    ∧ (∀ u, u < hdr.chLaserNumber →
        Access.unitWrite block u ∈ (accessBlock K hdr (acc, idx) block).1) := by
  obtain ⟨h2, hmono, hw⟩ := accessUnits_spec K block
    (acc ++ [.read idx, .read (idx + 1), .azimuthWrite block])
    (idx + K.BLOCK_HEADER_AZIMUTH) hdr.chLaserNumber
  refine ⟨?_, ?_, ?_, hw⟩
  · show ((List.range hdr.chLaserNumber).foldl (accessUnit K block) _).2 = _
    rw [h2, Nat.add_assoc]
  · intro a ha
    exact hmono a (List.mem_append_left _ ha)
  · apply hmono
    apply List.mem_append_right
    simp

/-- The block loop of the access list: `m` passes advance the offset by `m`
blocks, keep what was listed and list the writes of every block below `m`. -/
theorem accessBlocks_spec (K : Consts) (hdr : Header) (acc : List Access) (idx m : Nat) :
    ((List.range m).foldl (accessBlock K hdr) (acc, idx)).2
        = idx + m * (K.BLOCK_HEADER_AZIMUTH + hdr.chLaserNumber * K.UNIT_SIZE)
    ∧ (∀ a ∈ acc, a ∈ ((List.range m).foldl (accessBlock K hdr) (acc, idx)).1)
    ∧ (∀ b, b < m →
        Access.azimuthWrite b ∈ ((List.range m).foldl (accessBlock K hdr) (acc, idx)).1
        ∧ ∀ u, u < hdr.chLaserNumber →
          Access.unitWrite b u ∈ ((List.range m).foldl (accessBlock K hdr) (acc, idx)).1) := by
  induction m with
  | zero => simp
  | succ m ih =>
    obtain ⟨h2, hmono, hw⟩ := ih
    rw [List.range_succ, List.foldl_append]
    simp only [List.foldl_cons, List.foldl_nil]
    generalize (List.range m).foldl (accessBlock K hdr) (acc, idx) = r at *
    obtain ⟨q2, qmono, qa, qu⟩ := accessBlock_spec K hdr m r.1 r.2
    refine ⟨?_, ?_, ?_⟩
    · show (accessBlock K hdr (r.1, r.2) m).2 = _
      rw [q2, h2, Nat.succ_mul, Nat.add_assoc]
    · intro a ha
      exact qmono a (hmono a ha)
    · intro b hb
      by_cases h : b = m
      · subst h
        exact ⟨qa, qu⟩
      · obtain ⟨wa, wu⟩ := hw b (by omega)
        exact ⟨qmono _ wa, fun u hu => qmono _ (wu u hu)⟩

/-- The accesses of an accepted packet: the azimuth of every block below the
declared block count and every unit below the declared laser count are
written, whatever the counts are, and the microseconds are read behind the
declared blocks. -/
theorem parseAccesses_of_accept (K : Consts) (raw : PandarPacket)
    (hsize : raw.size = K.PACKET_SIZE ∨ raw.size = K.PACKET_WITHOUT_UDPSEQ_SIZE)
    (hframe : byteAt raw 0 = 0xEE ∧ byteAt raw 1 = 0xFF) :
    (∀ b, b < byteAt raw 7 →
        Access.azimuthWrite b ∈ parseAccesses K raw
        ∧ ∀ u, u < byteAt raw 6 → Access.unitWrite b u ∈ parseAccesses K raw)
    ∧ Access.read (K.HEAD_SIZE
          + byteAt raw 7 * (K.BLOCK_HEADER_AZIMUTH + byteAt raw 6 * K.UNIT_SIZE)
          + K.RESERVED_SIZE + K.ENGINE_VELOCITY) ∈ parseAccesses K raw := by
  have h1 : ¬ (raw.size ≠ K.PACKET_SIZE ∧ raw.size ≠ K.PACKET_WITHOUT_UDPSEQ_SIZE) := by
    rintro ⟨a, b⟩
    rcases hsize with e | e
    · exact a e
    · exact b e
  have hsob : (parseHeader raw).sob = 0xEEFF := (sob_eq_iff raw).2 hframe
  obtain ⟨h2, _, hw⟩ := accessBlocks_spec K (parseHeader raw)
    [.read 0, .read 1, .read 2, .read 3, .read 6, .read 7, .read 8, .read 9]
    K.HEAD_SIZE (byteAt raw 7)
  have e : parseAccesses K raw =
      accessTail K ((List.range (byteAt raw 7)).foldl (accessBlock K (parseHeader raw))
        ([.read 0, .read 1, .read 2, .read 3, .read 6, .read 7, .read 8, .read 9],
          K.HEAD_SIZE)) := by
    unfold parseAccesses
    rw [if_neg h1]
    simp only [hsob, ne_eq, not_true_eq_false, if_false]
    rfl
  rw [e]
  refine ⟨?_, ?_⟩
  · intro b hb
    obtain ⟨wa, wu⟩ := hw b hb
    exact ⟨List.mem_append_left _ wa, fun u hu => List.mem_append_left _ (wu u hu)⟩
  · unfold accessTail
    apply List.mem_append_right
    rw [h2]
    simp [parseHeader]

/-- C3 (fails on the code): the packet `overlongPacket` has the right size and
frame marker, so `parsePacket` accepts it; its header declares 5 blocks of 65
lasers, and the parser writes `blocks[4]` and `units[64]`, beyond the arrays of
`BLOCK_NUM = 4` blocks and `UNIT_NUM = 64` units, and reads offset 1334, beyond
the 1072 bytes of the packet. -/
theorem parsePacket_trusts_header_counts :
    (parsePacket pandarQT exactOps overlongPacket zeroPacket).1 = true
    ∧ Access.azimuthWrite 4 ∈ parseAccesses pandarQT overlongPacket
    ∧ ¬ (4 < pandarQT.BLOCK_NUM)
    ∧ Access.unitWrite 0 64 ∈ parseAccesses pandarQT overlongPacket
    ∧ ¬ (64 < pandarQT.UNIT_NUM)
    ∧ Access.read 1334 ∈ parseAccesses pandarQT overlongPacket
    ∧ ¬ (1334 < overlongPacket.size) := by
  have hsize : overlongPacket.size = pandarQT.PACKET_SIZE
      ∨ overlongPacket.size = pandarQT.PACKET_WITHOUT_UDPSEQ_SIZE := by decide
  have hframe : byteAt overlongPacket 0 = 0xEE ∧ byteAt overlongPacket 1 = 0xFF := by decide
  have h7 : byteAt overlongPacket 7 = 5 := by decide
  have h6 : byteAt overlongPacket 6 = 65 := by decide
  obtain ⟨hw, hr⟩ := parseAccesses_of_accept pandarQT overlongPacket hsize hframe
  rw [h7, h6] at hw hr
  refine ⟨?_, (hw 4 (by decide)).1, by decide, (hw 0 (by decide)).2 64 (by decide),
    by decide, hr, by decide⟩
  rw [parsePacket_fst_iff]
  exact ⟨hsize, hframe⟩

/-! ## The azimuth index -/

theorem int32_eq_self (x : Int) (h0 : -2147483648 ≤ x) (h1 : x < 2147483648) :
    int32 x = x := by
  unfold int32
  omega

/-- The reading of `MAX_AZIMUTH` as a signed `int`: the block azimuth 0 and the
azimuth offset -36001 would give the index -1. -/
theorem azimuth_index_negative :
    (0 : Nat) < 65536
    ∧ (-2147483648 ≤ (-36001 : Int) ∧ (-36001 : Int) < 2147483648)
    ∧ azimuth_index pandarQT 0 (-36001) = -1
    ∧ ¬ (0 ≤ azimuth_index pandarQT 0 (-36001)
          ∧ azimuth_index pandarQT 0 (-36001) < pandarQT.MAX_AZIMUTH) := by
  decide

/-- The value of the index: for a block azimuth and an azimuth offset for which
`azimuth + offset + MAX_AZIMUTH` is not negative and fits an `int`, the index
computed by `build_point` is the residue of `azimuth + offset` modulo
`MAX_AZIMUTH`, whether `MAX_AZIMUTH` is a signed `int` or an unsigned type of
at least 32 bits. -/
theorem azimuth_index_in_range (K : Consts) (azimuth : Nat) (offset : Int)
    (hmax : 0 < K.MAX_AZIMUTH ∧ K.MAX_AZIMUTH < 2147483648)
    (hbits : ∀ w, K.maxAzimuthBits = some w → 32 ≤ w)
    (hlow : 0 ≤ (azimuth : Int) + offset + K.MAX_AZIMUTH)
    (hhigh : (azimuth : Int) + offset + K.MAX_AZIMUTH < 2147483648) :
    azimuth_index K azimuth offset = ((azimuth : Int) + offset) % (K.MAX_AZIMUTH : Int)
    ∧ 0 ≤ azimuth_index K azimuth offset
    ∧ azimuth_index K azimuth offset < K.MAX_AZIMUTH := by
  obtain ⟨hpos, hlt⟩ := hmax
  have hposZ : (0 : Int) < (K.MAX_AZIMUTH : Int) := by exact_mod_cast hpos
  have hltZ : (K.MAX_AZIMUTH : Int) < 2147483648 := by exact_mod_cast hlt
  have key : azimuth_index K azimuth offset
      = ((azimuth : Int) + offset) % (K.MAX_AZIMUTH : Int) := by
    have e1 : int32 ((azimuth : Int) + offset) = (azimuth : Int) + offset :=
      int32_eq_self _ (by omega) (by omega)
    unfold azimuth_index
    cases hw : K.maxAzimuthBits with
    | none =>
      simp only
      rw [e1, int32_eq_self _ (by omega) (by omega)]
      unfold cmod
      rw [Int.tmod_eq_emod hlow (le_of_lt hposZ), Int.add_emod_self]
    | some w =>
      simp only
      have hw32 : 32 ≤ w := hbits w hw
      have hpow : (4294967296 : Int) ≤ 2 ^ w := by
        have : (2 : Int) ^ 32 ≤ 2 ^ w := pow_le_pow_right₀ (by norm_num) hw32
        simpa using this
      rw [e1, Int.emod_add_emod, Int.emod_eq_of_lt hlow (by omega), Int.add_emod_self]
  rw [key]
  exact ⟨rfl, Int.emod_nonneg _ (ne_of_gt hposZ), Int.emod_lt_of_pos _ hposZ⟩

/-- The azimuth 100 and the offset -500 give the index 35600, with `MAX_AZIMUTH`
read as `uint32_t`. -/
theorem azimuth_index_in_range_witness :
    ((0 < pandarQTu32.MAX_AZIMUTH ∧ pandarQTu32.MAX_AZIMUTH < 2147483648)
      ∧ (∀ w, pandarQTu32.maxAzimuthBits = some w → 32 ≤ w)
      ∧ 0 ≤ ((100 : Nat) : Int) + (-500) + pandarQTu32.MAX_AZIMUTH
      ∧ ((100 : Nat) : Int) + (-500) + pandarQTu32.MAX_AZIMUTH < 2147483648)
    ∧ (azimuth_index pandarQTu32 100 (-500)
        = (((100 : Nat) : Int) + (-500)) % (pandarQTu32.MAX_AZIMUTH : Int)
      ∧ 0 ≤ azimuth_index pandarQTu32 100 (-500)
      ∧ azimuth_index pandarQTu32 100 (-500) < pandarQTu32.MAX_AZIMUTH) :=
  have hb : ∀ w, pandarQTu32.maxAzimuthBits = some w → 32 ≤ w := by
    intro w hw
    have e : w = 32 := by
      have h : (some 32 : Option Nat) = some w := hw
      exact (Option.some.inj h).symm
    omega
  ⟨⟨by decide, hb, by decide, by decide⟩,
   azimuth_index_in_range pandarQTu32 100 (-500) (by decide) hb (by decide) (by decide)⟩

theorem foldl_push_eq_flatMap {α β : Type} (f : α → List β) (l : List α) (acc : List β) :
    l.foldl (fun pc a => pc ++ f a) acc = acc ++ l.flatMap f := by
  induction l generalizing acc with
  | nil => simp
  | cons a l ih =>
    rw [List.foldl_cons, ih, List.flatMap_cons, List.append_assoc]

theorem outOfRange_eq {D : Type} [LinearOrder D] (cfg : Config D) (d : D) :
    outOfRange cfg d = !inRange cfg d := by
  unfold outOfRange inRange
  by_cases h0 : d ≤ cfg.distance_range_ 0
  · have : ¬ cfg.distance_range_ 0 < d := not_lt.mpr h0
    simp [h0, this]
  · have h0' : cfg.distance_range_ 0 < d := not_le.mp h0
    by_cases h1 : d ≤ cfg.distance_range_ 1
    · have : ¬ d > cfg.distance_range_ 1 := not_lt.mpr h1
      simp [h0, h0', h1]
    · have h1' : d > cfg.distance_range_ 1 := not_le.mp h1
      simp [h0, h0', h1, h1']

theorem ringDisabled_of_mem {D : Type} (cfg : Config D) (u : Nat)
    (h : (u : Int) ∈ cfg.disable_rings_) : ringDisabled cfg u = true := by
  unfold ringDisabled
  have hne : cfg.disable_rings_.isEmpty = false := by
    cases hl : cfg.disable_rings_ with
    | nil => rw [hl] at h; simp at h
    | cons a l => rfl
  rw [hne]
  simp only [Bool.not_false, Bool.true_and, List.any_eq_true]
  exact ⟨(u : Int), h, by simp⟩

theorem mem_of_ringDisabled {D : Type} (K : Consts) (cfg : Config D) (u : Nat)
    (hwf : ringsWellFormed K cfg) (hu : u < K.UNIT_NUM) (h : ringDisabled cfg u = true) :
    (u : Int) ∈ cfg.disable_rings_ := by
  unfold ringDisabled at h
  rw [Bool.and_eq_true, List.any_eq_true] at h
  obtain ⟨_, r, hr, heq⟩ := h
  obtain ⟨hK, hall⟩ := hwf
  obtain ⟨h0, h1⟩ := hall r hr
  have heq' : r % 2 ^ 64 = (u : Int) % 2 ^ 64 := by simpa using heq
  have hu' : (u : Int) < 9223372036854775808 := by
    have : u < 9223372036854775808 := lt_of_lt_of_le hu hK
    exact_mod_cast this
  have hu0 : (0 : Int) ≤ (u : Int) := Int.natCast_nonneg u
  have : r = (u : Int) := by
    norm_num at heq'
    omega
  rw [← this]
  exact hr

/-- The points `convert` emits for one laser. -/
theorem convertUnit_eq {D : Type} [LinearOrder D] (K : Consts) (F : FloatOps D)
    (cfg : Config D) (pkt : Packet D) (b : Nat) (pc : List (Point D)) (u : Nat) :
    convertUnit K F cfg pkt b pc u =
      pc ++ (if ringDisabled cfg u = false ∧ inRange cfg ((pkt.blocks b).units u).distance = true
        then [build_point K F cfg pkt b u (singleTag K pkt)] else []) := by
  unfold convertUnit
  rw [outOfRange_eq]
  cases ringDisabled cfg u <;> cases inRange cfg ((pkt.blocks b).units u).distance <;> simp

theorem convert_eq_flatMap {D : Type} [LinearOrder D] (K : Consts) (F : FloatOps D)
    (cfg : Config D) (pkt : Packet D) (b : Nat) :
    convert K F cfg pkt b =
      (List.range K.UNIT_NUM).flatMap (fun u =>
        if ringDisabled cfg u = false ∧ inRange cfg ((pkt.blocks b).units u).distance = true
        then [build_point K F cfg pkt b u (singleTag K pkt)] else []) := by
  unfold convert
  have e : convertUnit K F cfg pkt b = fun pc u => pc ++ (fun u =>
      if ringDisabled cfg u = false ∧ inRange cfg ((pkt.blocks b).units u).distance = true
      then [build_point K F cfg pkt b u (singleTag K pkt)] else []) u := by
    funext pc u
    exact convertUnit_eq K F cfg pkt b pc u
  rw [e, foldl_push_eq_flatMap, List.nil_append]

/-- The points `convert_dual` emits for one laser. -/
theorem convertDualUnit_eq {D : Type} [LinearOrder D] (K : Consts) (F : FloatOps D)
    (cfg : Config D) (pkt : Packet D) (b : Nat) (pc : List (Point D)) (u : Nat) :
    convertDualUnit K F cfg pkt b pc u =
      pc ++ (if ringDisabled cfg u then [] else policyPoints K F cfg pkt b u) := by
  unfold convertDualUnit policyPoints firstPolicyPoints lastPolicyPoints dualPolicyPoints
  simp only [outOfRange_eq]
  cases ringDisabled cfg u
  · cases hm : cfg.return_mode_ <;>
      cases inRange cfg ((pkt.blocks b).units u).distance <;>
      cases inRange cfg ((pkt.blocks (b + 1)).units u).distance <;>
      by_cases hd : F.absDiff ((pkt.blocks b).units u).distance
          ((pkt.blocks (b + 1)).units u).distance < cfg.dual_return_distance_threshold_ <;>
      simp [hd]
  · simp

theorem convert_dual_eq_flatMap {D : Type} [LinearOrder D] (K : Consts) (F : FloatOps D)
    (cfg : Config D) (pkt : Packet D) (b : Nat) :
    convert_dual K F cfg pkt b =
      (List.range K.UNIT_NUM).flatMap (fun u =>
        if ringDisabled cfg u then [] else policyPoints K F cfg pkt b u) := by
  unfold convert_dual
  have e : convertDualUnit K F cfg pkt b = fun pc u => pc ++ (fun u =>
      if ringDisabled cfg u then [] else policyPoints K F cfg pkt b u) u := by
    funext pc u
    exact convertDualUnit_eq K F cfg pkt b pc u
  rw [e, foldl_push_eq_flatMap, List.nil_append]

theorem filter_map_eq_flatMap {α β : Type} (q : α → Bool) (f : α → β) (l : List α) :
    (l.filter q).map f = l.flatMap (fun a => if q a = true then [f a] else []) := by
  induction l with
  | nil => rfl
  | cons a l ih =>
    rw [List.flatMap_cons, ← ih]
    cases h : q a <;> simp [List.filter_cons, h]

theorem flatMap_congr_mem {α β : Type} (f g : α → List β) (l : List α)
    (h : ∀ a ∈ l, f a = g a) : l.flatMap f = l.flatMap g := by
  induction l with
  | nil => rfl
  | cons a l ih =>
    rw [List.flatMap_cons, List.flatMap_cons, h a (List.mem_cons_self a l),
      ih (fun x hx => h x (List.mem_cons_of_mem a hx))]

theorem policyPoints_ring {D : Type} [LinearOrder D] (K : Consts) (F : FloatOps D)
    (cfg : Config D) (pkt : Packet D) (b u : Nat) :
    ∀ p ∈ policyPoints K F cfg pkt b u, p.ring = u := by
  intro p hp
  unfold policyPoints firstPolicyPoints lastPolicyPoints dualPolicyPoints at hp
  cases hm : cfg.return_mode_ <;> rw [hm] at hp <;> simp only at hp
  · split at hp
    · rw [List.mem_singleton] at hp; rw [hp]; rfl
    · simp at hp
  · split at hp
    · rw [List.mem_singleton] at hp; rw [hp]; rfl
    · simp at hp
  · split at hp
    · rw [List.mem_singleton] at hp; rw [hp]; rfl
    · rw [List.mem_append] at hp
      rcases hp with hp | hp
      · split at hp
        · rw [List.mem_singleton] at hp; rw [hp]; rfl
        · simp at hp
      · split at hp
        · rw [List.mem_singleton] at hp; rw [hp]; rfl
        · simp at hp

/-! ## Disabled rings -/

/-- C7: no point produced by `convert` or `convert_dual` has a ring that is a
member of the list of disabled rings; and with an empty list the ring test
skips no laser, so that `convert` emits the point of every laser whose distance
is in range. -/
theorem no_point_on_disabled_ring {D : Type} [LinearOrder D] (K : Consts) (F : FloatOps D)
    (cfg : Config D) (pkt : Packet D) (b : Nat) :
    (∀ p ∈ convert K F cfg pkt b, (p.ring : Int) ∉ cfg.disable_rings_)
    ∧ (∀ p ∈ convert_dual K F cfg pkt b, (p.ring : Int) ∉ cfg.disable_rings_)
    ∧ (∀ u, ringDisabled { cfg with disable_rings_ := [] } u = false)
    ∧ convert K F { cfg with disable_rings_ := [] } pkt b =
        ((List.range K.UNIT_NUM).filter
            (fun u => inRange cfg ((pkt.blocks b).units u).distance)).map
          (fun u => build_point K F cfg pkt b u (singleTag K pkt)) := by
  refine ⟨?_, ?_, ?_, ?_⟩
  · intro p hp hmem
    rw [convert_eq_flatMap, List.mem_flatMap] at hp
    obtain ⟨u, _, hpu⟩ := hp
    split at hpu
    · rename_i hc
      rw [List.mem_singleton] at hpu
      have hr : p.ring = u := by rw [hpu]; rfl
      rw [hr] at hmem
      rw [ringDisabled_of_mem cfg u hmem] at hc
      exact Bool.noConfusion hc.1
    · simp at hpu
  · intro p hp hmem
    rw [convert_dual_eq_flatMap, List.mem_flatMap] at hp
    obtain ⟨u, _, hpu⟩ := hp
    cases hd : ringDisabled cfg u
    · rw [hd] at hpu
      have hr : p.ring = u := policyPoints_ring K F cfg pkt b u p (by simpa using hpu)
      rw [hr] at hmem
      rw [ringDisabled_of_mem cfg u hmem] at hd
      exact Bool.noConfusion hd
    · rw [hd] at hpu
      simp at hpu
  · intro u
    rfl
  · rw [convert_eq_flatMap, filter_map_eq_flatMap]
    apply flatMap_congr_mem
    intro u _
    have hr : ringDisabled { cfg with disable_rings_ := [] } u = false := rfl
    have hi : inRange { cfg with disable_rings_ := [] } ((pkt.blocks b).units u).distance
        = inRange cfg ((pkt.blocks b).units u).distance := rfl
    rw [hr, hi]
    simp only [true_and]
    rfl

/-! ## Single-return blocks -/

theorem usableUnit_eq {D : Type} [LinearOrder D] (K : Consts) (cfg : Config D)
    (pkt : Packet D) (b u : Nat) (hwf : ringsWellFormed K cfg) (hu : u < K.UNIT_NUM) :
    usableUnit cfg pkt b u = true ↔
      (ringDisabled cfg u = false ∧ inRange cfg ((pkt.blocks b).units u).distance = true) := by
  unfold usableUnit
  rw [Bool.and_eq_true, Bool.not_eq_true', decide_eq_false_iff_not]
  constructor
  · rintro ⟨hi, hn⟩
    refine ⟨?_, hi⟩
    cases hd : ringDisabled cfg u
    · rfl
    · exact absurd (mem_of_ringDisabled K cfg u hwf hu hd) hn
  · rintro ⟨hd, hi⟩
    refine ⟨hi, ?_⟩
    intro hmem
    rw [ringDisabled_of_mem cfg u hmem] at hd
    exact Bool.noConfusion hd

/-- C8: `convert` emits, in increasing order of the laser index, exactly one
point for every usable unit of the block (distance in range, index not among
the disabled rings) and none for any other unit; the ring of each point is its
laser index; its tag is `SINGLE_FIRST` if the return-mode byte of the packet is
`FIRST_RETURN` and `SINGLE_LAST` otherwise, whatever the configured return
mode is. -/
theorem convert_single_return {D : Type} [LinearOrder D] (K : Consts) (F : FloatOps D)
    (cfg : Config D) (pkt : Packet D) (b : Nat) (hwf : ringsWellFormed K cfg) :
    convert K F cfg pkt b =
        ((List.range K.UNIT_NUM).filter (usableUnit cfg pkt b)).map
          (fun u => build_point K F cfg pkt b u
            (if pkt.return_mode = K.FIRST_RETURN then .SINGLE_FIRST else .SINGLE_LAST))
    ∧ (convert K F cfg pkt b).map (fun p => p.ring)
        = (List.range K.UNIT_NUM).filter (usableUnit cfg pkt b)
    ∧ (∀ p ∈ convert K F cfg pkt b,
        p.return_type
          = if pkt.return_mode = K.FIRST_RETURN then .SINGLE_FIRST else .SINGLE_LAST)
    ∧ (∀ m, convert K F { cfg with return_mode_ := m } pkt b = convert K F cfg pkt b) := by
  have key : convert K F cfg pkt b =
      ((List.range K.UNIT_NUM).filter (usableUnit cfg pkt b)).map
        (fun u => build_point K F cfg pkt b u
          (if pkt.return_mode = K.FIRST_RETURN then .SINGLE_FIRST else .SINGLE_LAST)) := by
    rw [convert_eq_flatMap, filter_map_eq_flatMap]
    apply flatMap_congr_mem
    intro u hu
    have hu' : u < K.UNIT_NUM := List.mem_range.mp hu
    by_cases h : usableUnit cfg pkt b u = true
    · rw [if_pos h, if_pos ((usableUnit_eq K cfg pkt b u hwf hu').1 h)]
      rfl
    · rw [if_neg h, if_neg (fun hc => h ((usableUnit_eq K cfg pkt b u hwf hu').2 hc))]
  refine ⟨key, ?_, ?_, ?_⟩
  · rw [key, List.map_map]
    have : ((fun p : Point D => p.ring) ∘ fun u => build_point K F cfg pkt b u
        (if pkt.return_mode = K.FIRST_RETURN then ReturnType.SINGLE_FIRST
          else ReturnType.SINGLE_LAST)) = id := by
      funext u
      rfl
    rw [this, List.map_id]
  · intro p hp
    rw [key, List.mem_map] at hp
    obtain ⟨u, _, rfl⟩ := hp
    rfl
  · intro m
    rfl

/-- Witness of C8: the configuration with the rings 1 and 63 disabled, on block
0 of the parsed sample packet. -/
theorem convert_single_return_witness :
    ringsWellFormed pandarQT ringConfig
    ∧ (convert pandarQT exactOps ringConfig
          (parsePacket pandarQT exactOps samplePacket zeroPacket).2 0 =
        ((List.range pandarQT.UNIT_NUM).filter
            (usableUnit ringConfig (parsePacket pandarQT exactOps samplePacket zeroPacket).2
              0)).map
          (fun u => build_point pandarQT exactOps ringConfig
            (parsePacket pandarQT exactOps samplePacket zeroPacket).2 0 u
            (if (parsePacket pandarQT exactOps samplePacket zeroPacket).2.return_mode
                = pandarQT.FIRST_RETURN then .SINGLE_FIRST else .SINGLE_LAST))) :=
  have hwf : ringsWellFormed pandarQT ringConfig := by
    refine ⟨by decide, ?_⟩
    intro r hr
    have h : r = 1 ∨ r = 63 := by
      have : r ∈ ([1, 63] : List Int) := hr
      simpa using this
    rcases h with h | h <;> rw [h] <;> decide
  ⟨hwf,
   (convert_single_return pandarQT exactOps ringConfig
      (parsePacket pandarQT exactOps samplePacket zeroPacket).2 0 hwf).1⟩

/-! ## Block pairs of dual-return packets -/

/-- The return mode of the record after an accepted packet. -/
theorem parsePacket_return_mode {D : Type} (K : Consts) (F : FloatOps D)
    (raw : PandarPacket) (old : Packet D) (hacc : (parsePacket K F raw old).1 = true) :
    (parsePacket K F raw old).2.return_mode =
      byteAt raw (K.HEAD_SIZE
        + byteAt raw 7 * (K.BLOCK_HEADER_AZIMUTH + byteAt raw 6 * K.UNIT_SIZE)
        + K.RESERVED_SIZE + K.ENGINE_VELOCITY + K.TIMESTAMP_SIZE) := by
  rw [parsePacket_snd_of_accept K F raw old hacc]
  obtain ⟨h2, _⟩ :=
    parseBlocks_spec K F raw ({ old with header := parseHeader raw }) K.HEAD_SIZE (byteAt raw 7)
  show byteAt raw (((List.range (byteAt raw 7)).foldl (parseBlock K F raw)
      ({ old with header := parseHeader raw }, K.HEAD_SIZE)).2
        + K.RESERVED_SIZE + K.ENGINE_VELOCITY + K.TIMESTAMP_SIZE) = _
  rw [h2]
  rfl

/-- The distances of an accepted PandarQT packet of 4 blocks and 64 lasers, with
exact operations. -/
theorem parsed_distance_exact (raw : PandarPacket) (old : Packet ℚ)
    (hacc : (parsePacket pandarQT exactOps raw old).1 = true)
    (h7 : byteAt raw 7 = 4) (h6 : byteAt raw 6 = 64) (b u : Nat) (hb : b < 4) (hu : u < 64) :
    (((parsePacket pandarQT exactOps raw old).2.blocks b).units u).distance
      = ((le16 raw (12 + b * 258 + 2 + u * 4) * byteAt raw 9 % 4294967296 : Nat) : ℚ) / 1000 := by
  obtain ⟨_, hlt⟩ := parsePacket_blocks pandarQT exactOps raw old hacc
  obtain ⟨_, hun⟩ := hlt b (by omega)
  rw [hun u, if_pos (by omega), h6]
  rfl

set_option maxRecDepth 100000 in
/-- The byte of the return mode in the tail of the dual-return scenarios. -/
theorem dual_scenarios_return_mode :
    byteAt lostEchoPacket (12 + 4 * (2 + 64 * 4) + 10 + 2 + 4) = 0x3B
    ∧ byteAt dualPacket (12 + 4 * (2 + 64 * 4) + 10 + 2 + 4) = 0x3B := by
  decide

/-- C6 (fails on the code): with the last-return policy and the range
(0.1, 200], the accepted dual-return packet `lostEchoPacket` (laser 0: 5.00 m
in block 0, no return in block 1) makes `convert_dual` emit the point of the
odd block for laser 0, whose distance 0 is not in range. -/
theorem convert_dual_last_emits_out_of_range :
    (parsePacket pandarQT exactOps lostEchoPacket zeroPacket).1 = true
    ∧ (parsePacket pandarQT exactOps lostEchoPacket zeroPacket).2.return_mode
        = pandarQT.DUAL_RETURN
    ∧ build_point pandarQT exactOps lastConfig
          (parsePacket pandarQT exactOps lostEchoPacket zeroPacket).2 1 0 .SINGLE_LAST
        ∈ convert_dual pandarQT exactOps lastConfig
            (parsePacket pandarQT exactOps lostEchoPacket zeroPacket).2 0
    ∧ (build_point pandarQT exactOps lastConfig
          (parsePacket pandarQT exactOps lostEchoPacket zeroPacket).2 1 0 .SINGLE_LAST).distance
        = 0
    ∧ ¬ (lastConfig.distance_range_ 0 <
          (build_point pandarQT exactOps lastConfig
            (parsePacket pandarQT exactOps lostEchoPacket zeroPacket).2 1 0
            .SINGLE_LAST).distance
        ∧ (build_point pandarQT exactOps lastConfig
            (parsePacket pandarQT exactOps lostEchoPacket zeroPacket).2 1 0
            .SINGLE_LAST).distance ≤ lastConfig.distance_range_ 1) := by
  have hacc : (parsePacket pandarQT exactOps lostEchoPacket zeroPacket).1 = true := by
    rw [parsePacket_fst_iff]
    decide
  have h7 : byteAt lostEchoPacket 7 = 4 := by decide
  have h6 : byteAt lostEchoPacket 6 = 64 := by decide
  have heven : (((parsePacket pandarQT exactOps lostEchoPacket zeroPacket).2.blocks 0).units
      0).distance = 5 := by
    rw [parsed_distance_exact lostEchoPacket zeroPacket hacc h7 h6 0 0 (by decide) (by decide)]
    have e : le16 lostEchoPacket (12 + 0 * 258 + 2 + 0 * 4) * byteAt lostEchoPacket 9
        % 4294967296 = 5000 := by decide
    rw [e]
    norm_num
  have hodd : (((parsePacket pandarQT exactOps lostEchoPacket zeroPacket).2.blocks 1).units
      0).distance = 0 := by
    rw [parsed_distance_exact lostEchoPacket zeroPacket hacc h7 h6 1 0 (by decide) (by decide)]
    have e : le16 lostEchoPacket (12 + 1 * 258 + 2 + 0 * 4) * byteAt lostEchoPacket 9
        % 4294967296 = 0 := by decide
    rw [e]
    norm_num
  have hdist : (build_point pandarQT exactOps lastConfig
      (parsePacket pandarQT exactOps lostEchoPacket zeroPacket).2 1 0 .SINGLE_LAST).distance
      = 0 := hodd
  refine ⟨hacc, ?_, ?_, hdist, ?_⟩
  · rw [parsePacket_return_mode pandarQT exactOps lostEchoPacket zeroPacket hacc, h7, h6]
    exact dual_scenarios_return_mode.1
  · rw [convert_dual_eq_flatMap, List.mem_flatMap]
    refine ⟨0, List.mem_range.mpr (by decide), ?_⟩
    have hr : ringDisabled lastConfig 0 = false := rfl
    have hin : inRange lastConfig
        (((parsePacket pandarQT exactOps lostEchoPacket zeroPacket).2.blocks 0).units
          0).distance = true := by
      rw [heven]
      unfold inRange
      norm_num [lastConfig, sampleConfig]
    rw [hr]
    show _ ∈ lastPolicyPoints pandarQT exactOps lastConfig _ 0 0
    unfold lastPolicyPoints
    rw [hin]
    simp
  · rw [hdist]
    norm_num [lastConfig, sampleConfig]

/-- The part of the range property that holds: the points of `convert`, and the
points of `convert_dual` under the first-return and dual policies, have their
distance in range. -/
theorem points_in_range_but_last {D : Type} [LinearOrder D] (K : Consts) (F : FloatOps D)
    (cfg : Config D) (pkt : Packet D) (b : Nat) :
    (∀ p ∈ convert K F cfg pkt b, inRange cfg p.distance = true)
    ∧ (cfg.return_mode_ ≠ .LAST →
        ∀ p ∈ convert_dual K F cfg pkt b, inRange cfg p.distance = true) := by
  refine ⟨?_, ?_⟩
  · intro p hp
    rw [convert_eq_flatMap, List.mem_flatMap] at hp
    obtain ⟨u, _, hpu⟩ := hp
    split at hpu
    · rename_i hc
      rw [List.mem_singleton] at hpu
      rw [hpu]
      exact hc.2
    · simp at hpu
  · intro hmode p hp
    rw [convert_dual_eq_flatMap, List.mem_flatMap] at hp
    obtain ⟨u, _, hpu⟩ := hp
    cases hd : ringDisabled cfg u
    · rw [hd] at hpu
      have hpu' : p ∈ policyPoints K F cfg pkt b u := by simpa using hpu
      unfold policyPoints firstPolicyPoints lastPolicyPoints dualPolicyPoints at hpu'
      cases hm : cfg.return_mode_
      · rw [hm] at hpu'
        simp only at hpu'
        split at hpu'
        · rename_i hc
          rw [List.mem_singleton] at hpu'; rw [hpu']; exact hc
        · simp at hpu'
      · exact absurd hm hmode
      · rw [hm] at hpu'
        simp only at hpu'
        split at hpu'
        · rename_i hc
          rw [List.mem_singleton] at hpu'; rw [hpu']; exact hc.2
        · rw [List.mem_append] at hpu'
          rcases hpu' with h | h
          · split at h
            · rename_i hc
              rw [List.mem_singleton] at h; rw [h]; exact hc
            · simp at h
          · split at h
            · rename_i hc
              rw [List.mem_singleton] at h; rw [h]; exact hc
            · simp at h
    · rw [hd] at hpu
      simp at hpu

/-- C9: under the dual policy `convert_dual` emits, laser by laser in increasing
order and for the lasers that are not disabled only: the single point of the odd
block tagged `DUAL_ONLY` if the absolute difference of the even and odd
distances is below the threshold and the odd measurement is usable; otherwise
the point of the even block tagged `DUAL_FIRST` exactly when the even
measurement is usable, followed by the point of the odd block tagged
`DUAL_LAST` exactly when the odd measurement is usable. -/
theorem convert_dual_dual_policy {D : Type} [LinearOrder D] (K : Consts) (F : FloatOps D)
    (cfg : Config D) (pkt : Packet D) (b : Nat) (hmode : cfg.return_mode_ = .DUAL) :
    convert_dual K F cfg pkt b =
        (List.range K.UNIT_NUM).flatMap (fun u =>
          if ringDisabled cfg u then [] else dualPolicyPoints K F cfg pkt b u)
    ∧ (∀ u,
        F.absDiff ((pkt.blocks b).units u).distance ((pkt.blocks (b + 1)).units u).distance
            < cfg.dual_return_distance_threshold_ →
        inRange cfg ((pkt.blocks (b + 1)).units u).distance = true →
        dualPolicyPoints K F cfg pkt b u = [build_point K F cfg pkt (b + 1) u .DUAL_ONLY])
    ∧ (∀ u,
        ¬ (F.absDiff ((pkt.blocks b).units u).distance ((pkt.blocks (b + 1)).units u).distance
              < cfg.dual_return_distance_threshold_
            ∧ inRange cfg ((pkt.blocks (b + 1)).units u).distance = true) →
        dualPolicyPoints K F cfg pkt b u =
          (if inRange cfg ((pkt.blocks b).units u).distance = true
            then [build_point K F cfg pkt b u .DUAL_FIRST] else [])
          ++ (if inRange cfg ((pkt.blocks (b + 1)).units u).distance = true
            then [build_point K F cfg pkt (b + 1) u .DUAL_LAST] else [])) := by
  refine ⟨?_, ?_, ?_⟩
  · rw [convert_dual_eq_flatMap]
    apply flatMap_congr_mem
    intro u _
    unfold policyPoints
    rw [hmode]
  · intro u hd ho
    unfold dualPolicyPoints
    simp only
    rw [if_pos ⟨hd, ho⟩]
  · intro u hn
    unfold dualPolicyPoints
    simp only
    rw [if_neg hn]

/-- Witness of C9: the parsed packet `dualPacket` under the sample
configuration (dual policy, threshold 0.04): laser 0 has the even distance
5.00 and the odd distance 5.02, and gets exactly one point, built from the odd
block and tagged `DUAL_ONLY`. -/
theorem convert_dual_dual_policy_witness :
    sampleConfig.return_mode_ = .DUAL
    ∧ (((parsePacket pandarQT exactOps dualPacket zeroPacket).2.blocks 0).units 0).distance = 5
    ∧ (((parsePacket pandarQT exactOps dualPacket zeroPacket).2.blocks 1).units 0).distance
        = 251 / 50
    ∧ convert_dual pandarQT exactOps sampleConfig
          (parsePacket pandarQT exactOps dualPacket zeroPacket).2 0 =
        (List.range pandarQT.UNIT_NUM).flatMap (fun u =>
          if ringDisabled sampleConfig u then []
          else dualPolicyPoints pandarQT exactOps sampleConfig
            (parsePacket pandarQT exactOps dualPacket zeroPacket).2 0 u)
    ∧ dualPolicyPoints pandarQT exactOps sampleConfig
          (parsePacket pandarQT exactOps dualPacket zeroPacket).2 0 0 =
        [build_point pandarQT exactOps sampleConfig
          (parsePacket pandarQT exactOps dualPacket zeroPacket).2 1 0 .DUAL_ONLY] := by
  have hacc : (parsePacket pandarQT exactOps dualPacket zeroPacket).1 = true := by
    rw [parsePacket_fst_iff]
    decide
  have h7 : byteAt dualPacket 7 = 4 := by decide
  have h6 : byteAt dualPacket 6 = 64 := by decide
  have heven : (((parsePacket pandarQT exactOps dualPacket zeroPacket).2.blocks 0).units
      0).distance = 5 := by
    rw [parsed_distance_exact dualPacket zeroPacket hacc h7 h6 0 0 (by decide) (by decide)]
    have e : le16 dualPacket (12 + 0 * 258 + 2 + 0 * 4) * byteAt dualPacket 9
        % 4294967296 = 5000 := by decide
    rw [e]
    norm_num
  have hodd : (((parsePacket pandarQT exactOps dualPacket zeroPacket).2.blocks 1).units
      0).distance = 251 / 50 := by
    rw [parsed_distance_exact dualPacket zeroPacket hacc h7 h6 1 0 (by decide) (by decide)]
    have e : le16 dualPacket (12 + 1 * 258 + 2 + 0 * 4) * byteAt dualPacket 9
        % 4294967296 = 5020 := by decide
    rw [e]
    norm_num
  obtain ⟨h1, h2, _⟩ := convert_dual_dual_policy pandarQT exactOps sampleConfig
    (parsePacket pandarQT exactOps dualPacket zeroPacket).2 0 rfl
  refine ⟨rfl, heven, hodd, h1, h2 0 ?_ ?_⟩
  · rw [heven, hodd]
    show |(5 : ℚ) - 251 / 50| < 1 / 25
    rw [abs_lt]
    constructor <;> norm_num
  · rw [hodd]
    unfold inRange
    norm_num [sampleConfig]

/-- C10: in a dual-return packet, for the lasers that are not disabled: under
the first-return policy `convert_dual` emits the point of the even block tagged
`SINGLE_FIRST` exactly when the even measurement is usable; under the
last-return policy it emits the point of the odd block tagged `SINGLE_LAST`
exactly when the even measurement is usable, whatever the odd measurement is;
and no other point is emitted. -/
theorem convert_dual_single_policies {D : Type} [LinearOrder D] (K : Consts)
    (F : FloatOps D) (cfg : Config D) (pkt : Packet D) (b : Nat) :
    (cfg.return_mode_ = .FIRST →
      convert_dual K F cfg pkt b =
        (List.range K.UNIT_NUM).flatMap (fun u =>
          if ringDisabled cfg u then []
          else if inRange cfg ((pkt.blocks b).units u).distance = true
            then [build_point K F cfg pkt b u .SINGLE_FIRST] else []))
    ∧ (cfg.return_mode_ = .LAST →
      convert_dual K F cfg pkt b =
        (List.range K.UNIT_NUM).flatMap (fun u =>
          if ringDisabled cfg u then []
          else if inRange cfg ((pkt.blocks b).units u).distance = true
            then [build_point K F cfg pkt (b + 1) u .SINGLE_LAST] else [])) := by
  refine ⟨?_, ?_⟩
  · intro hmode
    rw [convert_dual_eq_flatMap]
    apply flatMap_congr_mem
    intro u _
    unfold policyPoints firstPolicyPoints
    rw [hmode]
  · intro hmode
    rw [convert_dual_eq_flatMap]
    apply flatMap_congr_mem
    intro u _
    unfold policyPoints lastPolicyPoints
    rw [hmode]

/-- Witness of C10: the first-return and the last-return configurations on the
parsed packet `lostEchoPacket`. -/
theorem convert_dual_single_policies_witness :
    (firstConfig.return_mode_ = .FIRST
      ∧ convert_dual pandarQT exactOps firstConfig
          (parsePacket pandarQT exactOps lostEchoPacket zeroPacket).2 0 =
        (List.range pandarQT.UNIT_NUM).flatMap (fun u =>
          if ringDisabled firstConfig u then []
          else if inRange firstConfig
              (((parsePacket pandarQT exactOps lostEchoPacket zeroPacket).2.blocks 0).units
                u).distance = true
            then [build_point pandarQT exactOps firstConfig
              (parsePacket pandarQT exactOps lostEchoPacket zeroPacket).2 0 u .SINGLE_FIRST]
            else []))
    ∧ (lastConfig.return_mode_ = .LAST
      ∧ convert_dual pandarQT exactOps lastConfig
          (parsePacket pandarQT exactOps lostEchoPacket zeroPacket).2 0 =
        (List.range pandarQT.UNIT_NUM).flatMap (fun u =>
          if ringDisabled lastConfig u then []
          else if inRange lastConfig
              (((parsePacket pandarQT exactOps lostEchoPacket zeroPacket).2.blocks 0).units
                u).distance = true
            then [build_point pandarQT exactOps lastConfig
              (parsePacket pandarQT exactOps lostEchoPacket zeroPacket).2 (0 + 1) u
              .SINGLE_LAST]
            else [])) :=
  ⟨⟨rfl, (convert_dual_single_policies pandarQT exactOps firstConfig
      (parsePacket pandarQT exactOps lostEchoPacket zeroPacket).2 0).1 rfl⟩,
   ⟨rfl, (convert_dual_single_policies pandarQT exactOps lastConfig
      (parsePacket pandarQT exactOps lostEchoPacket zeroPacket).2 0).2 rfl⟩⟩

/-- Witness of C7: with the rings 1 and 63 disabled, block 0 of the parsed
sample packet yields the point of laser 0 (distance 1), and its ring is not in
the list. -/
theorem no_point_on_disabled_ring_witness :
    build_point pandarQT exactOps ringConfig
        (parsePacket pandarQT exactOps samplePacket zeroPacket).2 0 0
        (singleTag pandarQT (parsePacket pandarQT exactOps samplePacket zeroPacket).2)
      ∈ convert pandarQT exactOps ringConfig
          (parsePacket pandarQT exactOps samplePacket zeroPacket).2 0
    ∧ ((build_point pandarQT exactOps ringConfig
        (parsePacket pandarQT exactOps samplePacket zeroPacket).2 0 0
        (singleTag pandarQT (parsePacket pandarQT exactOps samplePacket zeroPacket).2)).ring
        : Int) ∉ ringConfig.disable_rings_ := by
  have hacc : (parsePacket pandarQT exactOps samplePacket zeroPacket).1 = true := by
    rw [parsePacket_fst_iff]
    decide
  have hdist : (((parsePacket pandarQT exactOps samplePacket zeroPacket).2.blocks 0).units
      0).distance = 1 := by
    rw [parsed_distance_exact samplePacket zeroPacket hacc (by decide) (by decide) 0 0
      (by decide) (by decide)]
    have e : le16 samplePacket (12 + 0 * 258 + 2 + 0 * 4) * byteAt samplePacket 9
        % 4294967296 = 1000 := by decide
    rw [e]
    norm_num
  have hmem : build_point pandarQT exactOps ringConfig
        (parsePacket pandarQT exactOps samplePacket zeroPacket).2 0 0
        (singleTag pandarQT (parsePacket pandarQT exactOps samplePacket zeroPacket).2)
      ∈ convert pandarQT exactOps ringConfig
          (parsePacket pandarQT exactOps samplePacket zeroPacket).2 0 := by
    rw [convert_eq_flatMap, List.mem_flatMap]
    refine ⟨0, List.mem_range.mpr (by decide), ?_⟩
    have hr : ringDisabled ringConfig 0 = false := by decide
    have hin : inRange ringConfig
        (((parsePacket pandarQT exactOps samplePacket zeroPacket).2.blocks 0).units
          0).distance = true := by
      rw [hdist]
      unfold inRange
      norm_num [ringConfig, sampleConfig]
    rw [if_pos ⟨hr, hin⟩]
    exact List.mem_singleton.mpr rfl
  exact ⟨hmem,
    (no_point_on_disabled_ring pandarQT exactOps ringConfig
      (parsePacket pandarQT exactOps samplePacket zeroPacket).2 0).1 _ hmem⟩

/-! ## The decision on the overflow mode -/

theorem cmod_shift_eq (x : Int) (h0 : -36000 ≤ x) (h1 : x < 2147483648 - 36000) :
    cmod (int32 (int32 x + 36000)) 36000 = (x + 36000) % 36000 := by
  rw [int32_eq_self x (by omega) (by omega), int32_eq_self (x + 36000) (by omega) (by omega)]
  unfold cmod
  rw [Int.tmod_eq_emod (by omega) (by norm_num)]

/-- C11: for `angle_range_[0]`, `angle_range_[1]` and `scan_phase_` within
[0, 36000], the constructor sets `use_overflow_` exactly when
`max_angle = (end - start + 36000) mod 36000` is 0 or
`scan_angle = (phase - start + 36000) mod 36000` is below `max_angle`; and that
is the case exactly when `max_angle` is 0 or the scan phase is congruent modulo
36000 to `start + k` for some `0 <= k < max_angle`. -/
theorem useOverflow_iff (scan_phase_ angle0 angle1 : Int)
    (hphase : 0 ≤ scan_phase_ ∧ scan_phase_ ≤ 36000)
    (hstart : 0 ≤ angle0 ∧ angle0 ≤ 36000) (hend : 0 ≤ angle1 ∧ angle1 ≤ 36000) :
    (useOverflow scan_phase_ angle0 angle1 = true ↔
      ((angle1 - angle0 + 36000) % 36000 = 0
        ∨ (scan_phase_ - angle0 + 36000) % 36000 < (angle1 - angle0 + 36000) % 36000))
    ∧ (useOverflow scan_phase_ angle0 angle1 = true ↔
      ((angle1 - angle0 + 36000) % 36000 = 0
        ∨ ∃ k : Int, 0 ≤ k ∧ k < (angle1 - angle0 + 36000) % 36000
            ∧ (scan_phase_ - (angle0 + k)) % 36000 = 0)) := by
  have key : useOverflow scan_phase_ angle0 angle1 = true ↔
      ((angle1 - angle0 + 36000) % 36000 = 0
        ∨ (scan_phase_ - angle0 + 36000) % 36000 < (angle1 - angle0 + 36000) % 36000) := by
    unfold useOverflow
    simp only [Bool.or_eq_true, beq_iff_eq, decide_eq_true_iff]
    rw [cmod_shift_eq (angle1 - angle0) (by omega) (by omega),
      cmod_shift_eq (scan_phase_ - angle0) (by omega) (by omega)]
  refine ⟨key, ?_⟩
  rw [key]
  constructor
  · rintro (h | h)
    · exact Or.inl h
    · refine Or.inr ⟨(scan_phase_ - angle0 + 36000) % 36000, ?_, h, ?_⟩
      · omega
      · omega
  · rintro (h | ⟨k, hk0, hk1, hk⟩)
    · exact Or.inl h
    · right
      omega

/-- Witness of C11: the window [90.00, 270.00] with the scan phase 180.00. -/
theorem useOverflow_iff_witness :
    ((0 ≤ (18000 : Int) ∧ (18000 : Int) ≤ 36000)
      ∧ (0 ≤ (9000 : Int) ∧ (9000 : Int) ≤ 36000)
      ∧ (0 ≤ (27000 : Int) ∧ (27000 : Int) ≤ 36000))
    ∧ useOverflow 18000 9000 27000 = true
    ∧ (useOverflow 18000 9000 27000 = true ↔
      (((27000 : Int) - 9000 + 36000) % 36000 = 0
        ∨ ((18000 : Int) - 9000 + 36000) % 36000 < ((27000 : Int) - 9000 + 36000) % 36000)) :=
  ⟨⟨by decide, by decide, by decide⟩, by decide,
   (useOverflow_iff 18000 9000 27000 (by decide) (by decide) (by decide)).1⟩

/-! ## Retrieval and reset -/

/-- C12: `getPointcloud` returns the active cloud and sets `reset_scan_`; the
clouds, `last_phase_`, `has_scanned_` and the record are unchanged; and any
number of further retrievals return the same cloud and leave the state of the
first retrieval. -/
theorem getPointcloud_frame {D : Type} (s : State D) :
    (getPointcloud s).1 = s.scan_pc_
    ∧ (getPointcloud s).2.reset_scan_ = true
    ∧ (getPointcloud s).2.scan_pc_ = s.scan_pc_
    ∧ (getPointcloud s).2.overflow_pc_ = s.overflow_pc_
    ∧ (getPointcloud s).2.last_phase_ = s.last_phase_
    ∧ (getPointcloud s).2.has_scanned_ = s.has_scanned_
    ∧ (getPointcloud s).2.packet_ = s.packet_
    ∧ ∀ n : Nat,
        getPointcloud ((fun t => (getPointcloud t).2)^[n] (getPointcloud s).2)
          = (s.scan_pc_, (getPointcloud s).2) := by
  refine ⟨rfl, rfl, rfl, rfl, rfl, rfl, rfl, ?_⟩
  intro n
  have hfix : ∀ n : Nat, (fun t : State D => (getPointcloud t).2)^[n] (getPointcloud s).2
      = (getPointcloud s).2 := by
    intro n
    induction n with
    | zero => rfl
    | succ n ih =>
      rw [Function.iterate_succ_apply', ih]
      rfl
  rw [hfix n]
  rfl

theorem unpack_of_accept {D : Type} [LinearOrder D] (K : Consts) (F : FloatOps D)
    (cfg : Config D) (s : State D) (raw : PandarPacket)
    (hacc : (parsePacket K F raw s.packet_).1 = true) :
    unpack K F cfg s raw =
      if cfg.use_overflow_ then
        (packetBlockIds K (parsePacket K F raw s.packet_).2).foldl
          (overflowStep K F cfg (isDual K (parsePacket K F raw s.packet_).2))
          (resetScan cfg (s.withPacket (parsePacket K F raw s.packet_).2))
      else
        (packetBlockIds K (parsePacket K F raw s.packet_).2).foldl
          (windowStep K F cfg (isDual K (parsePacket K F raw s.packet_).2))
          (resetScan cfg (s.withPacket (parsePacket K F raw s.packet_).2)) := by
  unfold unpack
  simp only [hacc, Bool.true_eq_false, if_false]
  rfl

theorem unpack_of_reject {D : Type} [LinearOrder D] (K : Consts) (F : FloatOps D)
    (cfg : Config D) (s : State D) (raw : PandarPacket)
    (hrej : (parsePacket K F raw s.packet_).1 = false) :
    unpack K F cfg s raw = (s.withPacket (parsePacket K F raw s.packet_).2) := by
  unfold unpack
  simp only [hrej, if_true]
  rfl

theorem resetScan_packet {D : Type} (cfg : Config D) (s : State D) :
    (resetScan cfg s).packet_ = s.packet_ := by
  unfold resetScan
  cases s.reset_scan_ <;> cases cfg.use_overflow_ <;> rfl

/-- C13: on an accepted packet `unpack` runs its block loop from the state
`resetScan` leaves. If `reset_scan_` is set, then in overflow mode the active
cloud becomes the overflow cloud, the overflow cloud becomes empty and
`has_scanned_` false, and otherwise the active cloud becomes empty while the
overflow cloud and `has_scanned_` stay; in both modes `reset_scan_` becomes
false and `last_phase_` stays. If `reset_scan_` is not set nothing changes. -/
theorem unpack_reset_handling {D : Type} [LinearOrder D] (K : Consts) (F : FloatOps D)
    (cfg : Config D) (s : State D) (raw : PandarPacket)
    (hacc : (parsePacket K F raw s.packet_).1 = true) :
    (unpack K F cfg s raw =
      if cfg.use_overflow_ then
        (packetBlockIds K (parsePacket K F raw s.packet_).2).foldl
          (overflowStep K F cfg (isDual K (parsePacket K F raw s.packet_).2))
          (resetScan cfg (s.withPacket (parsePacket K F raw s.packet_).2))
      else
        (packetBlockIds K (parsePacket K F raw s.packet_).2).foldl
          (windowStep K F cfg (isDual K (parsePacket K F raw s.packet_).2))
          (resetScan cfg (s.withPacket (parsePacket K F raw s.packet_).2)))
    ∧ (∀ t : State D, t.reset_scan_ = true → cfg.use_overflow_ = true →
        (resetScan cfg t).scan_pc_ = t.overflow_pc_
        ∧ (resetScan cfg t).overflow_pc_ = []
        ∧ (resetScan cfg t).has_scanned_ = false
        ∧ (resetScan cfg t).reset_scan_ = false
        ∧ (resetScan cfg t).last_phase_ = t.last_phase_)
    ∧ (∀ t : State D, t.reset_scan_ = true → cfg.use_overflow_ = false →
        (resetScan cfg t).scan_pc_ = []
        ∧ (resetScan cfg t).overflow_pc_ = t.overflow_pc_
        ∧ (resetScan cfg t).has_scanned_ = t.has_scanned_
        ∧ (resetScan cfg t).reset_scan_ = false
        ∧ (resetScan cfg t).last_phase_ = t.last_phase_)
    ∧ (∀ t : State D, t.reset_scan_ = false → resetScan cfg t = t) := by
  refine ⟨unpack_of_accept K F cfg s raw hacc, ?_, ?_, ?_⟩
  · intro t ht hc
    unfold resetScan
    rw [ht, hc]
    exact ⟨rfl, rfl, rfl, rfl, rfl⟩
  · intro t ht hc
    unfold resetScan
    rw [ht, hc]
    exact ⟨rfl, rfl, rfl, rfl, rfl⟩
  · intro t ht
    unfold resetScan
    rw [ht]
    rfl

/-- Witness of C13: the sample packet arriving in a state whose cloud has been
retrieved, in overflow mode. -/
theorem unpack_reset_handling_witness :
    (parsePacket pandarQT exactOps samplePacket busyState.packet_).1 = true
    ∧ busyState.reset_scan_ = true ∧ sampleConfig.use_overflow_ = true
    ∧ (resetScan sampleConfig busyState).scan_pc_ = busyState.overflow_pc_
    ∧ (resetScan sampleConfig busyState).overflow_pc_ = []
    ∧ (resetScan sampleConfig busyState).has_scanned_ = false
    ∧ (resetScan sampleConfig busyState).reset_scan_ = false
    ∧ (resetScan sampleConfig busyState).last_phase_ = busyState.last_phase_ :=
  have hacc : (parsePacket pandarQT exactOps samplePacket busyState.packet_).1 = true := by
    rw [parsePacket_fst_iff]
    decide
  ⟨hacc, rfl, rfl,
   (unpack_reset_handling pandarQT exactOps sampleConfig busyState samplePacket hacc).2.1
     busyState rfl rfl⟩

/-! ## The block loop in overflow mode -/

theorem overflowStep_eq_classify {D : Type} [LinearOrder D] (K : Consts) (F : FloatOps D)
    (cfg : Config D) (dual : Bool) (s : State D) (b : Nat) :
    overflowStep K F cfg dual s b =
      classifyBlock s (overflowPhase cfg s.packet_ b, blockCloud K F cfg s.packet_ dual b) :=
  rfl

theorem classifyBlock_packet {D : Type} (s : State D) (blk : Int × List (Point D)) :
    (classifyBlock s blk).packet_ = s.packet_ := by
  unfold classifyBlock
  split <;> rfl

theorem classifyBlock_reset {D : Type} (s : State D) (blk : Int × List (Point D)) :
    (classifyBlock s blk).reset_scan_ = s.reset_scan_ := by
  unfold classifyBlock
  split <;> rfl

theorem foldl_classify_packet {D : Type} (blks : List (Int × List (Point D))) (s : State D) :
    (blks.foldl classifyBlock s).packet_ = s.packet_
    ∧ (blks.foldl classifyBlock s).reset_scan_ = s.reset_scan_ := by
  induction blks generalizing s with
  | nil => exact ⟨rfl, rfl⟩
  | cons blk blks ih =>
    rw [List.foldl_cons]
    obtain ⟨h1, h2⟩ := ih (classifyBlock s blk)
    exact ⟨h1.trans (classifyBlock_packet s blk), h2.trans (classifyBlock_reset s blk)⟩

/-- The block loop of the overflow branch is the classification of the blocks
of the record, in order. -/
theorem foldl_overflowStep_eq {D : Type} [LinearOrder D] (K : Consts) (F : FloatOps D)
    (cfg : Config D) (dual : Bool) (ids : List Nat) (s : State D) :
    ids.foldl (overflowStep K F cfg dual) s =
      (ids.map (fun b => (overflowPhase cfg s.packet_ b,
        blockCloud K F cfg s.packet_ dual b))).foldl classifyBlock s := by
  induction ids generalizing s with
  | nil => rfl
  | cons b ids ih =>
    rw [List.foldl_cons, List.map_cons, List.foldl_cons, ih, overflowStep_eq_classify,
      classifyBlock_packet]

theorem unpack_overflow_eq {D : Type} [LinearOrder D] (K : Consts) (F : FloatOps D)
    (cfg : Config D) (s : State D) (raw : PandarPacket) (huse : cfg.use_overflow_ = true)
    (hacc : (parsePacket K F raw s.packet_).1 = true) :
    unpack K F cfg s raw =
      (packetBlocks K F cfg (parsePacket K F raw s.packet_).2).foldl classifyBlock
        (resetScan cfg (s.withPacket (parsePacket K F raw s.packet_).2)) := by
  rw [unpack_of_accept K F cfg s raw hacc, huse, if_pos rfl, foldl_overflowStep_eq,
    resetScan_packet]
  rfl

theorem foldl_classify_scanned {D : Type} (blks : List (Int × List (Point D))) (s : State D)
    (hs : s.has_scanned_ = true) :
    (blks.foldl classifyBlock s).scan_pc_ = s.scan_pc_
    ∧ (blks.foldl classifyBlock s).has_scanned_ = true
    ∧ (blks.foldl classifyBlock s).overflow_pc_
        = s.overflow_pc_ ++ blks.flatMap (fun blk => blk.2) := by
  induction blks generalizing s with
  | nil => simp [hs]
  | cons blk blks ih =>
    have hstep : classifyBlock s blk =
        { s with overflow_pc_ := s.overflow_pc_ ++ blk.2, has_scanned_ := true,
                 last_phase_ := blk.1 } := by
      unfold classifyBlock
      rw [hs]
      simp
    rw [List.foldl_cons, hstep]
    obtain ⟨h1, h2, h3⟩ := ih
      { s with overflow_pc_ := s.overflow_pc_ ++ blk.2, has_scanned_ := true,
               last_phase_ := blk.1 } rfl
    refine ⟨h1, h2, ?_⟩
    rw [h3, List.flatMap_cons, List.append_assoc]

theorem resetScan_of_not_pending {D : Type} (cfg : Config D) (s : State D)
    (hr : s.reset_scan_ = false) : resetScan cfg s = s := by
  unfold resetScan
  rw [hr]
  rfl

theorem windowStep_eq {D : Type} [LinearOrder D] (K : Consts) (F : FloatOps D)
    (cfg : Config D) (dual : Bool) (s : State D) (b : Nat) :
    windowStep K F cfg dual s b =
      if windowPhase cfg s.packet_ b < windowSpan cfg then
        { s with scan_pc_ := s.scan_pc_ ++ blockCloud K F cfg s.packet_ dual b }
      else s :=
  rfl

/-- The block loop of the branch without overflow appends to the active cloud
the clouds of the blocks whose phase is below the span, in order, and changes
nothing else. -/
theorem foldl_windowStep_eq {D : Type} [LinearOrder D] (K : Consts) (F : FloatOps D)
    (cfg : Config D) (dual : Bool) (ids : List Nat) (s : State D) :
    ids.foldl (windowStep K F cfg dual) s =
      { s with
        scan_pc_ := (s.scan_pc_
          ++ (ids.filter (fun b => decide (windowPhase cfg s.packet_ b < windowSpan cfg))).flatMap
              (fun b => blockCloud K F cfg s.packet_ dual b)) } := by
  induction ids generalizing s with
  | nil => simp
  | cons b ids ih =>
    rw [List.foldl_cons, ih, windowStep_eq]
    by_cases h : windowPhase cfg s.packet_ b < windowSpan cfg
    · rw [if_pos h]
      simp [List.filter_cons, h, List.append_assoc]
    · rw [if_neg h]
      simp [List.filter_cons, h]

theorem unpack_window_eq {D : Type} [LinearOrder D] (K : Consts) (F : FloatOps D)
    (cfg : Config D) (s : State D) (raw : PandarPacket) (huse : cfg.use_overflow_ = false)
    (hacc : (parsePacket K F raw s.packet_).1 = true) :
    (unpack K F cfg s raw).scan_pc_ =
        (resetScan cfg (s.withPacket (parsePacket K F raw s.packet_).2)).scan_pc_
          ++ ((packetBlockIds K (parsePacket K F raw s.packet_).2).filter
                (fun b => decide (windowPhase cfg (parsePacket K F raw s.packet_).2 b
                  < windowSpan cfg))).flatMap
              (fun b => blockCloud K F cfg (parsePacket K F raw s.packet_).2
                (isDual K (parsePacket K F raw s.packet_).2) b)
    ∧ (unpack K F cfg s raw).overflow_pc_
        = (resetScan cfg (s.withPacket (parsePacket K F raw s.packet_).2)).overflow_pc_
    ∧ (unpack K F cfg s raw).last_phase_
        = (resetScan cfg (s.withPacket (parsePacket K F raw s.packet_).2)).last_phase_
    ∧ (unpack K F cfg s raw).has_scanned_
        = (resetScan cfg (s.withPacket (parsePacket K F raw s.packet_).2)).has_scanned_
    ∧ (unpack K F cfg s raw).reset_scan_
        = (resetScan cfg (s.withPacket (parsePacket K F raw s.packet_).2)).reset_scan_ := by
  rw [unpack_of_accept K F cfg s raw hacc, huse, if_neg (by simp), foldl_windowStep_eq]
  refine ⟨?_, rfl, rfl, rfl, rfl⟩
  simp only [resetScan_packet]
  rfl

/-- Without overflow `unpack` never touches the overflow cloud, `last_phase_`
or `has_scanned_`. -/
theorem unpack_window_frame {D : Type} [LinearOrder D] (K : Consts) (F : FloatOps D)
    (cfg : Config D) (s : State D) (raw : PandarPacket) (huse : cfg.use_overflow_ = false) :
    (unpack K F cfg s raw).overflow_pc_ = s.overflow_pc_
    ∧ (unpack K F cfg s raw).last_phase_ = s.last_phase_
    ∧ (unpack K F cfg s raw).has_scanned_ = s.has_scanned_ := by
  cases hacc : (parsePacket K F raw s.packet_).1
  · rw [unpack_of_reject K F cfg s raw hacc]
    exact ⟨rfl, rfl, rfl⟩
  · obtain ⟨_, h2, h3, h4, _⟩ := unpack_window_eq K F cfg s raw huse hacc
    rw [h2, h3, h4]
    unfold resetScan
    rw [huse]
    cases hr : (s.withPacket (parsePacket K F raw s.packet_).2).reset_scan_
    · exact ⟨rfl, rfl, rfl⟩
    · exact ⟨rfl, rfl, rfl⟩

theorem runCalls_has_scanned {D : Type} [LinearOrder D] (K : Consts) (F : FloatOps D)
    (cfg : Config D) (huse : cfg.use_overflow_ = false) (calls : List Call) (s : State D)
    (hs : s.has_scanned_ = false) : (runCalls K F cfg s calls).has_scanned_ = false := by
  induction calls generalizing s with
  | nil => exact hs
  | cons c calls ih =>
    cases c with
    | unpack raw =>
      have e : runCalls K F cfg s (Call.unpack raw :: calls)
          = runCalls K F cfg (unpack K F cfg s raw) calls := rfl
      rw [e]
      exact ih _ ((unpack_window_frame K F cfg s raw huse).2.2.trans hs)
    | getPointcloud =>
      have e : runCalls K F cfg s (Call.getPointcloud :: calls)
          = runCalls K F cfg (getPointcloud s).2 calls := rfl
      rw [e]
      exact ih _ hs

/-- C20: when the constructor has not enabled the overflow mode, `hasScanned`
returns false after any sequence of calls of `unpack` and `getPointcloud` on a
freshly constructed decoder. -/
theorem hasScanned_false_without_overflow {D : Type} [LinearOrder D] (K : Consts)
    (F : FloatOps D) (cfg : Config D) (huse : cfg.use_overflow_ = false)
    (packet_ : Packet D) (calls : List Call) :
    hasScanned (runCalls K F cfg (State.init packet_) calls) = false :=
  runCalls_has_scanned K F cfg huse calls (State.init packet_) rfl

/-- Witness of C20: two packets with a retrieval in between, for the window
[90.00, 180.00] with the scan phase 0. -/
theorem hasScanned_false_without_overflow_witness :
    (windowConfig.use_overflow_ = false
      ∧ useOverflow windowConfig.scan_phase_ (windowConfig.angle_range_ 0)
          (windowConfig.angle_range_ 1) = false)
    ∧ hasScanned (runCalls pandarQT exactOps windowConfig (State.init zeroPacket)
        [Call.unpack samplePacket, Call.getPointcloud, Call.unpack dualPacket]) = false :=
  ⟨⟨rfl, by decide⟩,
   hasScanned_false_without_overflow pandarQT exactOps windowConfig rfl zeroPacket
     [Call.unpack samplePacket, Call.getPointcloud, Call.unpack dualPacket]⟩

/-! ## Rotations in overflow mode -/

theorem init_packet {D : Type} (pkt : Packet D) : (State.init pkt).packet_ = pkt :=
  rfl

theorem init_last_phase {D : Type} (pkt : Packet D) : (State.init pkt).last_phase_ = 0 :=
  rfl

theorem withPacket_scan {D : Type} (s : State D) (pkt : Packet D) :
    (s.withPacket pkt).scan_pc_ = s.scan_pc_ :=
  rfl

theorem withPacket_self {D : Type} (s : State D) : s.withPacket s.packet_ = s := by
  cases s
  rfl

theorem classifyBlock_withPacket {D : Type} (s : State D) (pkt : Packet D)
    (blk : Int × List (Point D)) :
    classifyBlock (s.withPacket pkt) blk = (classifyBlock s blk).withPacket pkt := by
  unfold classifyBlock State.withPacket
  by_cases h : blk.1 > s.last_phase_ ∧ s.has_scanned_ = false
  · simp only [h, and_self, if_true]
  · simp only [h, if_false]

theorem foldl_classify_withPacket {D : Type} (blks : List (Int × List (Point D)))
    (s : State D) (pkt : Packet D) :
    blks.foldl classifyBlock (s.withPacket pkt) = (blks.foldl classifyBlock s).withPacket pkt := by
  induction blks generalizing s with
  | nil => rfl
  | cons blk blks ih =>
    rw [List.foldl_cons, List.foldl_cons, classifyBlock_withPacket, ih]

/-- One call of `unpack` in overflow mode when no reset is pending: the blocks
processed for the packet are classified, and the record is the parsed one. -/
theorem unpack_overflow_step {D : Type} [LinearOrder D] (K : Consts) (F : FloatOps D)
    (cfg : Config D) (s : State D) (raw : PandarPacket) (huse : cfg.use_overflow_ = true)
    (hr : s.reset_scan_ = false) :
    unpack K F cfg s raw =
      ((if (parsePacket K F raw s.packet_).1
          then packetBlocks K F cfg (parsePacket K F raw s.packet_).2
          else []).foldl classifyBlock s).withPacket (parsePacket K F raw s.packet_).2 := by
  cases hacc : (parsePacket K F raw s.packet_).1
  · rw [unpack_of_reject K F cfg s raw hacc]
    rfl
  · rw [unpack_overflow_eq K F cfg s raw huse hacc,
      resetScan_of_not_pending cfg (s.withPacket (parsePacket K F raw s.packet_).2) hr,
      foldl_classify_withPacket, if_pos rfl]

/-- The ingestion of a sequence of packets in overflow mode, when no reset is
pending, is the classification of the processed blocks, in order; the record
is the one the last packet leaves. -/
theorem ingest_overflow_eq {D : Type} [LinearOrder D] (K : Consts) (F : FloatOps D)
    (cfg : Config D) (raws : List PandarPacket) (s : State D)
    (huse : cfg.use_overflow_ = true) (hr : s.reset_scan_ = false) :
    ∃ pkt : Packet D, ingest K F cfg s raws =
      ((processedBlocks K F cfg s.packet_ raws).foldl classifyBlock s).withPacket pkt := by
  induction raws generalizing s with
  | nil => exact ⟨s.packet_, (withPacket_self s).symm⟩
  | cons raw raws ih =>
    have e : ingest K F cfg s (raw :: raws) = ingest K F cfg (unpack K F cfg s raw) raws := rfl
    have hstep := unpack_overflow_step K F cfg s raw huse hr
    have hr' : (unpack K F cfg s raw).reset_scan_ = false := by
      rw [hstep]
      exact (foldl_classify_packet _ s).2.trans hr
    have hp' : (unpack K F cfg s raw).packet_ = (parsePacket K F raw s.packet_).2 := by
      rw [hstep]
      rfl
    obtain ⟨pkt, h⟩ := ih (unpack K F cfg s raw) hr'
    refine ⟨pkt, ?_⟩
    rw [e, h, hp']
    show _ = (((if (parsePacket K F raw s.packet_).1
        then packetBlocks K F cfg (parsePacket K F raw s.packet_).2 else [])
      ++ processedBlocks K F cfg (parsePacket K F raw s.packet_).2 raws).foldl
        classifyBlock s).withPacket pkt
    rw [List.foldl_append, hstep, foldl_classify_withPacket]
    rfl

theorem chain_left_of_append {α : Type} (R : α → α → Prop) (a : α) (l1 l2 : List α)
    (h : List.Chain R a (l1 ++ l2)) : List.Chain R a l1 := by
  induction l1 generalizing a with
  | nil => exact List.Chain.nil
  | cons b l1 ih =>
    rw [List.cons_append, List.chain_cons] at h
    exact List.Chain.cons h.1 (ih b h.2)

/-- Blocks of strictly increasing phase, the first above `last_phase_`, go to
the active cloud as long as no rotation has completed. -/
theorem foldl_classify_rising {D : Type} (blks : List (Int × List (Point D))) (s : State D)
    (hs : s.has_scanned_ = false)
    (hrise : List.Chain (fun a b => a < b) s.last_phase_ (blks.map (fun blk => blk.1))) :
    (blks.foldl classifyBlock s).scan_pc_ = s.scan_pc_ ++ blks.flatMap (fun blk => blk.2)
    ∧ (blks.foldl classifyBlock s).overflow_pc_ = s.overflow_pc_
    ∧ (blks.foldl classifyBlock s).has_scanned_ = false := by
  induction blks generalizing s with
  | nil => simp [hs]
  | cons blk blks ih =>
    rw [List.map_cons, List.chain_cons] at hrise
    have hstep : classifyBlock s blk =
        { s with scan_pc_ := s.scan_pc_ ++ blk.2, last_phase_ := blk.1 } := by
      unfold classifyBlock
      rw [if_pos ⟨hrise.1, hs⟩]
    rw [List.foldl_cons, hstep]
    obtain ⟨h1, h2, h3⟩ := ih { s with scan_pc_ := s.scan_pc_ ++ blk.2, last_phase_ := blk.1 }
      hs hrise.2
    refine ⟨?_, h2, h3⟩
    rw [h1, List.flatMap_cons, List.append_assoc]

theorem foldl_classify_last_phase {D : Type} (blks : List (Int × List (Point D)))
    (blk : Int × List (Point D)) (s : State D) :
    ((blks ++ [blk]).foldl classifyBlock s).last_phase_ = blk.1 := by
  rw [List.foldl_append]
  rfl

/-- The classification of a sequence of blocks whose phase rises strictly from
above `last_phase_` up to the block `lastBlk` and does not rise at the block
`dropBlk`: the blocks up to `lastBlk` go to the active cloud, the others to the
overflow cloud, and `has_scanned_` is set from `dropBlk` on. -/
theorem foldl_classify_rotation {D : Type} (pre : List (Int × List (Point D)))
    (lastBlk dropBlk : Int × List (Point D)) (rest : List (Int × List (Point D)))
    (s : State D) (hs : s.has_scanned_ = false)
    (hrise : List.Chain (fun a b => a < b) s.last_phase_
      ((pre ++ [lastBlk]).map (fun blk => blk.1)))
    (hdrop : dropBlk.1 ≤ lastBlk.1) :
    ((pre ++ [lastBlk] ++ dropBlk :: rest).foldl classifyBlock s).scan_pc_
        = s.scan_pc_ ++ (pre ++ [lastBlk]).flatMap (fun blk => blk.2)
    ∧ ((pre ++ [lastBlk] ++ dropBlk :: rest).foldl classifyBlock s).overflow_pc_
        = s.overflow_pc_ ++ (dropBlk :: rest).flatMap (fun blk => blk.2)
    ∧ ((pre ++ [lastBlk] ++ dropBlk :: rest).foldl classifyBlock s).has_scanned_ = true := by
  obtain ⟨h1, h2, h3⟩ := foldl_classify_rising (pre ++ [lastBlk]) s hs hrise
  have h4 := foldl_classify_last_phase pre lastBlk s
  rw [List.foldl_append, List.foldl_cons]
  generalize (pre ++ [lastBlk]).foldl classifyBlock s = t at h1 h2 h3 h4
  have hstep : classifyBlock t dropBlk =
      { t with overflow_pc_ := t.overflow_pc_ ++ dropBlk.2, has_scanned_ := true,
               last_phase_ := dropBlk.1 } := by
    unfold classifyBlock
    have hn : ¬ (dropBlk.1 > t.last_phase_ ∧ t.has_scanned_ = false) := by
      rintro ⟨hgt, _⟩
      rw [h4] at hgt
      exact absurd hgt (not_lt.mpr hdrop)
    rw [if_neg hn]
  rw [hstep]
  obtain ⟨g1, g2, g3⟩ := foldl_classify_scanned rest
    { t with overflow_pc_ := t.overflow_pc_ ++ dropBlk.2, has_scanned_ := true,
             last_phase_ := dropBlk.1 } rfl
  refine ⟨g1.trans h1, ?_, g2⟩
  rw [g3]
  show (t.overflow_pc_ ++ dropBlk.2) ++ _ = _
  rw [h2, List.flatMap_cons, List.append_assoc]

/-- C14 (amended): in overflow mode, from a freshly constructed decoder, if the
phases of the processed blocks rise strictly from above 0 over the blocks up to
`lastBlk` (there are `k >= 1` of them) and the phase of the next block
`dropBlk` is not above that of `lastBlk`, then the active cloud holds exactly
the points of the first `k` blocks, in order, the overflow cloud holds exactly
the points of the blocks from `dropBlk` on, in order, and `has_scanned_` is
false after each of the first `k` blocks and true after each later one. -/
theorem overflow_segmentation {D : Type} [LinearOrder D] (K : Consts) (F : FloatOps D)
    (cfg : Config D) (huse : cfg.use_overflow_ = true) (packet_ : Packet D)
    (raws : List PandarPacket) (pre : List (Int × List (Point D)))
    (lastBlk dropBlk : Int × List (Point D)) (rest : List (Int × List (Point D)))
    (hblocks : processedBlocks K F cfg packet_ raws = pre ++ [lastBlk] ++ dropBlk :: rest)
    (hrise : List.Chain (fun a b => a < b) 0 ((pre ++ [lastBlk]).map (fun blk => blk.1)))
    (hdrop : dropBlk.1 ≤ lastBlk.1) :
    (ingest K F cfg (State.init packet_) raws).scan_pc_
        = (pre ++ [lastBlk]).flatMap (fun blk => blk.2)
    ∧ (ingest K F cfg (State.init packet_) raws).overflow_pc_
        = (dropBlk :: rest).flatMap (fun blk => blk.2)
    ∧ (ingest K F cfg (State.init packet_) raws).has_scanned_ = true
    ∧ (∀ l1 l2, pre ++ [lastBlk] = l1 ++ l2 →
        (l1.foldl classifyBlock (State.init packet_)).has_scanned_ = false
        ∧ (l1.foldl classifyBlock (State.init packet_)).scan_pc_
            = l1.flatMap (fun blk => blk.2)
        ∧ (l1.foldl classifyBlock (State.init packet_)).overflow_pc_ = [])
    ∧ (∀ r1 r2, rest = r1 ++ r2 →
        ((pre ++ [lastBlk] ++ dropBlk :: r1).foldl classifyBlock
            (State.init packet_)).has_scanned_ = true
        ∧ ((pre ++ [lastBlk] ++ dropBlk :: r1).foldl classifyBlock
            (State.init packet_)).scan_pc_ = (pre ++ [lastBlk]).flatMap (fun blk => blk.2)
        ∧ ((pre ++ [lastBlk] ++ dropBlk :: r1).foldl classifyBlock
            (State.init packet_)).overflow_pc_ = (dropBlk :: r1).flatMap (fun blk => blk.2)) := by
  have hinit : (State.init packet_).has_scanned_ = false := rfl
  have hrise' : List.Chain (fun a b => a < b) (State.init packet_).last_phase_
      ((pre ++ [lastBlk]).map (fun blk => blk.1)) := hrise
  obtain ⟨pkt, hing⟩ := ingest_overflow_eq K F cfg raws (State.init packet_) huse rfl
  have hfinal := foldl_classify_rotation pre lastBlk dropBlk rest (State.init packet_) hinit
    hrise' hdrop
  refine ⟨?_, ?_, ?_, ?_, ?_⟩
  · rw [hing]
    show ((processedBlocks K F cfg packet_ raws).foldl classifyBlock
      (State.init packet_)).scan_pc_ = _
    rw [hblocks, hfinal.1]
    rfl
  · rw [hing]
    show ((processedBlocks K F cfg packet_ raws).foldl classifyBlock
      (State.init packet_)).overflow_pc_ = _
    rw [hblocks, hfinal.2.1]
    rfl
  · rw [hing]
    show ((processedBlocks K F cfg packet_ raws).foldl classifyBlock
      (State.init packet_)).has_scanned_ = _
    rw [hblocks, hfinal.2.2]
  · intro l1 l2 hl
    have hc : List.Chain (fun a b => a < b) (State.init packet_).last_phase_
        (l1.map (fun blk => blk.1)) := by
      have := hrise'
      rw [hl, List.map_append] at this
      exact chain_left_of_append _ _ _ _ this
    obtain ⟨h1, h2, h3⟩ := foldl_classify_rising l1 (State.init packet_) hinit hc
    exact ⟨h3, h1, h2⟩
  · intro r1 r2 _
    obtain ⟨h1, h2, h3⟩ := foldl_classify_rotation pre lastBlk dropBlk r1 (State.init packet_)
      hinit hrise' hdrop
    exact ⟨h3, h1, h2⟩

/-- The blocks processed for one accepted single-return PandarQT packet of 4
blocks and 64 lasers. -/
theorem processedBlocks_single (cfg : Config ℚ) (raw : PandarPacket) (old : Packet ℚ)
    (hacc : (parsePacket pandarQT exactOps raw old).1 = true)
    (h7 : byteAt raw 7 = 4) (h6 : byteAt raw 6 = 64)
    (hmode : byteAt raw (12 + 4 * (2 + 64 * 4) + 10 + 2 + 4) = 0x33) :
    processedBlocks pandarQT exactOps cfg old [raw] =
      [0, 1, 2, 3].map (fun b =>
        (overflowPhase cfg (parsePacket pandarQT exactOps raw old).2 b,
         convert pandarQT exactOps cfg (parsePacket pandarQT exactOps raw old).2 b)) := by
  have hrm : (parsePacket pandarQT exactOps raw old).2.return_mode = 0x33 := by
    rw [parsePacket_return_mode pandarQT exactOps raw old hacc, h7, h6]
    exact hmode
  have hdual : isDual pandarQT (parsePacket pandarQT exactOps raw old).2 = false := by
    unfold isDual
    rw [hrm]
    decide
  have hids : packetBlockIds pandarQT (parsePacket pandarQT exactOps raw old).2
      = [0, 1, 2, 3] := by
    unfold packetBlockIds
    rw [hdual]
    decide
  show (if (parsePacket pandarQT exactOps raw old).1
      then packetBlocks pandarQT exactOps cfg (parsePacket pandarQT exactOps raw old).2
      else []) ++ [] = _
  rw [hacc, if_pos rfl, List.append_nil]
  unfold packetBlocks
  rw [hids, hdual]
  rfl

/-- The phase of a block of an accepted PandarQT packet of 4 blocks and 64
lasers. -/
theorem overflowPhase_parsed (cfg : Config ℚ) (raw : PandarPacket) (old : Packet ℚ)
    (hacc : (parsePacket pandarQT exactOps raw old).1 = true)
    (h7 : byteAt raw 7 = 4) (h6 : byteAt raw 6 = 64) (b : Nat) (hb : b < 4) :
    overflowPhase cfg (parsePacket pandarQT exactOps raw old).2 b =
      cmod (int32 (int32 ((le16 raw (12 + b * 258) : Int) - cfg.scan_phase_) + 36000))
        36000 := by
  obtain ⟨_, hlt⟩ := parsePacket_blocks pandarQT exactOps raw old hacc
  obtain ⟨haz, _⟩ := hlt b (by omega)
  unfold overflowPhase
  rw [haz, h6]
  rfl

set_option maxRecDepth 100000 in
/-- The bytes of the two single-return scenarios that the proofs below use. -/
theorem rotation_scenarios_bytes :
    (byteAt zeroPhasePacket (12 + 4 * (2 + 64 * 4) + 10 + 2 + 4) = 0x33
      ∧ le16 zeroPhasePacket (12 + 0 * 258) = 0 ∧ le16 zeroPhasePacket (12 + 1 * 258) = 100
      ∧ le16 zeroPhasePacket (12 + 2 * 258) = 200 ∧ le16 zeroPhasePacket (12 + 3 * 258) = 50)
    ∧ (byteAt turnPacket (12 + 4 * (2 + 64 * 4) + 10 + 2 + 4) = 0x33
      ∧ le16 turnPacket (12 + 0 * 258) = 100 ∧ le16 turnPacket (12 + 1 * 258) = 200
      ∧ le16 turnPacket (12 + 2 * 258) = 300 ∧ le16 turnPacket (12 + 3 * 258) = 50) := by
  decide

theorem classify_first_not_rising {D : Type} (blk : Int × List (Point D))
    (rest : List (Int × List (Point D))) (s : State D) (h : blk.1 ≤ s.last_phase_) :
    (classifyBlock s blk).has_scanned_ = true
    ∧ ((blk :: rest).foldl classifyBlock s).scan_pc_ = s.scan_pc_ := by
  have hstep : classifyBlock s blk =
      { s with overflow_pc_ := s.overflow_pc_ ++ blk.2, has_scanned_ := true,
               last_phase_ := blk.1 } := by
    unfold classifyBlock
    have hn : ¬ (blk.1 > s.last_phase_ ∧ s.has_scanned_ = false) := by
      rintro ⟨hgt, _⟩
      exact absurd hgt (not_lt.mpr h)
    rw [if_neg hn]
  refine ⟨by rw [hstep], ?_⟩
  rw [List.foldl_cons, hstep]
  exact (foldl_classify_scanned rest _ rfl).1

theorem convert_mem_of_usable {D : Type} [LinearOrder D] (K : Consts) (F : FloatOps D)
    (cfg : Config D) (pkt : Packet D) (b u : Nat) (hu : u < K.UNIT_NUM)
    (hr : ringDisabled cfg u = false)
    (hin : inRange cfg ((pkt.blocks b).units u).distance = true) :
    build_point K F cfg pkt b u (singleTag K pkt) ∈ convert K F cfg pkt b := by
  rw [convert_eq_flatMap, List.mem_flatMap]
  refine ⟨u, List.mem_range.mpr hu, ?_⟩
  rw [if_pos ⟨hr, hin⟩]
  exact List.mem_singleton.mpr rfl

/-- C14 (fails on the code): in overflow mode with the scan phase 0, a fresh
decoder receives the packet `zeroPhasePacket`, whose four blocks have the
phases 0, 100, 200 and 50: they rise strictly over the first three blocks and
drop at the fourth. The first block is not above the initial `last_phase_ = 0`,
so `has_scanned_` is set already after it and the active cloud stays empty,
although the first three blocks resolve points. -/
theorem first_block_at_scan_phase_closes_scan :
    sampleConfig.use_overflow_ = true
    ∧ (processedBlocks pandarQT exactOps sampleConfig zeroPacket [zeroPhasePacket]).map
        (fun blk => blk.1) = [0, 100, 200, 50]
    ∧ (ingest pandarQT exactOps sampleConfig (State.init zeroPacket)
        [zeroPhasePacket]).scan_pc_ = []
    ∧ (((processedBlocks pandarQT exactOps sampleConfig zeroPacket [zeroPhasePacket]).take
        1).foldl classifyBlock (State.init zeroPacket)).has_scanned_ = true
    ∧ ((processedBlocks pandarQT exactOps sampleConfig zeroPacket [zeroPhasePacket]).take
        3).flatMap (fun blk => blk.2) ≠ [] := by
  have hacc : (parsePacket pandarQT exactOps zeroPhasePacket zeroPacket).1 = true := by
    rw [parsePacket_fst_iff]
    decide
  have h7 : byteAt zeroPhasePacket 7 = 4 := by decide
  have h6 : byteAt zeroPhasePacket 6 = 64 := by decide
  obtain ⟨hmode, a0, a1, a2, a3⟩ := rotation_scenarios_bytes.1
  have hpb := processedBlocks_single sampleConfig zeroPhasePacket zeroPacket hacc h7 h6 hmode
  have p0 : overflowPhase sampleConfig
      (parsePacket pandarQT exactOps zeroPhasePacket zeroPacket).2 0 = 0 := by
    rw [overflowPhase_parsed sampleConfig zeroPhasePacket zeroPacket hacc h7 h6 0 (by decide),
      a0]
    decide
  have p1 : overflowPhase sampleConfig
      (parsePacket pandarQT exactOps zeroPhasePacket zeroPacket).2 1 = 100 := by
    rw [overflowPhase_parsed sampleConfig zeroPhasePacket zeroPacket hacc h7 h6 1 (by decide),
      a1]
    decide
  have p2 : overflowPhase sampleConfig
      (parsePacket pandarQT exactOps zeroPhasePacket zeroPacket).2 2 = 200 := by
    rw [overflowPhase_parsed sampleConfig zeroPhasePacket zeroPacket hacc h7 h6 2 (by decide),
      a2]
    decide
  have p3 : overflowPhase sampleConfig
      (parsePacket pandarQT exactOps zeroPhasePacket zeroPacket).2 3 = 50 := by
    rw [overflowPhase_parsed sampleConfig zeroPhasePacket zeroPacket hacc h7 h6 3 (by decide),
      a3]
    decide
  have hdist : (((parsePacket pandarQT exactOps zeroPhasePacket zeroPacket).2.blocks 0).units
      0).distance = 1 := by
    rw [parsed_distance_exact zeroPhasePacket zeroPacket hacc h7 h6 0 0 (by decide) (by decide)]
    have e : le16 zeroPhasePacket (12 + 0 * 258 + 2 + 0 * 4) * byteAt zeroPhasePacket 9
        % 4294967296 = 1000 := by decide
    rw [e]
    norm_num
  have hmem := convert_mem_of_usable pandarQT exactOps sampleConfig
    (parsePacket pandarQT exactOps zeroPhasePacket zeroPacket).2 0 0 (by decide) rfl
    (by rw [hdist]; unfold inRange; norm_num [sampleConfig])
  obtain ⟨pkt, hing⟩ := ingest_overflow_eq pandarQT exactOps sampleConfig [zeroPhasePacket]
    (State.init zeroPacket) rfl rfl
  generalize (parsePacket pandarQT exactOps zeroPhasePacket zeroPacket).2 = rec
    at hpb p0 p1 p2 p3 hmem
  have hle : ((overflowPhase sampleConfig rec 0, convert pandarQT exactOps sampleConfig rec 0)
      : Int × List (Point ℚ)).1 ≤ (State.init zeroPacket).last_phase_ := by
    rw [init_last_phase]
    simp only [p0, le_refl]
  refine ⟨rfl, ?_, ?_, ?_, ?_⟩
  · rw [hpb]
    simp only [List.map_cons, List.map_nil, p0, p1, p2, p3]
  · rw [hing, withPacket_scan, init_packet, hpb]
    simp only [List.map_cons, List.map_nil]
    exact (classify_first_not_rising _ _ (State.init zeroPacket) hle).2
  · rw [hpb]
    simp only [List.map_cons, List.map_nil, List.take_succ_cons, List.take_zero,
      List.foldl_cons, List.foldl_nil]
    exact (classify_first_not_rising _ [] (State.init zeroPacket) hle).1
  · rw [hpb]
    intro h
    have hm : build_point pandarQT exactOps sampleConfig rec 0 0 (singleTag pandarQT rec)
        ∈ (List.take 3 ([0, 1, 2, 3].map (fun b =>
            (overflowPhase sampleConfig rec b,
             convert pandarQT exactOps sampleConfig rec b)))).flatMap
            (fun blk => blk.2) := by
      rw [List.mem_flatMap]
      exact ⟨(overflowPhase sampleConfig rec 0, convert pandarQT exactOps sampleConfig rec 0),
        List.mem_cons_self _ _, hmem⟩
    rw [h] at hm
    cases hm

/-- Witness of C14 (amended): the packet `turnPacket`, whose four blocks have
the phases 100, 200, 300 and 50, on a fresh decoder with the scan phase 0. -/
theorem overflow_segmentation_witness :
    sampleConfig.use_overflow_ = true
    ∧ (processedBlocks pandarQT exactOps sampleConfig zeroPacket [turnPacket]).map
        (fun blk => blk.1) = [100, 200, 300, 50]
    ∧ (ingest pandarQT exactOps sampleConfig (State.init zeroPacket) [turnPacket]).scan_pc_
        = ((processedBlocks pandarQT exactOps sampleConfig zeroPacket [turnPacket]).take
            3).flatMap (fun blk => blk.2)
    ∧ (ingest pandarQT exactOps sampleConfig (State.init zeroPacket) [turnPacket]).overflow_pc_
        = ((processedBlocks pandarQT exactOps sampleConfig zeroPacket [turnPacket]).drop
            3).flatMap (fun blk => blk.2)
    ∧ (ingest pandarQT exactOps sampleConfig (State.init zeroPacket)
        [turnPacket]).has_scanned_ = true := by
  have hacc : (parsePacket pandarQT exactOps turnPacket zeroPacket).1 = true := by
    rw [parsePacket_fst_iff]
    decide
  have h7 : byteAt turnPacket 7 = 4 := by decide
  have h6 : byteAt turnPacket 6 = 64 := by decide
  obtain ⟨hmode, a0, a1, a2, a3⟩ := rotation_scenarios_bytes.2
  have hpb := processedBlocks_single sampleConfig turnPacket zeroPacket hacc h7 h6 hmode
  have p0 : overflowPhase sampleConfig
      (parsePacket pandarQT exactOps turnPacket zeroPacket).2 0 = 100 := by
    rw [overflowPhase_parsed sampleConfig turnPacket zeroPacket hacc h7 h6 0 (by decide), a0]
    decide
  have p1 : overflowPhase sampleConfig
      (parsePacket pandarQT exactOps turnPacket zeroPacket).2 1 = 200 := by
    rw [overflowPhase_parsed sampleConfig turnPacket zeroPacket hacc h7 h6 1 (by decide), a1]
    decide
  have p2 : overflowPhase sampleConfig
      (parsePacket pandarQT exactOps turnPacket zeroPacket).2 2 = 300 := by
    rw [overflowPhase_parsed sampleConfig turnPacket zeroPacket hacc h7 h6 2 (by decide), a2]
    decide
  have p3 : overflowPhase sampleConfig
      (parsePacket pandarQT exactOps turnPacket zeroPacket).2 3 = 50 := by
    rw [overflowPhase_parsed sampleConfig turnPacket zeroPacket hacc h7 h6 3 (by decide), a3]
    decide
  generalize (parsePacket pandarQT exactOps turnPacket zeroPacket).2 = rec
    at hpb p0 p1 p2 p3
  have hrise : List.Chain (fun a b : Int => a < b) 0
      (([(overflowPhase sampleConfig rec 0, convert pandarQT exactOps sampleConfig rec 0),
         (overflowPhase sampleConfig rec 1, convert pandarQT exactOps sampleConfig rec 1)]
        ++ [(overflowPhase sampleConfig rec 2,
              convert pandarQT exactOps sampleConfig rec 2)]).map (fun blk => blk.1)) := by
    simp only [List.cons_append, List.nil_append, List.map_cons, List.map_nil, p0, p1, p2]
    exact List.Chain.cons (by decide) (List.Chain.cons (by decide)
      (List.Chain.cons (by decide) List.Chain.nil))
  have hdrop : ((overflowPhase sampleConfig rec 3, convert pandarQT exactOps sampleConfig rec 3)
      : Int × List (Point ℚ)).1
      ≤ ((overflowPhase sampleConfig rec 2, convert pandarQT exactOps sampleConfig rec 2)
      : Int × List (Point ℚ)).1 := by
    simp only [p2, p3]
    decide
  have hblocks : processedBlocks pandarQT exactOps sampleConfig zeroPacket [turnPacket]
      = [(overflowPhase sampleConfig rec 0, convert pandarQT exactOps sampleConfig rec 0),
         (overflowPhase sampleConfig rec 1, convert pandarQT exactOps sampleConfig rec 1)]
        ++ [(overflowPhase sampleConfig rec 2, convert pandarQT exactOps sampleConfig rec 2)]
        ++ (overflowPhase sampleConfig rec 3, convert pandarQT exactOps sampleConfig rec 3)
            :: [] := by
    rw [hpb]
    rfl
  obtain ⟨h1, h2, h3, _⟩ := overflow_segmentation pandarQT exactOps sampleConfig rfl
    zeroPacket [turnPacket]
    [(overflowPhase sampleConfig rec 0, convert pandarQT exactOps sampleConfig rec 0),
     (overflowPhase sampleConfig rec 1, convert pandarQT exactOps sampleConfig rec 1)]
    (overflowPhase sampleConfig rec 2, convert pandarQT exactOps sampleConfig rec 2)
    (overflowPhase sampleConfig rec 3, convert pandarQT exactOps sampleConfig rec 3)
    [] hblocks hrise hdrop
  refine ⟨rfl, ?_, ?_, ?_, h3⟩
  · rw [hpb]
    simp only [List.map_cons, List.map_nil, p0, p1, p2, p3]
  · rw [h1, hpb]
    rfl
  · rw [h2, hpb]
    rfl

/-! ## The fields of the parsed record -/

theorem le32_eq (raw : PandarPacket) (i : Nat) :
    le32 raw i = byteAt raw i + 256 * byteAt raw (i + 1) + 65536 * byteAt raw (i + 2)
      + 16777216 * byteAt raw (i + 3) := by
  have h0 := byteAt_lt raw i
  have h1 := byteAt_lt raw (i + 1)
  have h2 := byteAt_lt raw (i + 2)
  have h3 := byteAt_lt raw (i + 3)
  unfold le32
  have e1 : byteAt raw i ||| (byteAt raw (i + 1) <<< 8)
      = 2 ^ 8 * byteAt raw (i + 1) + byteAt raw i := by
    rw [Nat.or_comm, Nat.shiftLeft_eq, Nat.mul_comm _ (2 ^ 8)]
    exact (Nat.mul_add_lt_is_or (i := 8) (by simpa using h0) _).symm
  have e2 : (2 ^ 8 * byteAt raw (i + 1) + byteAt raw i) ||| (byteAt raw (i + 2) <<< 16)
      = 2 ^ 16 * byteAt raw (i + 2) + (2 ^ 8 * byteAt raw (i + 1) + byteAt raw i) := by
    rw [Nat.or_comm, Nat.shiftLeft_eq, Nat.mul_comm _ (2 ^ 16)]
    exact (Nat.mul_add_lt_is_or (i := 16) (by norm_num; omega) _).symm
  have e3 : (2 ^ 16 * byteAt raw (i + 2) + (2 ^ 8 * byteAt raw (i + 1) + byteAt raw i))
        ||| (byteAt raw (i + 3) <<< 24)
      = 2 ^ 24 * byteAt raw (i + 3)
        + (2 ^ 16 * byteAt raw (i + 2) + (2 ^ 8 * byteAt raw (i + 1) + byteAt raw i)) := by
    rw [Nat.or_comm, Nat.shiftLeft_eq, Nat.mul_comm _ (2 ^ 24)]
    exact (Nat.mul_add_lt_is_or (i := 24) (by norm_num; omega) _).symm
  rw [e1, e2, e3]
  norm_num
  omega

/-- The header, the microseconds, the return mode and the calendar time of the
record after an accepted packet. -/
theorem parsePacket_fields {D : Type} (K : Consts) (F : FloatOps D)
    (raw : PandarPacket) (old : Packet D) (hacc : (parsePacket K F raw old).1 = true) :
    (parsePacket K F raw old).2.header = parseHeader raw
    ∧ (parsePacket K F raw old).2.usec = le32 raw (tailOffset K raw)
    ∧ (parsePacket K F raw old).2.return_mode = byteAt raw (returnModeOffset K raw)
    ∧ (parsePacket K F raw old).2.t = parseTime raw (timeOffset K raw) := by
  rw [parsePacket_snd_of_accept K F raw old hacc]
  obtain ⟨h2, hh, _⟩ :=
    parseBlocks_spec K F raw ({ old with header := parseHeader raw }) K.HEAD_SIZE (byteAt raw 7)
  have hidx : ((List.range (byteAt raw 7)).foldl (parseBlock K F raw)
      ({ old with header := parseHeader raw }, K.HEAD_SIZE)).2
      = declaredBlockOffset K raw (byteAt raw 7) := h2
  refine ⟨hh, ?_, ?_, ?_⟩
  · show le32 raw (((List.range (byteAt raw 7)).foldl (parseBlock K F raw)
        ({ old with header := parseHeader raw }, K.HEAD_SIZE)).2
          + K.RESERVED_SIZE + K.ENGINE_VELOCITY) = _
    rw [hidx]
    rfl
  · show byteAt raw (((List.range (byteAt raw 7)).foldl (parseBlock K F raw)
        ({ old with header := parseHeader raw }, K.HEAD_SIZE)).2
          + K.RESERVED_SIZE + K.ENGINE_VELOCITY + K.TIMESTAMP_SIZE) = _
    rw [hidx]
    rfl
  · show parseTime raw (((List.range (byteAt raw 7)).foldl (parseBlock K F raw)
        ({ old with header := parseHeader raw }, K.HEAD_SIZE)).2
          + K.RESERVED_SIZE + K.ENGINE_VELOCITY + K.TIMESTAMP_SIZE
          + K.RETURN_SIZE + K.FACTORY_SIZE) = _
    rw [hidx]
    rfl

/-- The blocks of the record after an accepted packet, at the declared
offsets. -/
theorem parsePacket_declared {D : Type} (K : Consts) (F : FloatOps D)
    (raw : PandarPacket) (old : Packet D) (hacc : (parsePacket K F raw old).1 = true)
    (b : Nat) (hb : b < byteAt raw 7) :
    ((parsePacket K F raw old).2.blocks b).azimuth = le16 raw (declaredBlockOffset K raw b)
    ∧ ∀ u, u < byteAt raw 6 →
        ((parsePacket K F raw old).2.blocks b).units u
          = unitAt F raw (byteAt raw 9) (declaredUnitOffset K raw b u) := by
  obtain ⟨_, hlt⟩ := parsePacket_blocks K F raw old hacc
  obtain ⟨haz, hun⟩ := hlt b hb
  refine ⟨haz, ?_⟩
  intro u hu
  rw [hun u, if_pos hu]
  rfl

/-! ## Recovering the documented bytes from the record -/

theorem bytes_of_le16_eq (raw1 raw2 : PandarPacket) (i : Nat)
    (h : le16 raw1 i = le16 raw2 i) :
    byteAt raw1 i = byteAt raw2 i ∧ byteAt raw1 (i + 1) = byteAt raw2 (i + 1) := by
  have a0 := byteAt_lt raw1 i
  have a1 := byteAt_lt raw1 (i + 1)
  have b0 := byteAt_lt raw2 i
  have b1 := byteAt_lt raw2 (i + 1)
  rw [le16_eq, le16_eq] at h
  constructor <;> omega

theorem bytes_of_le32_eq (raw1 raw2 : PandarPacket) (i : Nat)
    (h : le32 raw1 i = le32 raw2 i) :
    byteAt raw1 i = byteAt raw2 i ∧ byteAt raw1 (i + 1) = byteAt raw2 (i + 1)
    ∧ byteAt raw1 (i + 2) = byteAt raw2 (i + 2) ∧ byteAt raw1 (i + 3) = byteAt raw2 (i + 3) := by
  have a0 := byteAt_lt raw1 i
  have a1 := byteAt_lt raw1 (i + 1)
  have a2 := byteAt_lt raw1 (i + 2)
  have a3 := byteAt_lt raw1 (i + 3)
  have b0 := byteAt_lt raw2 i
  have b1 := byteAt_lt raw2 (i + 1)
  have b2 := byteAt_lt raw2 (i + 2)
  have b3 := byteAt_lt raw2 (i + 3)
  rw [le32_eq, le32_eq] at h
  refine ⟨?_, ?_, ?_, ?_⟩ <;> omega

theorem bytes_of_parseTime_eq (raw1 raw2 : PandarPacket) (i : Nat)
    (h : parseTime raw1 i = parseTime raw2 i) :
    (byteAt raw1 i = byteAt raw2 i
      ∨ (byteAt raw1 i < 100 ∧ byteAt raw2 i = byteAt raw1 i + 100)
      ∨ (byteAt raw2 i < 100 ∧ byteAt raw1 i = byteAt raw2 i + 100))
    ∧ byteAt raw1 (i + 1) = byteAt raw2 (i + 1) ∧ byteAt raw1 (i + 2) = byteAt raw2 (i + 2)
    ∧ byteAt raw1 (i + 3) = byteAt raw2 (i + 3) ∧ byteAt raw1 (i + 4) = byteAt raw2 (i + 4)
    ∧ byteAt raw1 (i + 5) = byteAt raw2 (i + 5) := by
  have hy := congrArg Tm.tm_year h
  have hmon := congrArg Tm.tm_mon h
  have hday := congrArg Tm.tm_mday h
  have hhour := congrArg Tm.tm_hour h
  have hmin := congrArg Tm.tm_min h
  have hsec := congrArg Tm.tm_sec h
  simp only [parseTime] at hy hmon hday hhour hmin hsec
  refine ⟨?_, by omega, by omega, by omega, by omega, by omega⟩
  split_ifs at hy <;> omega

/-- C16 (amended): two accepted packets whose headers declare at most
`BLOCK_NUM` blocks and `UNIT_NUM` lasers and whose records agree (on the header,
on the blocks and units held in the arrays, on the microseconds, the return mode
and the calendar time) agree on the bytes of the documented fields other than
the year: the start-of-frame bytes, the protocol major and minor, the laser and
block counts, the return-type and distance-unit bytes, the azimuth bytes of
every declared block, the intensity and confidence bytes of every declared unit,
its two range bytes when the distance unit is not 0 (the conversion to a
distance being injective below 2^24), the four bytes of the microseconds, the
return-mode byte and the month, day, hour, minute and second bytes; their year
bytes are equal or differ by 100, the lower one being below 100. -/
theorem documented_bytes_determined {D : Type} (K : Consts) (F : FloatOps D)
    (raw1 raw2 : PandarPacket) (old1 old2 : Packet D)
    (hacc1 : (parsePacket K F raw1 old1).1 = true)
    (hacc2 : (parsePacket K F raw2 old2).1 = true)
    (hblocks : byteAt raw1 7 ≤ K.BLOCK_NUM) (hlasers : byteAt raw1 6 ≤ K.UNIT_NUM)
    (heq : recordsAgree K (parsePacket K F raw1 old1).2 (parsePacket K F raw2 old2).2) :
    (∀ i, i ∈ [0, 1, 2, 3, 6, 7, 8, 9] → byteAt raw1 i = byteAt raw2 i)
    ∧ (∀ b, b < byteAt raw1 7 →
        byteAt raw1 (declaredBlockOffset K raw1 b) = byteAt raw2 (declaredBlockOffset K raw1 b)
        ∧ byteAt raw1 (declaredBlockOffset K raw1 b + 1)
            = byteAt raw2 (declaredBlockOffset K raw1 b + 1))
    ∧ (∀ b u, b < byteAt raw1 7 → u < byteAt raw1 6 →
        byteAt raw1 (declaredUnitOffset K raw1 b u + 2)
            = byteAt raw2 (declaredUnitOffset K raw1 b u + 2)
        ∧ byteAt raw1 (declaredUnitOffset K raw1 b u + 3)
            = byteAt raw2 (declaredUnitOffset K raw1 b u + 3))
    ∧ (byteAt raw1 9 ≠ 0 →
        (∀ m n, m < 16777216 → n < 16777216 → F.ofMilli m = F.ofMilli n → m = n) →
        ∀ b u, b < byteAt raw1 7 → u < byteAt raw1 6 →
          byteAt raw1 (declaredUnitOffset K raw1 b u)
              = byteAt raw2 (declaredUnitOffset K raw1 b u)
          ∧ byteAt raw1 (declaredUnitOffset K raw1 b u + 1)
              = byteAt raw2 (declaredUnitOffset K raw1 b u + 1))
    ∧ (byteAt raw1 (tailOffset K raw1) = byteAt raw2 (tailOffset K raw1)
        ∧ byteAt raw1 (tailOffset K raw1 + 1) = byteAt raw2 (tailOffset K raw1 + 1)
        ∧ byteAt raw1 (tailOffset K raw1 + 2) = byteAt raw2 (tailOffset K raw1 + 2)
        ∧ byteAt raw1 (tailOffset K raw1 + 3) = byteAt raw2 (tailOffset K raw1 + 3))
    ∧ byteAt raw1 (returnModeOffset K raw1) = byteAt raw2 (returnModeOffset K raw1)
    ∧ ((byteAt raw1 (timeOffset K raw1) = byteAt raw2 (timeOffset K raw1)
          ∨ (byteAt raw1 (timeOffset K raw1) < 100
              ∧ byteAt raw2 (timeOffset K raw1) = byteAt raw1 (timeOffset K raw1) + 100)
          ∨ (byteAt raw2 (timeOffset K raw1) < 100
              ∧ byteAt raw1 (timeOffset K raw1) = byteAt raw2 (timeOffset K raw1) + 100))
        ∧ byteAt raw1 (timeOffset K raw1 + 1) = byteAt raw2 (timeOffset K raw1 + 1)
        ∧ byteAt raw1 (timeOffset K raw1 + 2) = byteAt raw2 (timeOffset K raw1 + 2)
        ∧ byteAt raw1 (timeOffset K raw1 + 3) = byteAt raw2 (timeOffset K raw1 + 3)
        ∧ byteAt raw1 (timeOffset K raw1 + 4) = byteAt raw2 (timeOffset K raw1 + 4)
        ∧ byteAt raw1 (timeOffset K raw1 + 5) = byteAt raw2 (timeOffset K raw1 + 5)) := by
  obtain ⟨f1h, f1u, f1r, f1t⟩ := parsePacket_fields K F raw1 old1 hacc1
  obtain ⟨f2h, f2u, f2r, f2t⟩ := parsePacket_fields K F raw2 old2 hacc2
  obtain ⟨qh, qb, qu, qr, qt⟩ := heq
  have hhdr : parseHeader raw1 = parseHeader raw2 := by
    rw [← f1h, ← f2h]
    exact qh
  have h2 : byteAt raw1 2 = byteAt raw2 2 := congrArg Header.chProtocolMajor hhdr
  have h3 : byteAt raw1 3 = byteAt raw2 3 := congrArg Header.chProtocolMinor hhdr
  have h6 : byteAt raw1 6 = byteAt raw2 6 := congrArg Header.chLaserNumber hhdr
  have h7 : byteAt raw1 7 = byteAt raw2 7 := congrArg Header.chBlockNumber hhdr
  have h8 : byteAt raw1 8 = byteAt raw2 8 := congrArg Header.chReturnType hhdr
  have h9 : byteAt raw1 9 = byteAt raw2 9 := congrArg Header.chDisUnit hhdr
  have hsob : (byteAt raw1 0 <<< 8) ||| byteAt raw1 1 = (byteAt raw2 0 <<< 8) ||| byteAt raw2 1 :=
    congrArg Header.sob hhdr
  rw [shl_or_eq _ _ (byteAt_lt raw1 1), shl_or_eq _ _ (byteAt_lt raw2 1)] at hsob
  have h0 : byteAt raw1 0 = byteAt raw2 0 := by
    have := byteAt_lt raw1 1
    have := byteAt_lt raw2 1
    omega
  have h1 : byteAt raw1 1 = byteAt raw2 1 := by omega
  have hbo : ∀ b, declaredBlockOffset K raw2 b = declaredBlockOffset K raw1 b := by
    intro b
    unfold declaredBlockOffset
    rw [h6]
  have huo : ∀ b u, declaredUnitOffset K raw2 b u = declaredUnitOffset K raw1 b u := by
    intro b u
    unfold declaredUnitOffset
    rw [hbo]
  have hto : tailOffset K raw2 = tailOffset K raw1 := by
    unfold tailOffset
    rw [hbo, h7]
  have hro : returnModeOffset K raw2 = returnModeOffset K raw1 := by
    unfold returnModeOffset
    rw [hto]
  have hyo : timeOffset K raw2 = timeOffset K raw1 := by
    unfold timeOffset
    rw [hro]
  have hunit : ∀ b u, b < byteAt raw1 7 → u < byteAt raw1 6 →
      unitAt F raw1 (byteAt raw1 9) (declaredUnitOffset K raw1 b u)
        = unitAt F raw2 (byteAt raw1 9) (declaredUnitOffset K raw1 b u) := by
    intro b u hb hu
    have e1 := (parsePacket_declared K F raw1 old1 hacc1 b hb).2 u hu
    have e2 := (parsePacket_declared K F raw2 old2 hacc2 b (h7 ▸ hb)).2 u (h6 ▸ hu)
    rw [huo, ← h9] at e2
    rw [← e1, ← e2]
    exact (qb b (by omega)).2 u (by omega)
  refine ⟨?_, ?_, ?_, ?_, ?_, ?_, ?_⟩
  · intro i hi
    simp only [List.mem_cons, List.mem_singleton, List.not_mem_nil, or_false] at hi
    rcases hi with rfl | rfl | rfl | rfl | rfl | rfl | rfl | rfl
    · exact h0
    · exact h1
    · exact h2
    · exact h3
    · exact h6
    · exact h7
    · exact h8
    · exact h9
  · intro b hb
    have e1 := (parsePacket_declared K F raw1 old1 hacc1 b hb).1
    have e2 := (parsePacket_declared K F raw2 old2 hacc2 b (h7 ▸ hb)).1
    rw [hbo] at e2
    refine bytes_of_le16_eq raw1 raw2 _ ?_
    rw [← e1, ← e2]
    exact (qb b (by omega)).1
  · intro b u hb hu
    have e := hunit b u hb hu
    exact ⟨congrArg Unit.intensity e, congrArg Unit.confidence e⟩
  · intro hd hinj b u hb hu
    have e := congrArg Unit.distance (hunit b u hb hu)
    simp only [unitAt] at e
    have l1 := le16_lt raw1 (declaredUnitOffset K raw1 b u)
    have l2 := le16_lt raw2 (declaredUnitOffset K raw1 b u)
    have d9 := byteAt_lt raw1 9
    have b1 : le16 raw1 (declaredUnitOffset K raw1 b u) * byteAt raw1 9 < 16777216 := by
      calc le16 raw1 (declaredUnitOffset K raw1 b u) * byteAt raw1 9
          ≤ 65535 * 255 := Nat.mul_le_mul (by omega) (by omega)
        _ < 16777216 := by norm_num
    have b2 : le16 raw2 (declaredUnitOffset K raw1 b u) * byteAt raw1 9 < 16777216 := by
      calc le16 raw2 (declaredUnitOffset K raw1 b u) * byteAt raw1 9
          ≤ 65535 * 255 := Nat.mul_le_mul (by omega) (by omega)
        _ < 16777216 := by norm_num
    rw [Nat.mod_eq_of_lt (by omega), Nat.mod_eq_of_lt (by omega)] at e
    have hprod := hinj _ _ b1 b2 e
    have hle : le16 raw1 (declaredUnitOffset K raw1 b u)
        = le16 raw2 (declaredUnitOffset K raw1 b u) :=
      Nat.eq_of_mul_eq_mul_right (Nat.pos_of_ne_zero hd) hprod
    exact bytes_of_le16_eq raw1 raw2 _ hle
  · have e : le32 raw1 (tailOffset K raw1) = le32 raw2 (tailOffset K raw1) := by
      rw [← f1u, ← hto, ← f2u]
      exact qu
    exact bytes_of_le32_eq raw1 raw2 _ e
  · rw [← f1r, ← hro, ← f2r]
    exact qr
  · have e : parseTime raw1 (timeOffset K raw1) = parseTime raw2 (timeOffset K raw1) := by
      rw [← f1t, ← hyo, ← f2t]
      exact qt
    exact bytes_of_parseTime_eq raw1 raw2 _ e

theorem packet_eq_of_fields {D : Type} (p q : Packet D) (h1 : p.header = q.header)
    (h2 : p.blocks = q.blocks) (h3 : p.usec = q.usec) (h4 : p.return_mode = q.return_mode)
    (h5 : p.t = q.t) : p = q := by
  cases p
  cases q
  simp only [Packet.mk.injEq]
  exact ⟨h1, h2, h3, h4, h5⟩

theorem block_eq_of_fields {D : Type} (p q : Block D) (h1 : p.azimuth = q.azimuth)
    (h2 : p.units = q.units) : p = q := by
  cases p
  cases q
  simp only [Block.mk.injEq]
  exact ⟨h1, h2⟩

/-- The bytes of `centuryPacket` are those of `samplePacket` except the year. -/
theorem centuryPacket_bytes (i : Nat) (hi : i ≠ 1062) :
    byteAt centuryPacket i = byteAt samplePacket i := by
  have hd : centuryPacket.data = samplePacket.data.set 1062 121 := rfl
  unfold byteAt
  rw [hd, List.getD_eq_getElem?_getD, List.getD_eq_getElem?_getD,
    List.getElem?_set_ne (Ne.symm hi)]

set_option maxRecDepth 100000 in
/-- The year bytes of the two packets and the counts of the sample packet. -/
theorem century_scenario_bytes :
    byteAt samplePacket 1062 = 21 ∧ byteAt centuryPacket 1062 = 121
    ∧ byteAt samplePacket 7 = 4 ∧ byteAt samplePacket 6 = 64 := by
  decide

/-- The records of the sample packet and of the packet with the year byte 121
are equal. -/
theorem century_records_equal :
    (parsePacket pandarQT exactOps samplePacket zeroPacket).1 = true
    ∧ (parsePacket pandarQT exactOps centuryPacket zeroPacket).1 = true
    ∧ (parsePacket pandarQT exactOps samplePacket zeroPacket).2
        = (parsePacket pandarQT exactOps centuryPacket zeroPacket).2 := by
  obtain ⟨y1, y2, s7, s6⟩ := century_scenario_bytes
  have c7 : byteAt centuryPacket 7 = 4 := (centuryPacket_bytes 7 (by decide)).trans s7
  have c6 : byteAt centuryPacket 6 = 64 := (centuryPacket_bytes 6 (by decide)).trans s6
  have hacc1 : (parsePacket pandarQT exactOps samplePacket zeroPacket).1 = true := by
    rw [parsePacket_fst_iff]
    decide
  have hacc2 : (parsePacket pandarQT exactOps centuryPacket zeroPacket).1 = true := by
    rw [parsePacket_fst_iff, centuryPacket_bytes 0 (by decide),
      centuryPacket_bytes 1 (by decide)]
    decide
  obtain ⟨f1h, f1u, f1r, f1t⟩ := parsePacket_fields pandarQT exactOps samplePacket zeroPacket hacc1
  obtain ⟨f2h, f2u, f2r, f2t⟩ :=
    parsePacket_fields pandarQT exactOps centuryPacket zeroPacket hacc2
  have t1 : tailOffset pandarQT samplePacket = 1056 := by
    unfold tailOffset declaredBlockOffset
    rw [s7, s6]
    rfl
  have t2 : tailOffset pandarQT centuryPacket = 1056 := by
    unfold tailOffset declaredBlockOffset
    rw [c7, c6]
    rfl
  have r1 : returnModeOffset pandarQT samplePacket = 1060 := by
    unfold returnModeOffset
    rw [t1]
    rfl
  have r2 : returnModeOffset pandarQT centuryPacket = 1060 := by
    unfold returnModeOffset
    rw [t2]
    rfl
  have o1 : timeOffset pandarQT samplePacket = 1062 := by
    unfold timeOffset
    rw [r1]
    rfl
  have o2 : timeOffset pandarQT centuryPacket = 1062 := by
    unfold timeOffset
    rw [r2]
    rfl
  refine ⟨hacc1, hacc2, ?_⟩
  apply packet_eq_of_fields
  · rw [f1h, f2h]
    unfold parseHeader
    rw [centuryPacket_bytes 0 (by decide), centuryPacket_bytes 1 (by decide),
      centuryPacket_bytes 2 (by decide), centuryPacket_bytes 3 (by decide),
      centuryPacket_bytes 6 (by decide), centuryPacket_bytes 7 (by decide),
      centuryPacket_bytes 8 (by decide), centuryPacket_bytes 9 (by decide)]
  · funext b
    obtain ⟨g1, l1⟩ := parsePacket_blocks pandarQT exactOps samplePacket zeroPacket hacc1
    obtain ⟨g2, l2⟩ := parsePacket_blocks pandarQT exactOps centuryPacket zeroPacket hacc2
    by_cases hb : b < 4
    · obtain ⟨a1, u1⟩ := l1 b (by rw [s7]; exact hb)
      obtain ⟨a2, u2⟩ := l2 b (by rw [c7]; exact hb)
      rw [s6] at a1 u1
      rw [c6] at a2 u2
      apply block_eq_of_fields
      · rw [a1, a2]
        have hoff : pandarQT.HEAD_SIZE + b * (pandarQT.BLOCK_HEADER_AZIMUTH
            + 64 * pandarQT.UNIT_SIZE) = 12 + b * 258 := rfl
        rw [hoff]
        unfold le16
        rw [centuryPacket_bytes _ (by omega), centuryPacket_bytes _ (by omega)]
      · funext u
        rw [u1 u, u2 u]
        by_cases hu : u < 64
        · rw [if_pos hu, if_pos hu]
          have hoff : pandarQT.HEAD_SIZE + b * (pandarQT.BLOCK_HEADER_AZIMUTH
              + 64 * pandarQT.UNIT_SIZE) + pandarQT.BLOCK_HEADER_AZIMUTH
              + u * pandarQT.UNIT_SIZE = 12 + b * 258 + 2 + u * 4 := rfl
          rw [hoff]
          unfold unitAt le16
          rw [centuryPacket_bytes 9 (by decide), centuryPacket_bytes _ (by omega),
            centuryPacket_bytes _ (by omega), centuryPacket_bytes _ (by omega),
            centuryPacket_bytes _ (by omega)]
        · rw [if_neg hu, if_neg hu]
    · rw [g1 b (by rw [s7]; omega), g2 b (by rw [c7]; omega)]
  · rw [f1u, f2u, t1, t2]
    unfold le32
    rw [centuryPacket_bytes _ (by decide), centuryPacket_bytes _ (by decide),
      centuryPacket_bytes _ (by decide), centuryPacket_bytes _ (by decide)]
  · rw [f1r, f2r, r1, r2, centuryPacket_bytes _ (by decide)]
  · rw [f1t, f2t, o1, o2]
    simp only [parseTime, Tm.mk.injEq]
    refine ⟨?_, ?_, ?_, ?_, ?_, ?_, ?_⟩
    · rw [y1, y2]
      decide
    · rw [centuryPacket_bytes _ (by decide)]
    · rw [centuryPacket_bytes _ (by decide)]
    · rw [centuryPacket_bytes _ (by decide)]
    · rw [centuryPacket_bytes _ (by decide)]
    · rw [centuryPacket_bytes _ (by decide)]
    · trivial

/-- The bytes of `zeroUnitRangePacket` are those of `zeroUnitPacket` except the
byte at offset 14. -/
theorem zeroUnitRangePacket_bytes (i : Nat) (hi : i ≠ 14) :
    byteAt zeroUnitRangePacket i = byteAt zeroUnitPacket i := by
  have hd : zeroUnitRangePacket.data = zeroUnitPacket.data.set 14 251 := rfl
  unfold byteAt
  rw [hd, List.getD_eq_getElem?_getD, List.getD_eq_getElem?_getD,
    List.getElem?_set_ne (Ne.symm hi)]

set_option maxRecDepth 100000 in
/-- The counts, the distance unit and the range bytes of the two packets with
the distance unit 0. -/
theorem zero_unit_scenario_bytes :
    byteAt zeroUnitPacket 7 = 4 ∧ byteAt zeroUnitPacket 6 = 64
    ∧ byteAt zeroUnitPacket 9 = 0
    ∧ byteAt zeroUnitPacket 14 = 250 ∧ byteAt zeroUnitRangePacket 14 = 251 := by
  decide

/-- The records of the two packets with the distance unit 0 are equal: every
distance is 0 whatever the range bytes. -/
theorem zero_unit_records_equal :
    (parsePacket pandarQT exactOps zeroUnitPacket zeroPacket).1 = true
    ∧ (parsePacket pandarQT exactOps zeroUnitRangePacket zeroPacket).1 = true
    ∧ (parsePacket pandarQT exactOps zeroUnitPacket zeroPacket).2
        = (parsePacket pandarQT exactOps zeroUnitRangePacket zeroPacket).2 := by
  obtain ⟨s7, s6, s9, _, _⟩ := zero_unit_scenario_bytes
  have c7 : byteAt zeroUnitRangePacket 7 = 4 :=
    (zeroUnitRangePacket_bytes 7 (by decide)).trans s7
  have c6 : byteAt zeroUnitRangePacket 6 = 64 :=
    (zeroUnitRangePacket_bytes 6 (by decide)).trans s6
  have c9 : byteAt zeroUnitRangePacket 9 = 0 :=
    (zeroUnitRangePacket_bytes 9 (by decide)).trans s9
  have hacc1 : (parsePacket pandarQT exactOps zeroUnitPacket zeroPacket).1 = true := by
    rw [parsePacket_fst_iff]
    decide
  have hacc2 : (parsePacket pandarQT exactOps zeroUnitRangePacket zeroPacket).1 = true := by
    rw [parsePacket_fst_iff, zeroUnitRangePacket_bytes 0 (by decide),
      zeroUnitRangePacket_bytes 1 (by decide)]
    decide
  obtain ⟨f1h, f1u, f1r, f1t⟩ :=
    parsePacket_fields pandarQT exactOps zeroUnitPacket zeroPacket hacc1
  obtain ⟨f2h, f2u, f2r, f2t⟩ :=
    parsePacket_fields pandarQT exactOps zeroUnitRangePacket zeroPacket hacc2
  have t1 : tailOffset pandarQT zeroUnitPacket = 1056 := by
    unfold tailOffset declaredBlockOffset
    rw [s7, s6]
    rfl
  have t2 : tailOffset pandarQT zeroUnitRangePacket = 1056 := by
    unfold tailOffset declaredBlockOffset
    rw [c7, c6]
    rfl
  have r1 : returnModeOffset pandarQT zeroUnitPacket = 1060 := by
    unfold returnModeOffset
    rw [t1]
    rfl
  have r2 : returnModeOffset pandarQT zeroUnitRangePacket = 1060 := by
    unfold returnModeOffset
    rw [t2]
    rfl
  have o1 : timeOffset pandarQT zeroUnitPacket = 1062 := by
    unfold timeOffset
    rw [r1]
    rfl
  have o2 : timeOffset pandarQT zeroUnitRangePacket = 1062 := by
    unfold timeOffset
    rw [r2]
    rfl
  refine ⟨hacc1, hacc2, ?_⟩
  apply packet_eq_of_fields
  · rw [f1h, f2h]
    unfold parseHeader
    rw [zeroUnitRangePacket_bytes 0 (by decide), zeroUnitRangePacket_bytes 1 (by decide),
      zeroUnitRangePacket_bytes 2 (by decide), zeroUnitRangePacket_bytes 3 (by decide),
      zeroUnitRangePacket_bytes 6 (by decide), zeroUnitRangePacket_bytes 7 (by decide),
      zeroUnitRangePacket_bytes 8 (by decide), zeroUnitRangePacket_bytes 9 (by decide)]
  · funext b
    obtain ⟨g1, l1⟩ := parsePacket_blocks pandarQT exactOps zeroUnitPacket zeroPacket hacc1
    obtain ⟨g2, l2⟩ :=
      parsePacket_blocks pandarQT exactOps zeroUnitRangePacket zeroPacket hacc2
    by_cases hb : b < 4
    · obtain ⟨a1, u1⟩ := l1 b (by rw [s7]; exact hb)
      obtain ⟨a2, u2⟩ := l2 b (by rw [c7]; exact hb)
      rw [s6] at a1 u1
      rw [c6] at a2 u2
      apply block_eq_of_fields
      · rw [a1, a2]
        have hoff : pandarQT.HEAD_SIZE + b * (pandarQT.BLOCK_HEADER_AZIMUTH
            + 64 * pandarQT.UNIT_SIZE) = 12 + b * 258 := rfl
        rw [hoff]
        unfold le16
        rw [zeroUnitRangePacket_bytes _ (by omega), zeroUnitRangePacket_bytes _ (by omega)]
      · funext u
        rw [u1 u, u2 u]
        by_cases hu : u < 64
        · rw [if_pos hu, if_pos hu]
          have hoff : pandarQT.HEAD_SIZE + b * (pandarQT.BLOCK_HEADER_AZIMUTH
              + 64 * pandarQT.UNIT_SIZE) + pandarQT.BLOCK_HEADER_AZIMUTH
              + u * pandarQT.UNIT_SIZE = 12 + b * 258 + 2 + u * 4 := rfl
          rw [hoff]
          simp only [unitAt, s9, c9, Nat.mul_zero]
          rw [zeroUnitRangePacket_bytes (12 + b * 258 + 2 + u * 4 + 2) (by omega),
            zeroUnitRangePacket_bytes (12 + b * 258 + 2 + u * 4 + 3) (by omega)]
        · rw [if_neg hu, if_neg hu]
    · rw [g1 b (by rw [s7]; omega), g2 b (by rw [c7]; omega)]
  · rw [f1u, f2u, t1, t2]
    unfold le32
    rw [zeroUnitRangePacket_bytes _ (by decide), zeroUnitRangePacket_bytes _ (by decide),
      zeroUnitRangePacket_bytes _ (by decide), zeroUnitRangePacket_bytes _ (by decide)]
  · rw [f1r, f2r, r1, r2, zeroUnitRangePacket_bytes _ (by decide)]
  · rw [f1t, f2t, o1, o2]
    unfold parseTime
    rw [zeroUnitRangePacket_bytes 1062 (by decide),
      zeroUnitRangePacket_bytes (1062 + 1) (by decide),
      zeroUnitRangePacket_bytes (1062 + 2) (by decide),
      zeroUnitRangePacket_bytes (1062 + 3) (by decide),
      zeroUnitRangePacket_bytes (1062 + 4) (by decide),
      zeroUnitRangePacket_bytes (1062 + 5) (by decide)]

/-- Equal records agree. -/
theorem recordsAgree_of_eq {D : Type} (K : Consts) (p q : Packet D) (h : p = q) :
    recordsAgree K p q := by
  subst h
  exact ⟨rfl, fun _ _ => ⟨rfl, fun _ _ => rfl⟩, rfl, rfl, rfl⟩

/-- The conversion of the scenarios to a distance is injective. -/
theorem exactOps_ofMilli_injective (m n : Nat) (h : exactOps.ofMilli m = exactOps.ofMilli n) :
    m = n := by
  have h1 : (m : ℚ) / 1000 = (n : ℚ) / 1000 := h
  have h2 : (m : ℚ) = (n : ℚ) := by linarith
  exact_mod_cast h2

/-- C16 (fails on the code): two pairs of accepted packets whose headers declare
`BLOCK_NUM` blocks and `UNIT_NUM` lasers, each pair parsing to one record and
differing in a documented byte. The sample packet, with the year byte 21, and
the same packet with the year byte 121 parse to the same record (the year 221 is
corrected to 121), so the year byte is not reproduced from the record. With the
distance-unit byte 0, the packets with the low range byte 250 and 251 for laser
0 of block 0 parse to the same record (every distance is 0), so the range bytes
are not reproduced from the record. -/
theorem documented_bytes_not_recovered :
    ((byteAt samplePacket 7 = pandarQT.BLOCK_NUM ∧ byteAt samplePacket 6 = pandarQT.UNIT_NUM)
      ∧ (parsePacket pandarQT exactOps samplePacket zeroPacket).1 = true
      ∧ (parsePacket pandarQT exactOps centuryPacket zeroPacket).1 = true
      ∧ (parsePacket pandarQT exactOps samplePacket zeroPacket).2
          = (parsePacket pandarQT exactOps centuryPacket zeroPacket).2
      ∧ timeOffset pandarQT samplePacket = 1062
      ∧ byteAt samplePacket 1062 = 21 ∧ byteAt centuryPacket 1062 = 121
      ∧ byteAt samplePacket 1062 ≠ byteAt centuryPacket 1062)
    ∧ ((byteAt zeroUnitPacket 7 = pandarQT.BLOCK_NUM
          ∧ byteAt zeroUnitPacket 6 = pandarQT.UNIT_NUM)
      ∧ (parsePacket pandarQT exactOps zeroUnitPacket zeroPacket).1 = true
      ∧ (parsePacket pandarQT exactOps zeroUnitRangePacket zeroPacket).1 = true
      ∧ (parsePacket pandarQT exactOps zeroUnitPacket zeroPacket).2
          = (parsePacket pandarQT exactOps zeroUnitRangePacket zeroPacket).2
      ∧ byteAt zeroUnitPacket 9 = 0
      ∧ declaredUnitOffset pandarQT zeroUnitPacket 0 0 = 14
      ∧ byteAt zeroUnitPacket 14 = 250 ∧ byteAt zeroUnitRangePacket 14 = 251
      ∧ byteAt zeroUnitPacket 14 ≠ byteAt zeroUnitRangePacket 14) := by
  obtain ⟨y1, y2, s7, s6⟩ := century_scenario_bytes
  obtain ⟨h1, h2, h3⟩ := century_records_equal
  obtain ⟨z7, z6, z9, z14, w14⟩ := zero_unit_scenario_bytes
  obtain ⟨k1, k2, k3⟩ := zero_unit_records_equal
  refine ⟨⟨⟨s7, s6⟩, h1, h2, h3, ?_, y1, y2, ?_⟩, ⟨⟨z7, z6⟩, k1, k2, k3, z9, ?_, z14, w14, ?_⟩⟩
  · unfold timeOffset returnModeOffset tailOffset declaredBlockOffset
    rw [s7, s6]
    rfl
  · rw [y1, y2]
    decide
  · unfold declaredUnitOffset declaredBlockOffset
    rw [z6]
    rfl
  · rw [z14, w14]
    decide

/-- Witness of C16 (amended): the sample packet and the packet with the year
byte 121 declare 4 blocks of 64 lasers and parse to the same record; their
return-mode bytes and the range bytes of laser 0 of block 0 are equal, and their
year bytes differ by 100. -/
theorem documented_bytes_determined_witness :
    ((parsePacket pandarQT exactOps samplePacket zeroPacket).1 = true
      ∧ (parsePacket pandarQT exactOps centuryPacket zeroPacket).1 = true
      ∧ byteAt samplePacket 7 ≤ pandarQT.BLOCK_NUM ∧ byteAt samplePacket 6 ≤ pandarQT.UNIT_NUM
      ∧ recordsAgree pandarQT (parsePacket pandarQT exactOps samplePacket zeroPacket).2
          (parsePacket pandarQT exactOps centuryPacket zeroPacket).2)
    ∧ (byteAt samplePacket (declaredUnitOffset pandarQT samplePacket 0 0)
          = byteAt centuryPacket (declaredUnitOffset pandarQT samplePacket 0 0)
        ∧ byteAt samplePacket (declaredUnitOffset pandarQT samplePacket 0 0 + 1)
          = byteAt centuryPacket (declaredUnitOffset pandarQT samplePacket 0 0 + 1))
    ∧ byteAt samplePacket (returnModeOffset pandarQT samplePacket)
        = byteAt centuryPacket (returnModeOffset pandarQT samplePacket)
    ∧ (byteAt samplePacket (timeOffset pandarQT samplePacket)
          = byteAt centuryPacket (timeOffset pandarQT samplePacket)
        ∨ (byteAt samplePacket (timeOffset pandarQT samplePacket) < 100
            ∧ byteAt centuryPacket (timeOffset pandarQT samplePacket)
              = byteAt samplePacket (timeOffset pandarQT samplePacket) + 100)
        ∨ (byteAt centuryPacket (timeOffset pandarQT samplePacket) < 100
            ∧ byteAt samplePacket (timeOffset pandarQT samplePacket)
              = byteAt centuryPacket (timeOffset pandarQT samplePacket) + 100)) :=
  ⟨⟨century_records_equal.1, century_records_equal.2.1, by decide, by decide,
      recordsAgree_of_eq pandarQT _ _ century_records_equal.2.2⟩,
   (documented_bytes_determined pandarQT exactOps samplePacket centuryPacket zeroPacket
      zeroPacket century_records_equal.1 century_records_equal.2.1 (by decide) (by decide)
      (recordsAgree_of_eq pandarQT _ _ century_records_equal.2.2)).2.2.2.1 (by decide)
      (fun m n _ _ h => exactOps_ofMilli_injective m n h) 0 0 (by decide) (by decide),
   (documented_bytes_determined pandarQT exactOps samplePacket centuryPacket zeroPacket
      zeroPacket century_records_equal.1 century_records_equal.2.1 (by decide) (by decide)
      (recordsAgree_of_eq pandarQT _ _ century_records_equal.2.2)).2.2.2.2.2.1,
   (documented_bytes_determined pandarQT exactOps samplePacket centuryPacket zeroPacket
      zeroPacket century_records_equal.1 century_records_equal.2.1 (by decide) (by decide)
      (recordsAgree_of_eq pandarQT _ _ century_records_equal.2.2)).2.2.2.2.2.2.1⟩

/-! ## Blocks the header does not declare -/

set_option maxRecDepth 100000 in
/-- The range of laser 0 in block 3 of the packet `turnPacket`, in millimetres. -/
theorem stale_scenario_bytes :
    le16 turnPacket (12 + 3 * 258 + 2 + 0 * 4) * byteAt turnPacket 9 % 4294967296 = 1000 := by
  decide

/-- C17 (fails on the code): the packet `shortPacket` is accepted and declares 2
blocks, so `parsePacket` leaves the blocks 2 and 3 of the record as they were.
Parsed after the packet `turnPacket`, its record still holds in block 3 the
distance 1 of laser 0 of that packet (it holds 0 when parsed over the zero
record), and `convert` emits a point for it. -/
theorem parsePacket_keeps_stale_blocks :
    (∀ old : Packet ℚ,
      (parsePacket pandarQT exactOps shortPacket old).1 = true
      ∧ (parsePacket pandarQT exactOps shortPacket old).2.blocks 3 = old.blocks 3)
    ∧ 3 < pandarQT.BLOCK_NUM
    ∧ (((parsePacket pandarQT exactOps shortPacket
          (parsePacket pandarQT exactOps turnPacket zeroPacket).2).2.blocks 3).units
        0).distance = 1
    ∧ (((parsePacket pandarQT exactOps shortPacket zeroPacket).2.blocks 3).units 0).distance = 0
    ∧ build_point pandarQT exactOps sampleConfig
          (parsePacket pandarQT exactOps shortPacket
            (parsePacket pandarQT exactOps turnPacket zeroPacket).2).2 3 0
          (singleTag pandarQT (parsePacket pandarQT exactOps shortPacket
            (parsePacket pandarQT exactOps turnPacket zeroPacket).2).2)
        ∈ convert pandarQT exactOps sampleConfig
            (parsePacket pandarQT exactOps shortPacket
              (parsePacket pandarQT exactOps turnPacket zeroPacket).2).2 3 := by
  have hacc : ∀ old : Packet ℚ, (parsePacket pandarQT exactOps shortPacket old).1 = true := by
    intro old
    rw [parsePacket_fst_iff]
    decide
  have h7 : byteAt shortPacket 7 = 2 := by decide
  have hkeep : ∀ old : Packet ℚ,
      (parsePacket pandarQT exactOps shortPacket old).2.blocks 3 = old.blocks 3 := by
    intro old
    exact (parsePacket_blocks pandarQT exactOps shortPacket old (hacc old)).1 3
      (by rw [h7]; decide)
  have hturn : (parsePacket pandarQT exactOps turnPacket zeroPacket).1 = true := by
    rw [parsePacket_fst_iff]
    decide
  have hdist : (((parsePacket pandarQT exactOps turnPacket zeroPacket).2.blocks 3).units
      0).distance = 1 := by
    rw [parsed_distance_exact turnPacket zeroPacket hturn (by decide) (by decide) 3 0
      (by decide) (by decide), stale_scenario_bytes]
    norm_num
  have hstale : (((parsePacket pandarQT exactOps shortPacket
      (parsePacket pandarQT exactOps turnPacket zeroPacket).2).2.blocks 3).units 0).distance
      = 1 := by
    rw [hkeep]
    exact hdist
  refine ⟨fun old => ⟨hacc old, hkeep old⟩, by decide, hstale, ?_, ?_⟩
  · rw [hkeep]
    rfl
  · exact convert_mem_of_usable pandarQT exactOps sampleConfig _ 3 0 (by decide) rfl
      (by rw [hstale]; unfold inRange; norm_num [sampleConfig])

/-- The part of the independence property that holds: when the header declares
exactly `BLOCK_NUM` blocks and `UNIT_NUM` lasers, the header, the blocks and
units within the arrays, the microseconds, the return mode and the calendar
time of the record do not depend on the record before the call. -/
theorem parsePacket_independent_of_old {D : Type} (K : Consts) (F : FloatOps D)
    (raw : PandarPacket) (old1 old2 : Packet D)
    (hacc : (parsePacket K F raw old1).1 = true)
    (hblocks : byteAt raw 7 = K.BLOCK_NUM) (hlasers : byteAt raw 6 = K.UNIT_NUM) :
    (parsePacket K F raw old1).2.header = (parsePacket K F raw old2).2.header
    ∧ (∀ b u, b < K.BLOCK_NUM → u < K.UNIT_NUM →
        ((parsePacket K F raw old1).2.blocks b).azimuth
            = ((parsePacket K F raw old2).2.blocks b).azimuth
        ∧ ((parsePacket K F raw old1).2.blocks b).units u
            = ((parsePacket K F raw old2).2.blocks b).units u)
    ∧ (parsePacket K F raw old1).2.usec = (parsePacket K F raw old2).2.usec
    ∧ (parsePacket K F raw old1).2.return_mode = (parsePacket K F raw old2).2.return_mode
    ∧ (parsePacket K F raw old1).2.t = (parsePacket K F raw old2).2.t := by
  have hacc2 : (parsePacket K F raw old2).1 = true := by
    rw [parsePacket_fst_iff]
    exact (parsePacket_fst_iff K F raw old1).1 hacc
  obtain ⟨a1, a2, a3, a4⟩ := parsePacket_fields K F raw old1 hacc
  obtain ⟨b1, b2, b3, b4⟩ := parsePacket_fields K F raw old2 hacc2
  refine ⟨a1.trans b1.symm, ?_, a2.trans b2.symm, a3.trans b3.symm, a4.trans b4.symm⟩
  intro b u hb hu
  obtain ⟨c1, c2⟩ := parsePacket_declared K F raw old1 hacc b (by omega)
  obtain ⟨d1, d2⟩ := parsePacket_declared K F raw old2 hacc2 b (by omega)
  exact ⟨c1.trans d1.symm, (c2 u (by omega)).trans (d2 u (by omega)).symm⟩

end PandarQT
